import Mathlib

/-! # hdf5_lookup: great-circle distance, nearest-cell search and index rescaling

A shallow embedding of `src/hdf5_lookup.c`.

* `gc_distance` (lines 78-89) is embedded twice.  `gc_distance_double` is the
  function as the code computes it: IEEE-754 binary64 values (with the
  infinities and NaN), every operation rounded, `sqrt` correctly rounded and
  the C library functions `sin`, `cos`, `asin`, `pow` as parameters.
  `gc_distance` is the great-circle distance that the code approximates: the
  same expression over `ℝ` with the exact functions and `Real.pi`; it serves
  the statements made for real inputs.
* `get_indices_from_lat_long` (lines 91-153) is embedded with the distance
  function as a parameter, over binary64 values
  (`get_indices_from_lat_long_double`) and over an arbitrary ordered field, so
  that it can be run on rational grids and with `gc_distance` on `ℝ`.  The
  `do { ... } while (found == 0)` loop is a fuel-indexed recursion.
* The index rescaling of `main` (lines 324-338) is embedded with IEEE-754
  binary32 rounding made explicit on `ℚ`.
* `dimalloc` (`hdf5_helper.src/dimalloc3.c`) and the four `convert_*` functions
  (`hdf5_helper.src/hdf5_helper.c`) are embedded over heap blocks seen as maps
  from byte offsets to pointers and scalars, with `size_t` arithmetic modulo
  `2^64` and `none` for undefined behaviour.
* The element count and the buffer of `get_variable_data_by_name`
  (`hdf5_helper.c`, lines 893-968) and the reshape of
  `get_variable_data_by_name_dimalloc2` (lines 1047-1212) are embedded with the
  same `size_t` arithmetic and heap blocks.
* `main` (lines 168-386) is embedded as a function from the command line and
  the functions that read the data file to the exit status and the list of
  `printf` calls written to standard output.
-/

namespace Hdf5Lookup

/-! ## Great-circle distance (hdf5_lookup.c, lines 78-89) -/

/-- The expression of line 86 for the local `a` of `gc_distance`, after the
degree-to-radian conversions of lines 80-85, evaluated exactly over the reals.
The `double` that the code computes is `gc_a_double`. -/
noncomputable def gc_a (lat_0 lon_0 lat_1 lon_1 : ℝ) : ℝ :=
  let pi := Real.pi
  let lat_s := lat_0 * pi / 180
  let lon_s := lon_0 * pi / 180
  let lat_e := lat_1 * pi / 180
  let lon_e := lon_1 * pi / 180
  let dLon := lon_e - lon_s
  let dLat := lat_e - lat_s
  Real.sin (dLat / 2) ^ 2 + Real.cos lat_s * Real.cos lat_e * Real.sin (dLon / 2) ^ 2

/-- The great-circle distance of lines 78-89, `c = 2 * asin(sqrt(a))` returned
as `c * 6367` kilometres, evaluated exactly over the reals.  The `double` that
the code computes is `gc_distance_double`. -/
noncomputable def gc_distance (lat_0 lon_0 lat_1 lon_1 : ℝ) : ℝ :=
  let a := gc_a lat_0 lon_0 lat_1 lon_1
  let c := 2 * Real.arcsin (Real.sqrt a)
  c * 6367


/-! ## Nearest-cell search (hdf5_lookup.c, lines 91-153) -/

/-- The values taken by `i` in `for (i = 0; i < n; i++)` with `int i, n`:
`0, 1, ..., n - 1`, and none when `n <= 0`. -/
def for_range (n : Int) : List Int :=
  (List.range n.toNat).map Int.ofNat

/-- Conversion of a floating value to `int`, as in `ret_vals[2] = closest`
(line 150) and the casts `(int) (...)` of lines 337-338: the fractional part is
discarded (truncation toward zero).  The width of `int` is not part of this
function; on line 150 the value lies between the smallest distance and 99999. -/
def double_to_int {α : Type} [LinearOrderedField α] [FloorRing α] (x : α) : Int :=
  if 0 ≤ x then ⌊x⌋ else ⌈x⌉

/-- The variables the scan of lines 108-133 updates: `closest`, `tmp_row`,
`tmp_col`. -/
structure ScanState (α : Type) where
  closest : α
  tmp_row : Int
  tmp_col : Int

section Search

variable {α : Type} [LinearOrderedField α]

/-- The body of the inner `for` loop (lines 111-131) at one `(row, col)`.
`gc` stands for the distance function called on line 116. -/
def visit_cell (gc : α → α → α → α → α) (data_lat data_lon : Int → Int → α)
    (target_lat target_lon : α) (row col : Int) (st : ScanState α) : ScanState α :=
  let lat := data_lat row col
  let lon := data_lon row col
  if lat > -9999 ∧ lon > -9999 then
    let distance := gc lat lon target_lat target_lon
    if st.closest > distance then
      { closest := distance, tmp_row := row, tmp_col := col }
    else st
  else st

/-- The inner loop `for (col = 0; col < cols; col++)` (line 109) for one row. -/
def scan_row (gc : α → α → α → α → α) (data_lat data_lon : Int → Int → α)
    (target_lat target_lon : α) (cols : Int) (row : Int) (st : ScanState α) : ScanState α :=
  (for_range cols).foldl
    (fun s col => visit_cell gc data_lat data_lon target_lat target_lon row col s) st

/-- The outer loop `for (row = 0; row < rows; row++)` (line 108): one full scan
of the grid. -/
def scan_grid (gc : α → α → α → α → α) (data_lat data_lon : Int → Int → α)
    (target_lat target_lon : α) (rows cols : Int) (st : ScanState α) : ScanState α :=
  (for_range rows).foldl
    (fun s row => scan_row gc data_lat data_lon target_lat target_lon cols row s) st

/-- The `do { ... } while (found == 0)` loop (lines 101-144), with the live
variables `closest`, `closest_row`, `closest_col` as arguments.  Each unit of
fuel pays for one execution of the loop body; `none` means the fuel ran out
before `found` was set. -/
def search_loop (gc : α → α → α → α → α) (data_lat data_lon : Int → Int → α)
    (target_lat target_lon : α) (rows cols : Int) :
    Nat → α → Int → Int → Option (Int × Int × α)
  | 0, _, _, _ => none
  | fuel + 1, closest, closest_row, closest_col =>
    let st := scan_grid gc data_lat data_lon target_lat target_lon rows cols
      { closest := closest, tmp_row := closest_row, tmp_col := closest_col }
    if closest_col = st.tmp_col ∧ closest_row = st.tmp_row then
      some (closest_row, closest_col, st.closest)
    else
      search_loop gc data_lat data_lon target_lat target_lon rows cols
        fuel st.closest st.tmp_row st.tmp_col

/-- The function `get_indices_from_lat_long` (lines 91-153).  The result is the
array `ret_vals`: `(closest_row, closest_col, (int) closest)`. -/
def get_indices_from_lat_long [FloorRing α] (gc : α → α → α → α → α)
    (data_lat data_lon : Int → Int → α) (target_lat target_lon : α) (rows cols : Int)
    (fuel : Nat) : Option (Int × Int × Int) :=
  match search_loop gc data_lat data_lon target_lat target_lon rows cols fuel 99999 (-9999) (-9999) with
  | none => none
  | some (closest_row, closest_col, closest) =>
    some (closest_row, closest_col, double_to_int closest)

end Search


/-! ## Index rescaling in `main` (hdf5_lookup.c, lines 324-338)

The C `float` is taken to be IEEE-754 binary32 with every operation rounded to
nearest, ties to even.  A `float` value is represented by the rational it
denotes.  The exponent range is not modelled: with `int` operands no quotient or
product of lines 337-338 leaves the normal range of binary32. -/

/-- Rounding of a rational to the nearest integer, ties to the even one. -/
def round_half_even (x : ℚ) : ℤ :=
  let f := ⌊x⌋
  let r := x - f
  if r < 1 / 2 then f
  else if 1 / 2 < r then f + 1
  else if f % 2 = 0 then f else f + 1

/-- Rounding of a rational to binary32: with `2^e <= |q| < 2^(e+1)` the
neighbouring values are `2^(e-23)` apart (24-bit significand), and `q` goes to
the nearest multiple of that unit, ties to the even significand.  This is the
result of a cast `(float) n` and of each `float` operation on exact operands. -/
def to_float (q : ℚ) : ℚ :=
  if q = 0 then 0
  else
    let e := Int.log 2 |q|
    let ulp : ℚ := 2 ^ (e - 23)
    round_half_even (q / ulp) * ulp

/-- The expression of lines 337 and 338,
`(int) ((float) ll_row * ((float) row_count / (float) ll_row_count))`, for one
axis: `ll_idx` is the index found on the coordinate grid, `ll_count` the extent
of the coordinate grid and `count` the extent of the variable's grid.  With
`ll_count = 0` the quotient is infinite or NaN, and a product whose integral
part is not a 32-bit `int` has no defined conversion: `none` in both cases. -/
def rescale_index (ll_idx count ll_count : Int) : Option Int :=
  if ll_count = 0 then none
  else
    let scaled :=
      to_float (to_float (ll_idx : ℚ) * to_float (to_float (count : ℚ) / to_float (ll_count : ℚ)))
    let new_idx := double_to_int scaled
    if -2 ^ 31 ≤ new_idx ∧ new_idx < 2 ^ 31 then some new_idx else none

/-- The pair `(new_row, new_col)` of lines 337-338. -/
def rescale_indices (ll_row ll_col row_count col_count ll_row_count ll_col_count : Int) :
    Option (Int × Int) :=
  match rescale_index ll_row row_count ll_row_count,
    rescale_index ll_col col_count ll_col_count with
  | some new_row, some new_col => some (new_row, new_col)
  | _, _ => none

/-! ## Heap blocks and `size_t` arithmetic (dimalloc3.c, hdf5_helper.c)

The embedding fixes an LP64 platform: `size_t` is 64 bits wide and a pointer
takes 8 bytes.  Unsigned arithmetic wraps modulo `2^64`.  A pointer into a
block is represented by its byte offset from the first byte of the block.
`malloc` is taken to succeed; the `NULL` returns on allocation failure
(dimalloc3.c, lines 69 and 92) are outside the embedding. -/

/-- Addition `a + b` in `size_t`. -/
def size_add (a b : Nat) : Nat := (a + b) % 2 ^ 64

/-- Multiplication `a * b` in `size_t`. -/
def size_mul (a b : Nat) : Nat := (a * b) % 2 ^ 64

/-- Subtraction `a - b` in `size_t`, for `a, b < 2^64`. -/
def size_sub (a b : Nat) : Nat := (a + 2 ^ 64 - b) % 2 ^ 64

/-- The value of `sizeof(void *)`. -/
def sizeof_ptr : Nat := 8

/-- A block returned by `malloc`: its length in bytes, the pointers stored in
it and the scalars stored in it, both keyed by the byte offset at which they
start.  `none` marks bytes that were never assigned.  Pointers and scalars are
kept in separate maps, which is exact as long as no scalar overlaps a pointer
slot. -/
structure Block (α : Type) where
  bytes : Nat
  ptrs : Nat → Option Nat
  elems : Nat → Option α

/-- The block `malloc(bytes)`: nothing assigned yet. -/
def malloc {α : Type} (bytes : Nat) : Block α :=
  { bytes := bytes, ptrs := fun _ => none, elems := fun _ => none }

/-- Assignment `*(void **)(mem + off) = p`; `none` when the slot does not lie
inside the block. -/
def Block.store_ptr {α : Type} (b : Block α) (off p : Nat) : Option (Block α) :=
  if off + sizeof_ptr ≤ b.bytes then
    some { b with ptrs := fun o => if o = off then some p else b.ptrs o }
  else none

/-- The pointer read from `mem + off`; `none` when the slot does not lie inside
the block or was never assigned. -/
def Block.load_ptr {α : Type} (b : Block α) (off : Nat) : Option Nat :=
  if off + sizeof_ptr ≤ b.bytes then b.ptrs off else none

/-- Assignment of a scalar of `size` bytes at `mem + off`; `none` when it does
not lie inside the block.  The stored `v` is `none` for an indeterminate
value. -/
def Block.store {α : Type} (b : Block α) (off size : Nat) (v : Option α) : Option (Block α) :=
  if off + size ≤ b.bytes then
    some { b with elems := fun o => if o = off then v else b.elems o }
  else none

/-- The scalar of `size` bytes read from `mem + off`; the outer `none` when it
does not lie inside the block, the inner `none` for an indeterminate value. -/
def Block.load {α : Type} (b : Block α) (off size : Nat) : Option (Option α) :=
  if off + size ≤ b.bytes then some (b.elems off) else none

/-- The address of `a[i][j]` for `T **a` with `sizeof(T) = size`. -/
def Block.index2 {α : Type} (a : Block α) (size i j : Nat) : Option Nat := do
  let p ← a.load_ptr (sizeof_ptr * i)
  pure (p + size * j)

/-- The address of `a[i][j][k]` for `T ***a` with `sizeof(T) = size`. -/
def Block.index3 {α : Type} (a : Block α) (size i j k : Nat) : Option Nat := do
  let p ← a.load_ptr (sizeof_ptr * i)
  let q ← a.load_ptr (p + sizeof_ptr * j)
  pure (q + size * k)

/-! ## `dimalloc` (dimalloc3.c, lines 55-117) -/

/-- Result of a function returning a pointer: a non-`NULL` pointer to a block,
`NULL`, or undefined behaviour. -/
inductive Ret (β : Type) where
  | ptr (b : β)
  | null
  | undef

/-- The block behind a non-`NULL` result. -/
def Ret.block {β : Type} : Ret β → Option β
  | Ret.ptr b => some b
  | _ => none

/-- The value of `bytes` passed to `malloc` on line 91 (lines 78-87).  `none`
when `sizes` is read outside its `dimensions` entries. -/
def dimalloc_bytes (size dimensions : Nat) (sizes : List Nat) : Option Nat := do
  let st ← (List.range (size_sub dimensions 1)).foldlM
    (fun (st : Nat × Nat) i => do
      let s ← sizes[i]?
      pure (size_add st.1 (size_mul (size_mul st.2 s) sizeof_ptr), size_mul st.2 s))
    (0, 1)
  let last ← sizes[size_sub dimensions 1]?
  pure (size_add st.1 (size_mul (size_mul st.2 last) size))

/-- The variables of the pointer-assignment part: `stride`, `base` (as a byte
offset from `mem`) and the block. -/
structure PtrState (α : Type) where
  stride : Nat
  base : Nat
  mem : Block α

/-- Line 101, `start[j] = base + j * sizes[i + 1]`, for one `j`. -/
def dimalloc_level_slot {α : Type} (sizes : List Nat) (i start base : Nat) (m : Block α)
    (j : Nat) : Option (Block α) := do
  let s1 ← sizes[i + 1]?
  m.store_ptr (start + sizeof_ptr * j) (base + sizeof_ptr * size_mul j s1)

/-- The body of the loop of lines 97-104 for one `i`. -/
def dimalloc_level {α : Type} (sizes : List Nat) (st : PtrState α) (i : Nat) :
    Option (PtrState α) := do
  let si ← sizes[i]?
  let start := st.base
  let base := st.base + sizeof_ptr * size_mul si st.stride
  let mem ← (List.range (size_mul st.stride si)).foldlM
    (dimalloc_level_slot sizes i start base) st.mem
  pure { stride := size_mul st.stride si, base := base, mem := mem }

/-- Line 112, `start[j] = data + j * sizes[dimensions - 1] * size`, for one
`j`. -/
def dimalloc_data_slot {α : Type} (size dimensions : Nat) (sizes : List Nat) (start data : Nat)
    (m : Block α) (j : Nat) : Option (Block α) := do
  let s ← sizes[size_sub dimensions 1]?
  m.store_ptr (start + sizeof_ptr * j) (data + size_mul (size_mul j s) size)

/-- Lines 107-113: the pointers to the data. -/
def dimalloc_data {α : Type} (size dimensions : Nat) (sizes : List Nat) (st : PtrState α) :
    Option (Block α) := do
  let start := st.base
  let data ←
    if dimensions > 1 then do
      let s2 ← sizes[size_sub dimensions 2]?
      pure (st.base + sizeof_ptr * size_mul s2 st.stride)
    else pure st.base
  let n2 ← sizes[size_sub dimensions 2]?
  (List.range (size_mul st.stride n2)).foldlM
    (dimalloc_data_slot size dimensions sizes start data) st.mem

/-- The function `dimalloc` (lines 55-117).  `args` are the variadic arguments;
`sizes[i]` is defined for `i < dimensions` only. -/
def dimalloc {α : Type} (size dimensions : Nat) (args : List Nat) : Ret (Block α) :=
  if dimensions ≤ 0 then Ret.null
  else if args.length < dimensions then Ret.undef
  else
    let sizes := args.take dimensions
    let run : Option (Block α) := do
      let bytes ← dimalloc_bytes size dimensions sizes
      let st ← (List.range (size_sub dimensions 2)).foldlM (dimalloc_level sizes)
        { stride := 1, base := 0, mem := malloc bytes }
      dimalloc_data size dimensions sizes st
    match run with
    | some mem => Ret.ptr mem
    | none => Ret.undef

/-! ## Flatten and unflatten (hdf5_helper.c, lines 76-714)

The four functions test `type` against twenty tags, one `if` per tag, and every
branch does the same thing on a pointer of the tag's C type.  `Kind` lists the
tags; `width` gives `sizeof` of the C type each branch uses (a parameter: some
of the types are declared in the HDF5 headers).  A `type` outside the twenty
tags leaves `dataout` unassigned and is outside the embedding.  The calls of
`free` are not modelled.  `none` stands for undefined behaviour. -/

/-- The tags `type` is compared with. -/
inductive Kind where
  | H5T_NATIVE_CHAR | H5T_NATIVE_SCHAR | H5T_NATIVE_UCHAR | H5T_NATIVE_SHORT
  | H5T_NATIVE_USHORT | H5T_NATIVE_INT | H5T_INTEGER | H5T_NATIVE_UINT
  | H5T_NATIVE_LONG | H5T_NATIVE_ULONG | H5T_NATIVE_LLONG | H5T_NATIVE_ULLONG
  | H5T_NATIVE_FLOAT | H5T_FLOAT | H5T_NATIVE_DOUBLE | H5T_NATIVE_LDOUBLE
  | H5T_NATIVE_HSIZE | H5T_NATIVE_HSSIZE | H5T_NATIVE_HERR | H5T_NATIVE_HBOOL
  deriving DecidableEq

/-- Lines 163-184: the copy for one `(row, col)`. -/
def convert_2d_to_1d_cell {α : Type} (width : Kind → Nat) (data_in : Block α) (type : Kind)
    (cols : Nat) (d : Block α) (row col : Nat) : Option (Block α) := do
  let index := size_add (size_mul row cols) col
  let addr ← data_in.index2 (width type) row col
  let v ← data_in.load addr (width type)
  d.store (width type * index) (width type) v

/-- The function `convert_2d_to_1d` (lines 76-233). -/
def convert_2d_to_1d {α : Type} (width : Kind → Nat) (data_in : Block α) (type : Kind)
    (rows cols : Nat) : Option (Block α) :=
  let data : Block α := malloc (size_mul (size_mul (width type) rows) cols)
  (List.range rows).foldlM
    (fun (d : Block α) row =>
      (List.range cols).foldlM
        (fun (d : Block α) col => convert_2d_to_1d_cell width data_in type cols d row col) d)
    data

/-- Lines 322-343: the copy for one `(row, col)`. -/
def convert_1d_to_2d_cell {α : Type} (width : Kind → Nat) (data_in : Block α) (type : Kind)
    (cols : Nat) (d : Block α) (row col : Nat) : Option (Block α) := do
  let index := size_add (size_mul row cols) col
  let v ← data_in.load (width type * index) (width type)
  let addr ← d.index2 (width type) row col
  d.store addr (width type) v

/-- The function `convert_1d_to_2d` (lines 235-392). -/
def convert_1d_to_2d {α : Type} (width : Kind → Nat) (data_in : Block α) (type : Kind)
    (rows cols : Nat) : Option (Block α) :=
  match (dimalloc (width type) 2 [rows, cols] : Ret (Block α)) with
  | Ret.ptr data2d =>
    (List.range rows).foldlM
      (fun (d : Block α) row =>
        (List.range cols).foldlM
          (fun (d : Block α) col => convert_1d_to_2d_cell width data_in type cols d row col) d)
      data2d
  | _ => none

/-- Lines 482-503: the copy for one `(lev, row, col)`. -/
def convert_3d_to_1d_cell {α : Type} (width : Kind → Nat) (data_in : Block α) (type : Kind)
    (cols : Nat) (d : Block α) (lev row col : Nat) : Option (Block α) := do
  let index := size_add (size_mul row cols) col
  let addr ← data_in.index3 (width type) lev row col
  let v ← data_in.load addr (width type)
  d.store (width type * index) (width type) v

/-- The function `convert_3d_to_1d` (lines 394-553). -/
def convert_3d_to_1d {α : Type} (width : Kind → Nat) (data_in : Block α) (type : Kind)
    (levs rows cols : Nat) : Option (Block α) :=
  let data : Block α := malloc (size_mul (size_mul (size_mul (width type) levs) rows) cols)
  (List.range levs).foldlM
    (fun (d : Block α) lev =>
      (List.range rows).foldlM
        (fun (d : Block α) row =>
          (List.range cols).foldlM
            (fun (d : Block α) col =>
              convert_3d_to_1d_cell width data_in type cols d lev row col) d)
        d)
    data

/-- Lines 643-664: the copy for one `(lev, row, col)`. -/
def convert_1d_to_3d_cell {α : Type} (width : Kind → Nat) (data_in : Block α) (type : Kind)
    (cols : Nat) (d : Block α) (lev row col : Nat) : Option (Block α) := do
  let index := size_add (size_mul row cols) col
  let v ← data_in.load (width type * index) (width type)
  let addr ← d.index3 (width type) lev row col
  d.store addr (width type) v

/-- The function `convert_1d_to_3d` (lines 555-714). -/
def convert_1d_to_3d {α : Type} (width : Kind → Nat) (data_in : Block α) (type : Kind)
    (levs rows cols : Nat) : Option (Block α) :=
  match (dimalloc (width type) 3 [levs, rows, cols] : Ret (Block α)) with
  | Ret.ptr data3d =>
    (List.range levs).foldlM
      (fun (d : Block α) lev =>
        (List.range rows).foldlM
          (fun (d : Block α) row =>
            (List.range cols).foldlM
              (fun (d : Block α) col =>
                convert_1d_to_3d_cell width data_in type cols d lev row col) d)
          d)
      data3d
  | _ => none

/-- The scalar `a[i]` of a flat buffer `T *a`, `sizeof(T) = size`. -/
def Block.at1 {α : Type} (a : Block α) (size i : Nat) : Option (Option α) :=
  a.load (size * i) size

/-- The scalar `a[i][j]` of `T **a`. -/
def Block.at2 {α : Type} (a : Block α) (size i j : Nat) : Option (Option α) := do
  let addr ← a.index2 size i j
  a.load addr size

/-- The scalar `a[i][j][k]` of `T ***a`. -/
def Block.at3 {α : Type} (a : Block α) (size i j k : Nat) : Option (Option α) := do
  let addr ← a.index3 size i j k
  a.load addr size

/-- The assignment `a[i][j] = v` for `T **a`. -/
def Block.set2 {α : Type} (a : Block α) (size i j : Nat) (v : α) : Option (Block α) := do
  let addr ← a.index2 size i j
  a.store addr size (some v)

/-- The assignment `a[i][j][k] = v` for `T ***a`. -/
def Block.set3 {α : Type} (a : Block α) (size i j k : Nat) (v : α) : Option (Block α) := do
  let addr ← a.index3 size i j k
  a.store addr size (some v)

/-- The array of the test in hdf5_helper.c, lines 1292-1306:
`dimalloc(sizeof(float), 3, 2, 3, 4)` filled with
`data3d_float[i][j][k] = i * 10. + j + k / 10.` (`sizeof(float) = 4`; the
values are taken as exact rationals). -/
def test_array_3d : Option (Block ℚ) := do
  let data3d_float ← (dimalloc 4 3 [2, 3, 4] : Ret (Block ℚ)).block
  (List.range 2).foldlM
    (fun (d : Block ℚ) i =>
      (List.range 3).foldlM
        (fun (d : Block ℚ) j =>
          (List.range 4).foldlM
            (fun (d : Block ℚ) k => d.set3 4 i j k ((i : ℚ) * 10 + j + (k : ℚ) / 10)) d)
        d)
    data3d_float

/-- A 2 x 2 nested array of 4-byte scalars: two pointer slots, then the rows
`{1, 2}` and `{3, 4}`. -/
def example_nested_2x2 : Block Nat :=
  { bytes := 32,
    ptrs := fun o => if o = 0 then some 16 else if o = 8 then some 24 else none,
    elems := fun o =>
      if o = 16 then some 1 else if o = 20 then some 2
      else if o = 24 then some 3 else if o = 28 then some 4 else none }

/-- A flat buffer holding the scalars of a list, `size` bytes each. -/
def flat_of_list {α : Type} (size : Nat) (l : List α) : Block α :=
  { bytes := size * l.length,
    ptrs := fun _ => none,
    elems := fun o => if o % size = 0 then l[o / size]? else none }

/-! ## The element count of `get_variable_data_by_name` (hdf5_helper.c, lines 893-968) -/

/-- The constant `MAX_DIMS` (hdf5_helper.c, line 67). -/
def MAX_DIMS : Nat := 3

/-- The value of `total_data_count` with which `get_variable_data_by_name`
sizes its buffer (lines 902-908 and 956), computed from the array `dims`
returned by `get_variable_dims`; `none` when `dims` has fewer than `MAX_DIMS`
entries. -/
def total_data_count (dims : List Nat) : Option Nat :=
  (List.range MAX_DIMS).foldlM
    (fun (total_data_count : Nat) dim_i => do
      let d ← dims[dim_i]?
      pure (if d ≠ 0 then size_mul total_data_count d else total_data_count))
    1

/-! ## The driver `main` (hdf5_lookup.c, lines 168-386)

A C string is the list of its characters before the terminating NUL.  What the
program writes to standard output is the list of its `printf` calls, each with
its format and arguments and a mark telling whether the call stands under
`if (DEBUG_HDF5_LOOKUP)`.  The functions of `hdf5_helper.c` that read the data
file, and `atof`, are fields of a `Reader`.  Reads outside an array returned by
the reader are not modelled: the reader gives a value at every index.  The
calls of `free` are not modelled. -/

/-- The constant `DEBUG_HDF5_LOOKUP` (line 74). -/
def DEBUG_HDF5_LOOKUP : Int := 1

/-- The constant `MAX_GOOD_DIS_KM` (line 76). -/
def MAX_GOOD_DIS_KM {α : Type} [LinearOrderedField α] : α := 15

/-- An argument of a `printf` call. -/
inductive Arg (α : Type) where
  | str (s : List Char)
  | int (n : Int)
  | ulong (n : Nat)
  | flt (x : α)
  | tag (k : Kind)
  deriving DecidableEq

/-- One call of `printf`. -/
structure Printf (α : Type) where
  guarded : Bool
  format : String
  args : List (Arg α)
  deriving DecidableEq

/-- The call `printf(format, args...)`. -/
def printf {α : Type} (format : String) (args : List (Arg α)) : List (Printf α) :=
  [{ guarded := false, format := format, args := args }]

/-- The statement `if (DEBUG_HDF5_LOOKUP) printf(format, args...)`. -/
def debug_printf {α : Type} (format : String) (args : List (Arg α)) : List (Printf α) :=
  if DEBUG_HDF5_LOOKUP ≠ 0 then [{ guarded := true, format := format, args := args }] else []

/-- The library function `strrchr(s, c)` for `c` other than NUL: the position
of the last occurrence of `c` in `s`, `none` for the `NULL` result. -/
def strrchr : List Char → Char → Option Nat
  | [], _ => none
  | x :: xs, c =>
    match strrchr xs c with
    | some i => some (i + 1)
    | none => if x = c then some 0 else none

/-- The library function `strncpy(dst, src, n)` followed by `dst[n] = 0`, for
`n` within `strlen(src)`: the string left in `dst`. -/
def strncpy (src : List Char) (n : Nat) : List Char := src.take n

/-- The split of a table path into group and name (lines 197-206, and the same
statements on lines 218-227 and 273-282).  When the path has no `/`, `strrchr`
returns `NULL` and the pointer difference of line 198 is undefined: `none`. -/
def split_table (table : List Char) : Option (List Char × List Char) := do
  let group_end ← strrchr table '/'
  let group_len := group_end + 1
  let group := strncpy table group_len
  let name_len := table.length - group_len
  let name := strncpy (table.drop group_len) name_len
  pure (group, name)


/-- Conversion of a `size_t` value to `int`, as in `int rows = ll_dims[0]`
(lines 243-244, 304, 327-332): reduction modulo `2^32` into the range of a
32-bit `int`. -/
def size_to_int (n : Nat) : Int :=
  let r : Int := ((n % 2 ^ 32 : Nat) : Int)
  if r < 2 ^ 31 then r else r - 2 ^ 32

/-- The functions `main` calls to read its input: `atof` and the readers of
`hdf5_helper.c`, each applied to `path`, `group` and `name`.
`get_variable_data_by_name_dimalloc2` gives the nested array `a[row][col]`,
`get_variable_data_by_name_dimalloc` the flat array read through
`unsigned long *`. -/
structure Reader (α : Type) where
  atof : List Char → α
  get_variable_dims_by_name : List Char → List Char → List Char → List Nat
  get_variable_type_by_name : List Char → List Char → List Char → Kind
  get_variable_data_by_name_dimalloc2 : List Char → List Char → List Char → Int → Int → α
  get_variable_data_by_name_dimalloc : List Char → List Char → List Char → Int → Nat

/-- The function `usage` (lines 155-166).  `argv[0]` is a null pointer when
`argv` is empty: `none`. -/
def usage {α : Type} (argv : List (List Char)) : Option (List (Printf α)) := do
  let argv0 ← argv[0]?
  pure (printf "\n%s File/Path Group1/VarTable1 \x7bGroup2/VarTable2 \x7b...\x7d\x7d LatGroup/LatTable LonGroup/LonTable target_lat target_lon\n\n" [Arg.str argv0]
    ++ printf "EXAMPLE:\n" []
    ++ printf "./viirs_lookup ~/VIIRS_data/night/GDNBO/GDNBO_npp_d20180101_t0859256_e0905060_b32021_c20180101150505919989_noac_ops.h5 /All_Data/VIIRS-DNB-GEO_All/SatelliteZenithAngle /All_Data/VIIRS-DNB-GEO_All/SatelliteZenithAngle /All_Data/VIIRS-DNB-GEO_All/Latitude /All_Data/VIIRS-DNB-GEO_All/Longitude 32.13 -111.09\n" [])

/-- The values `main` holds when it calls `get_indices_from_lat_long` on line
246, and what it has printed up to there. -/
structure Target (α : Type) where
  path : List Char
  dat_tables : List (List Char)
  lat : α
  lon : α
  data_lat : Int → Int → α
  data_lon : Int → Int → α
  ll_dims : List Nat
  rows : Int
  cols : Int
  printed : List (Printf α)

/-- Lines 182-244 of `main`, for `argc >= 7`. -/
def main_inputs {α : Type} (rd : Reader α) (argv : List (List Char)) : Option (Target α) := do
  let argc := argv.length
  let path ← argv[1]?
  let dat_tables := (argv.drop 2).take (argc - 6)
  let lat_table ← argv[argc - 4]?
  let lon_table ← argv[argc - 3]?
  let lat := rd.atof (← argv[argc - 2]?)
  let lon := rd.atof (← argv[argc - 1]?)
  let (group_lat, name_lat) ← split_table lat_table
  let out_lat : List (Printf α) :=
    debug_printf "lat path:  %s\n" [Arg.str path]
      ++ debug_printf "lat group: %s\n" [Arg.str group_lat]
      ++ debug_printf "lat name:  %s\n" [Arg.str name_lat]
  let data_lat := rd.get_variable_data_by_name_dimalloc2 path group_lat name_lat
  let (group_lon, name_lon) ← split_table lon_table
  let out_lon : List (Printf α) :=
    debug_printf "lon path:  %s\n" [Arg.str path]
      ++ debug_printf "lon group: %s\n" [Arg.str group_lon]
      ++ debug_printf "lon name:  %s\n" [Arg.str name_lon]
  let data_lon := rd.get_variable_data_by_name_dimalloc2 path group_lon name_lon
  let ll_dims := rd.get_variable_dims_by_name path group_lon name_lon
  let out_find : List (Printf α) := debug_printf "Finding target\n" []
  let rows := size_to_int (← ll_dims[0]?)
  let cols := size_to_int (← ll_dims[1]?)
  pure { path := path, dat_tables := dat_tables, lat := lat, lon := lon,
         data_lat := data_lat, data_lon := data_lon, ll_dims := ll_dims,
         rows := rows, cols := cols, printed := out_lat ++ out_lon ++ out_find }

section Driver

variable {α : Type} [LinearOrderedField α]

/-- What lines 121-125 print at one `(row, col)` of the scan. -/
def visit_cell_printed (gc : α → α → α → α → α) (data_lat data_lon : Int → Int → α)
    (target_lat target_lon : α) (cols : Int) (row col : Int) (st : ScanState α) :
    List (Printf α) :=
  let lat := data_lat row col
  let lon := data_lon row col
  if lat > -9999 ∧ lon > -9999 then
    let distance := gc lat lon target_lat target_lon
    if st.closest > distance then
      debug_printf "%10d " [Arg.int (row * cols + col)]
        ++ debug_printf "%11.4f %11.4f " [Arg.flt lat, Arg.flt lon]
        ++ debug_printf "%4d %4d " [Arg.int row, Arg.int col]
        ++ debug_printf "%8.3e " [Arg.flt distance]
        ++ debug_printf "\n" []
    else []
  else []

/-- One full scan of the grid (lines 108-133) with what it prints. -/
def scan_grid_printed (gc : α → α → α → α → α) (data_lat data_lon : Int → Int → α)
    (target_lat target_lon : α) (rows cols : Int) (st : ScanState α) :
    ScanState α × List (Printf α) :=
  (for_range rows).foldl
    (fun (acc : ScanState α × List (Printf α)) row =>
      (for_range cols).foldl
        (fun (acc : ScanState α × List (Printf α)) col =>
          (visit_cell gc data_lat data_lon target_lat target_lon row col acc.1,
            acc.2 ++ visit_cell_printed gc data_lat data_lon target_lat target_lon cols row col
              acc.1))
        acc)
    (st, [])

/-- What the `do { ... } while (found == 0)` loop (lines 101-144) prints, with
the fuel of `search_loop`. -/
def search_loop_printed (gc : α → α → α → α → α) (data_lat data_lon : Int → Int → α)
    (target_lat target_lon : α) (rows cols : Int) :
    Nat → α → Int → Int → List (Printf α)
  | 0, _, _, _ => []
  | fuel + 1, closest, closest_row, closest_col =>
    let acc := scan_grid_printed gc data_lat data_lon target_lat target_lon rows cols
      { closest := closest, tmp_row := closest_row, tmp_col := closest_col }
    if closest_col = acc.1.tmp_col ∧ closest_row = acc.1.tmp_row then acc.2
    else
      acc.2 ++ search_loop_printed gc data_lat data_lon target_lat target_lon rows cols
        fuel acc.1.closest acc.1.tmp_row acc.1.tmp_col

/-- The body of the loop over the requested variables (lines 271-362) for one
`dat_table`: what it prints. -/
def main_variable (rd : Reader α) (t : Target α) (row col : Int) (dat_table : List Char) :
    Option (List (Printf α)) := do
  let (group_dat, name_dat) ← split_table dat_table
  let out_dat : List (Printf α) :=
    debug_printf "dat path:  %s\n" [Arg.str t.path]
      ++ debug_printf "dat group: %s\n" [Arg.str group_dat]
      ++ debug_printf "dat name:  %s\n" [Arg.str name_dat]
  let data_type := rd.get_variable_type_by_name t.path group_dat name_dat
  let dims := rd.get_variable_dims_by_name t.path group_dat name_dat
  let out_type : List (Printf α) :=
    debug_printf "data_type is: %d %d %d\n"
      [Arg.tag data_type, Arg.tag Kind.H5T_INTEGER, Arg.tag Kind.H5T_FLOAT]
  let data_lng := rd.get_variable_data_by_name_dimalloc t.path group_dat name_dat
  let data_flt := rd.get_variable_data_by_name_dimalloc2 t.path group_dat name_dat
  let dims0 ← dims[0]?
  let dims1 ← dims[1]?
  let dims2 ← dims[2]?
  let out_dims : List (Printf α) :=
    debug_printf " %d %d %d\n"
      [Arg.int (size_to_int dims0), Arg.int (size_to_int dims1), Arg.int (size_to_int dims2)]
  let ll_row := row
  let ll_col := col
  let row_count := size_to_int dims0
  let col_count := size_to_int dims1
  let out_count : List (Printf α) :=
    debug_printf " r c = %d %d\n" [Arg.int row_count, Arg.int col_count]
  let ll_row_count := size_to_int (← t.ll_dims[0]?)
  let ll_col_count := size_to_int (← t.ll_dims[1]?)
  let out_ll_count : List (Printf α) :=
    debug_printf " r c = %d %d\n" [Arg.int ll_row_count, Arg.int ll_col_count]
  let (new_row, new_col) ←
    rescale_indices ll_row ll_col row_count col_count ll_row_count ll_col_count
  let out_new : List (Printf α) :=
    debug_printf " r c = %d %d\n" [Arg.int new_row, Arg.int new_col]
  let out_value : List (Printf α) :=
    if data_type = Kind.H5T_INTEGER then
      printf " %lu" [Arg.ulong (data_lng new_row)]
    else if data_type = Kind.H5T_FLOAT then
      printf " %f" [Arg.flt (data_flt new_row new_col)]
    else []
  pure (out_dat ++ out_type ++ out_dims ++ out_count ++ out_ll_count ++ out_new ++ out_value)

/-- Lines 253-370 of `main`: what is printed once the search has returned
`row` and `col`. -/
def main_report (gc : α → α → α → α → α) (rd : Reader α) (t : Target α) (row col : Int) :
    Option (List (Printf α)) :=
  if (row ≥ 0 ∧ row < t.rows) ∧ (col ≥ 0 ∧ col < t.cols) then
    let latitude := t.data_lat row col
    let longitude := t.data_lon row col
    let distance := gc latitude longitude t.lat t.lon
    let out_found : List (Printf α) :=
      debug_printf "%f %f %f\n" [Arg.flt latitude, Arg.flt longitude, Arg.flt distance]
    if distance < MAX_GOOD_DIS_KM then do
      let out_head : List (Printf α) :=
        printf "%10.6f %10.6f %6.4f %10.6f %10.6f"
          [Arg.flt t.lat, Arg.flt t.lon, Arg.flt distance,
           Arg.flt (t.data_lat row col), Arg.flt (t.data_lon row col)]
      let out_values ← t.dat_tables.foldlM
        (fun (out : List (Printf α)) dat_table => do
          let out_variable ← main_variable rd t row col dat_table
          pure (out ++ out_variable))
        []
      pure (out_found ++ out_head ++ out_values ++ printf "\n" [])
    else pure out_found
  else pure []

/-- The function `main` (lines 168-386) with `argc = argv.length`: the exit
status and what was written to standard output.  `fuel` is the fuel of the
search loop; `none` stands for undefined behaviour or for fuel that ran out. -/
def main [FloorRing α] (gc : α → α → α → α → α) (rd : Reader α) (argv : List (List Char))
    (fuel : Nat) : Option (Int × List (Printf α)) :=
  let argc : Int := argv.length
  if argc < 7 then do
    let out_usage ← usage argv
    pure (1, printf "Too few arguments\n" [] ++ out_usage)
  else do
    let t ← main_inputs rd argv
    let indices ←
      get_indices_from_lat_long gc t.data_lat t.data_lon t.lat t.lon t.rows t.cols fuel
    let out_search :=
      search_loop_printed gc t.data_lat t.data_lon t.lat t.lon t.rows t.cols fuel
        99999 (-9999) (-9999)
    let row := indices.1
    let col := indices.2.1
    let out_report ← main_report gc rd t row col
    pure (0, t.printed ++ out_search ++ out_report)

end Driver

/-- A data file with a 2 x 2 coordinate grid (`lat = row`, `lon = col`), an
integer variable `/g/n` and a float variable `/g/x`, both 2 x 2. -/
def example_reader : Reader ℚ :=
  { atof := fun s => if s = "1".toList then 1 else 0
    get_variable_dims_by_name := fun _ _ _ => [2, 2, 1]
    get_variable_type_by_name := fun _ _ name =>
      if name = "n".toList then Kind.H5T_INTEGER
      else if name = "x".toList then Kind.H5T_FLOAT else Kind.H5T_NATIVE_CHAR
    get_variable_data_by_name_dimalloc2 := fun _ _ name row col =>
      if name = "Latitude".toList then row else if name = "Longitude".toList then col
      else 10 * row + col
    get_variable_data_by_name_dimalloc := fun _ _ _ i => (100 + i).toNat }

/-- A distance on rational coordinates used to run the driver: the sum of the
squared coordinate differences. -/
def example_gc (lat_0 lon_0 lat_1 lon_1 : ℚ) : ℚ :=
  (lat_1 - lat_0) * (lat_1 - lat_0) + (lon_1 - lon_0) * (lon_1 - lon_0)

/-- The command line `hdf5_lookup f.h5 /g/n /g/x /g/Latitude /g/Longitude 1 0`. -/
def example_argv : List (List Char) :=
  ["hdf5_lookup".toList, "f.h5".toList, "/g/n".toList, "/g/x".toList,
   "/g/Latitude".toList, "/g/Longitude".toList, "1".toList, "0".toList]

/-- What the run of `example_argv` on `example_reader` writes to standard
output. -/
def example_stdout : List (Printf ℚ) :=
  [⟨true, "lat path:  %s\n", [Arg.str "f.h5".toList]⟩,
   ⟨true, "lat group: %s\n", [Arg.str "/g/".toList]⟩,
   ⟨true, "lat name:  %s\n", [Arg.str "Latitude".toList]⟩,
   ⟨true, "lon path:  %s\n", [Arg.str "f.h5".toList]⟩,
   ⟨true, "lon group: %s\n", [Arg.str "/g/".toList]⟩,
   ⟨true, "lon name:  %s\n", [Arg.str "Longitude".toList]⟩,
   ⟨true, "Finding target\n", []⟩,
   ⟨true, "%10d ", [Arg.int 0]⟩,
   ⟨true, "%11.4f %11.4f ", [Arg.flt 0, Arg.flt 0]⟩,
   ⟨true, "%4d %4d ", [Arg.int 0, Arg.int 0]⟩,
   ⟨true, "%8.3e ", [Arg.flt 1]⟩,
   ⟨true, "\n", []⟩,
   ⟨true, "%10d ", [Arg.int 2]⟩,
   ⟨true, "%11.4f %11.4f ", [Arg.flt 1, Arg.flt 0]⟩,
   ⟨true, "%4d %4d ", [Arg.int 1, Arg.int 0]⟩,
   ⟨true, "%8.3e ", [Arg.flt 0]⟩,
   ⟨true, "\n", []⟩,
   ⟨true, "%f %f %f\n", [Arg.flt 1, Arg.flt 0, Arg.flt 0]⟩,
   ⟨false, "%10.6f %10.6f %6.4f %10.6f %10.6f",
     [Arg.flt 1, Arg.flt 0, Arg.flt 0, Arg.flt 1, Arg.flt 0]⟩,
   ⟨true, "dat path:  %s\n", [Arg.str "f.h5".toList]⟩,
   ⟨true, "dat group: %s\n", [Arg.str "/g/".toList]⟩,
   ⟨true, "dat name:  %s\n", [Arg.str "n".toList]⟩,
   ⟨true, "data_type is: %d %d %d\n",
     [Arg.tag Kind.H5T_INTEGER, Arg.tag Kind.H5T_INTEGER, Arg.tag Kind.H5T_FLOAT]⟩,
   ⟨true, " %d %d %d\n", [Arg.int 2, Arg.int 2, Arg.int 1]⟩,
   ⟨true, " r c = %d %d\n", [Arg.int 2, Arg.int 2]⟩,
   ⟨true, " r c = %d %d\n", [Arg.int 2, Arg.int 2]⟩,
   ⟨true, " r c = %d %d\n", [Arg.int 1, Arg.int 0]⟩,
   ⟨false, " %lu", [Arg.ulong 101]⟩,
   ⟨true, "dat path:  %s\n", [Arg.str "f.h5".toList]⟩,
   ⟨true, "dat group: %s\n", [Arg.str "/g/".toList]⟩,
   ⟨true, "dat name:  %s\n", [Arg.str "x".toList]⟩,
   ⟨true, "data_type is: %d %d %d\n",
     [Arg.tag Kind.H5T_FLOAT, Arg.tag Kind.H5T_INTEGER, Arg.tag Kind.H5T_FLOAT]⟩,
   ⟨true, " %d %d %d\n", [Arg.int 2, Arg.int 2, Arg.int 1]⟩,
   ⟨true, " r c = %d %d\n", [Arg.int 2, Arg.int 2]⟩,
   ⟨true, " r c = %d %d\n", [Arg.int 2, Arg.int 2]⟩,
   ⟨true, " r c = %d %d\n", [Arg.int 1, Arg.int 0]⟩,
   ⟨false, " %f", [Arg.flt 10]⟩,
   ⟨false, "\n", []⟩]

/-! ## The readers of `hdf5_helper.c` (lines 893-1212)

What the HDF5 library delivers for one variable is collected in a `Dataset`.
`get_variable_data_by_name_dimalloc2` tests `type` against the twenty tags of
`Kind` like the `convert_*` functions. -/

/-- What the HDF5 library reports for the variable `(path, group, name)`: the
`MAX_DIMS` entries of `dims` after `H5Sget_simple_extent_dims` (lines 773-777),
the tag returned by `get_variable_type_by_name`, the size returned by
`H5Tget_size` (line 919) and the scalars that `H5Dread` (line 962) stores, by
position. -/
structure Dataset (α : Type) where
  dims : List Nat
  type : Kind
  type_size : Nat
  values : Nat → Option α

/-- The function `get_variable_data_by_name` (lines 893-968): a buffer of
`type_size * total_data_count` bytes into which `H5Dread` stores the scalars of
the dataset, `type_size` bytes each.  `none` when `dims` has fewer than
`MAX_DIMS` entries. -/
def get_variable_data_by_name {α : Type} (v : Dataset α) : Option (Block α) := do
  let total_data_count ← total_data_count v.dims
  let type_size := v.type_size
  pure { bytes := size_mul type_size total_data_count,
         ptrs := fun _ => none,
         elems := fun o => if o % type_size = 0 then v.values (o / type_size) else none }

/-- Lines 1142-1163: the copy for one `(row, col)`. -/
def get_variable_data_by_name_dimalloc2_cell {α : Type} (width : Kind → Nat) (data : Block α)
    (type : Kind) (cols : Nat) (d : Block α) (row col : Nat) : Option (Block α) := do
  let index := size_add (size_mul row cols) col
  let v ← data.load (width type * index) (width type)
  let addr ← d.index2 (width type) row col
  d.store addr (width type) v

/-- Lines 1116-1165 of `get_variable_data_by_name_dimalloc2`: the allocation of
the nested array and the copy of the buffer `data` into it. -/
def get_variable_data_by_name_dimalloc2_reshape {α : Type} (width : Kind → Nat) (data : Block α)
    (type : Kind) (rows cols : Nat) : Option (Block α) :=
  match (dimalloc (width type) 2 [rows, cols] : Ret (Block α)) with
  | Ret.ptr data2d =>
    (List.range rows).foldlM
      (fun (d : Block α) row =>
        (List.range cols).foldlM
          (fun (d : Block α) col =>
            get_variable_data_by_name_dimalloc2_cell width data type cols d row col) d)
      data2d
  | _ => none

/-- The function `get_variable_data_by_name_dimalloc2` (lines 1047-1212). -/
def get_variable_data_by_name_dimalloc2 {α : Type} (width : Kind → Nat) (v : Dataset α) :
    Option (Block α) := do
  let rows ← v.dims[0]?
  let cols ← v.dims[1]?
  let data ← get_variable_data_by_name v
  get_variable_data_by_name_dimalloc2_reshape width data v.type rows cols

/-- The value of `sizeof` for the C type that the branch of each tag uses
(declarations of lines 237-254), on LP64: `long` for `H5T_NATIVE_INT` and
`H5T_INTEGER`, `float` for `H5T_NATIVE_FLOAT` and `H5T_FLOAT`.  The widths of
`hsize_t`, `hssize_t`, `herr_t` and `hbool_t` are those of the HDF5 1.12
headers. -/
def sizeof_tag : Kind → Nat
  | Kind.H5T_NATIVE_CHAR => 1
  | Kind.H5T_NATIVE_SCHAR => 1
  | Kind.H5T_NATIVE_UCHAR => 1
  | Kind.H5T_NATIVE_SHORT => 2
  | Kind.H5T_NATIVE_USHORT => 2
  | Kind.H5T_NATIVE_INT => 8
  | Kind.H5T_INTEGER => 8
  | Kind.H5T_NATIVE_UINT => 4
  | Kind.H5T_NATIVE_LONG => 8
  | Kind.H5T_NATIVE_ULONG => 8
  | Kind.H5T_NATIVE_LLONG => 8
  | Kind.H5T_NATIVE_ULLONG => 8
  | Kind.H5T_NATIVE_FLOAT => 4
  | Kind.H5T_FLOAT => 4
  | Kind.H5T_NATIVE_DOUBLE => 8
  | Kind.H5T_NATIVE_LDOUBLE => 16
  | Kind.H5T_NATIVE_HSIZE => 8
  | Kind.H5T_NATIVE_HSSIZE => 8
  | Kind.H5T_NATIVE_HERR => 4
  | Kind.H5T_NATIVE_HBOOL => 1

/-- A 2 x 2 dataset of integer class whose elements are 4 bytes wide in the
file. -/
def example_int32_dataset : Dataset Nat :=
  { dims := [2, 2, 1], type := Kind.H5T_INTEGER, type_size := 4, values := fun n => some (10 + n) }

/-- A 2 x 3 dataset of float class whose elements are 4 bytes wide. -/
def example_float_dataset : Dataset Nat :=
  { dims := [2, 3, 1], type := Kind.H5T_FLOAT, type_size := 4, values := fun n => some (10 + n) }

/-- A 2 x 1 x 2 nested array of 4-byte scalars laid out as by
`dimalloc(4, 3, 2, 1, 2)`: two first-level pointer slots, two second-level
pointer slots, then the levels `{1, 2}` and `{3, 4}`. -/
def example_nested_2x1x2 : Block Nat :=
  { bytes := 48,
    ptrs := fun o =>
      if o = 0 then some 16 else if o = 8 then some 24
      else if o = 16 then some 32 else if o = 24 then some 40 else none,
    elems := fun o =>
      if o = 32 then some 1 else if o = 36 then some 2
      else if o = 40 then some 3 else if o = 44 then some 4 else none }

/-! ## The distance and the search in IEEE-754 binary64 (hdf5_lookup.c, lines 78-153)

The C `double` is taken to be IEEE-754 binary64 and `float` binary32, every
operation rounded to nearest, ties to even, each operation rounded on its own
(no fused multiply-add, no excess precision).  A value is a rational, an
infinity or NaN; the two zeros are not distinguished (no comparison and no
arithmetic operation of lines 78-153 tells them apart: the divisors are the
constants `180.` and `2.`).
`sqrt` is the correctly rounded square root that IEEE-754 prescribes.  The
functions `sin`, `cos`, `asin` and `pow` belong to the C library, which is
not part of the repository: they are parameters of the embedding. -/

/-- A value of a binary floating-point format: a finite number, `+inf` or
`-inf`, or NaN. -/
inductive Fp where
  | fin (q : ℚ)
  | inf (negative : Bool)
  | nan
  deriving DecidableEq

/-- Auxiliary recursion of `nat_log2`: the number of halvings that bring `n`
below 2. -/
def log2_steps : Nat → Nat → Nat
  | 0, _ => 0
  | fuel + 1, n => if n < 2 then 0 else log2_steps fuel (n / 2) + 1

/-- The position of the leading bit of `n`: `2^(nat_log2 n) <= n < 2^(nat_log2 n + 1)`
for `n >= 1`. -/
def nat_log2 (n : Nat) : Nat := log2_steps n n

/-- The binary exponent of a nonzero rational: the integer `e` with
`2^e <= |q| < 2^(e+1)`. -/
def binary_exponent (q : ℚ) : Int :=
  let k : Int := (nat_log2 q.num.natAbs : Int) - (nat_log2 q.den : Int)
  if (2 : ℚ) ^ k ≤ |q| then k else k - 1

/-- Rounding of a rational to binary64: 53-bit significand, smallest normal
exponent -1022 (below it the spacing stays `2^(-1074)`), and a result of
magnitude `2^1024` or more becomes an infinity. -/
def round_double (q : ℚ) : Fp :=
  if q = 0 then Fp.fin 0
  else
    let e := max (binary_exponent q) (-1022)
    let ulp : ℚ := 2 ^ (e - 52)
    let r : ℚ := round_half_even (q / ulp) * ulp
    if 2 ^ 1024 ≤ |r| then Fp.inf (decide (q < 0)) else Fp.fin r

/-- Negation, which is exact. -/
def Fp.neg : Fp → Fp
  | Fp.fin q => Fp.fin (-q)
  | Fp.inf s => Fp.inf (!s)
  | Fp.nan => Fp.nan

/-- The `double` addition `x + y`. -/
def Fp.add : Fp → Fp → Fp
  | Fp.fin a, Fp.fin b => round_double (a + b)
  | Fp.fin _, Fp.inf s => Fp.inf s
  | Fp.inf s, Fp.fin _ => Fp.inf s
  | Fp.inf s, Fp.inf t => if s = t then Fp.inf s else Fp.nan
  | _, _ => Fp.nan

/-- The `double` subtraction `x - y`. -/
def Fp.sub (x y : Fp) : Fp := Fp.add x (Fp.neg y)

/-- The `double` multiplication `x * y`. -/
def Fp.mul : Fp → Fp → Fp
  | Fp.fin a, Fp.fin b => round_double (a * b)
  | Fp.fin a, Fp.inf s => if a = 0 then Fp.nan else Fp.inf (xor (decide (a < 0)) s)
  | Fp.inf s, Fp.fin b => if b = 0 then Fp.nan else Fp.inf (xor s (decide (b < 0)))
  | Fp.inf s, Fp.inf t => Fp.inf (xor s t)
  | _, _ => Fp.nan

/-- The `double` division `x / y`.  A zero divisor is read as `+0`. -/
def Fp.div : Fp → Fp → Fp
  | Fp.fin a, Fp.fin b =>
    if b = 0 then (if a = 0 then Fp.nan else Fp.inf (decide (a < 0)))
    else round_double (a / b)
  | Fp.fin _, Fp.inf _ => Fp.fin 0
  | Fp.inf s, Fp.fin b => Fp.inf (xor s (decide (b < 0)))
  | _, _ => Fp.nan

/-- The comparison `x < y` (written `y > x` in the source): false as soon as
one side is NaN. -/
def Fp.lt : Fp → Fp → Bool
  | Fp.fin a, Fp.fin b => decide (a < b)
  | Fp.fin _, Fp.inf s => !s
  | Fp.inf s, Fp.fin _ => s
  | Fp.inf s, Fp.inf t => s && !t
  | _, _ => false

/-- Auxiliary recursion of `isqrt`: the bits of the root from bit `k - 1` down. -/
def isqrt_bits (n : Nat) : Nat → Nat → Nat
  | 0, r => r
  | k + 1, r => isqrt_bits n k (if (r + 2 ^ k) * (r + 2 ^ k) ≤ n then r + 2 ^ k else r)

/-- The integer square root: the largest `r` with `r * r <= n`. -/
def isqrt (n : Nat) : Nat := isqrt_bits n (nat_log2 n / 2 + 1) 0

/-- The `double` function `sqrt`, correctly rounded: with `2^e <= sqrt q < 2^(e+1)`
the result is the multiple of `2^(e-52)` nearest to the root of `q`.  A
negative argument gives NaN. -/
def Fp.sqrt : Fp → Fp
  | Fp.nan => Fp.nan
  | Fp.inf s => if s then Fp.nan else Fp.inf false
  | Fp.fin q =>
    if q < 0 then Fp.nan
    else if q = 0 then Fp.fin 0
    else
      let e := binary_exponent q / 2
      let ulp : ℚ := 2 ^ (e - 52)
      let t : ℚ := q / (ulp * ulp)
      let n : ℤ := isqrt ⌊t⌋.toNat
      let mid : ℚ := ((n : ℚ) + 1 / 2) * ((n : ℚ) + 1 / 2)
      let r : ℤ := if t < mid then n else if mid < t then n + 1 else if n % 2 = 0 then n else n + 1
      Fp.fin (r * ulp)

/-- Conversion of a `double` to `int` (line 150): the fraction is discarded;
NaN, an infinity and a value whose integral part is no 32-bit `int` have no
defined conversion. -/
def Fp.to_int : Fp → Option Int
  | Fp.fin q =>
    let i := double_to_int q
    if -2 ^ 31 ≤ i ∧ i < 2 ^ 31 then some i else none
  | _ => none

/-- The functions of `<math.h>` that `gc_distance` calls besides `sqrt`. -/
structure Libm where
  sin : Fp → Fp
  cos : Fp → Fp
  asin : Fp → Fp
  pow : Fp → Fp → Fp

/-- The number `m * 2^e`. -/
def dbl (m e : Int) : ℚ := m * 2 ^ e

/-- The constant `M_PI`, the `double` nearest to pi: `0x1.921fb54442d18p+1`. -/
def M_PI : Fp := Fp.fin (dbl 0x1921fb54442d18 (-51))

/-- The local `a` of `gc_distance` (line 86) as the code computes it, after
lines 79-85. -/
def gc_a_double (m : Libm) (lat_0 lon_0 lat_1 lon_1 : Fp) : Fp :=
  let pi := M_PI
  let lat_s := Fp.div (Fp.mul lat_0 pi) (Fp.fin 180)
  let lon_s := Fp.div (Fp.mul lon_0 pi) (Fp.fin 180)
  let lat_e := Fp.div (Fp.mul lat_1 pi) (Fp.fin 180)
  let lon_e := Fp.div (Fp.mul lon_1 pi) (Fp.fin 180)
  let dLon := Fp.sub lon_e lon_s
  let dLat := Fp.sub lat_e lat_s
  Fp.add (m.pow (m.sin (Fp.div dLat (Fp.fin 2))) (Fp.fin 2))
    (Fp.mul (Fp.mul (m.cos lat_s) (m.cos lat_e))
      (m.pow (m.sin (Fp.div dLon (Fp.fin 2))) (Fp.fin 2)))

/-- The function `gc_distance` (lines 78-89) as the code computes it:
`c = 2. * asin(sqrt(a))`, returned as `c * 6367.`. -/
def gc_distance_double (m : Libm) (lat_0 lon_0 lat_1 lon_1 : Fp) : Fp :=
  let a := gc_a_double m lat_0 lon_0 lat_1 lon_1
  let c := Fp.mul (Fp.fin 2) (m.asin (Fp.sqrt a))
  Fp.mul c (Fp.fin 6367)

/-- The body of the inner `for` loop (lines 111-131) at one `(row, col)` on
floating-point values.  The `float` values `lat` and `lon` are compared with
-9999 and passed to `gc` unchanged (the conversion to `double` is exact). -/
def visit_cell_double (gc : Fp → Fp → Fp → Fp → Fp) (data_lat data_lon : Int → Int → Fp)
    (target_lat target_lon : Fp) (row col : Int) (st : ScanState Fp) : ScanState Fp :=
  let lat := data_lat row col
  let lon := data_lon row col
  if Fp.lt (Fp.fin (-9999)) lat ∧ Fp.lt (Fp.fin (-9999)) lon then
    let distance := gc lat lon target_lat target_lon
    if Fp.lt distance st.closest then
      { closest := distance, tmp_row := row, tmp_col := col }
    else st
  else st

/-- The inner loop (line 109) for one row, on floating-point values. -/
def scan_row_double (gc : Fp → Fp → Fp → Fp → Fp) (data_lat data_lon : Int → Int → Fp)
    (target_lat target_lon : Fp) (cols : Int) (row : Int) (st : ScanState Fp) : ScanState Fp :=
  (for_range cols).foldl
    (fun s col => visit_cell_double gc data_lat data_lon target_lat target_lon row col s) st

/-- The outer loop (line 108), on floating-point values: one full scan. -/
def scan_grid_double (gc : Fp → Fp → Fp → Fp → Fp) (data_lat data_lon : Int → Int → Fp)
    (target_lat target_lon : Fp) (rows cols : Int) (st : ScanState Fp) : ScanState Fp :=
  (for_range rows).foldl
    (fun s row => scan_row_double gc data_lat data_lon target_lat target_lon cols row s) st

/-- The `do { ... } while (found == 0)` loop (lines 101-144) on floating-point
values; each unit of fuel pays for one execution of the loop body. -/
def search_loop_double (gc : Fp → Fp → Fp → Fp → Fp) (data_lat data_lon : Int → Int → Fp)
    (target_lat target_lon : Fp) (rows cols : Int) :
    Nat → Fp → Int → Int → Option (Int × Int × Fp)
  | 0, _, _, _ => none
  | fuel + 1, closest, closest_row, closest_col =>
    let st := scan_grid_double gc data_lat data_lon target_lat target_lon rows cols
      { closest := closest, tmp_row := closest_row, tmp_col := closest_col }
    if closest_col = st.tmp_col ∧ closest_row = st.tmp_row then
      some (closest_row, closest_col, st.closest)
    else
      search_loop_double gc data_lat data_lon target_lat target_lon rows cols
        fuel st.closest st.tmp_row st.tmp_col

/-- The function `get_indices_from_lat_long` (lines 91-153) on floating-point
values: `(closest_row, closest_col, (int) closest)`.  The result is `none`
when the fuel runs out, and when `closest` has no defined conversion to `int`. -/
def get_indices_from_lat_long_double (gc : Fp → Fp → Fp → Fp → Fp)
    (data_lat data_lon : Int → Int → Fp) (target_lat target_lon : Fp) (rows cols : Int)
    (fuel : Nat) : Option (Int × Int × Int) :=
  match search_loop_double gc data_lat data_lon target_lat target_lon rows cols fuel
      (Fp.fin 99999) (-9999) (-9999) with
  | none => none
  | some (closest_row, closest_col, closest) =>
    match Fp.to_int closest with
    | none => none
    | some d => some (closest_row, closest_col, d)

/-- A function of the C library given by its values at finitely many finite
arguments; NaN at NaN, at the infinities and at every other argument. -/
def table_value (t : List (ℚ × ℚ)) : Fp → Fp
  | Fp.fin q =>
    match t.lookup q with
    | some v => Fp.fin v
    | none => Fp.nan
  | _ => Fp.nan

/-- The values of `sin`, `cos`, `asin` and `pow(., 2.)` at the arguments that
occur in the examples below.  Each value is the correctly rounded one, and the
one glibc 2.36 returns on x86-64; for instance
`sin(0x1.1df46a2529d39p-7) = 0x1.1df37c4954c21p-7` and
`asin(1.) = 0x1.921fb54442d18p+0`.  An argument outside the tables gives NaN. -/
def example_libm : Libm where
  sin := table_value
    [(0, 0),
     (dbl 0x1921fb54442d18 (-52), 1),
     (dbl (-0x1921fb54442d18) (-52), -1),
     (dbl (-0x11df46a2529d39) (-82), dbl (-0x11df46a2529d39) (-82)),
     (dbl 0x11df46a2529d39 (-59), dbl 0x11df37c4954c21 (-59)),
     (dbl (-0x11df46a2529d38) (-59), dbl (-0x11df37c4954c20) (-59)),
     (dbl (-0x11df46a2529d39) (-55), dbl (-0x11d06c968d9e19) (-55))]
  cos := table_value
    [(0, 1),
     (dbl 0x11df46a2529d39 (-81), 1),
     (dbl 0x11df46a2529d39 (-58), dbl 0x1ffec097f5af8a (-53)),
     (dbl 0x11df46a2529d39 (-57), dbl 0x1ffb0278bf0567 (-53)),
     (dbl 0x1acee9f37bebd5 (-57), dbl 0x1ff4c5ed12e61d (-53)),
     (dbl 0x11df46a2529d39 (-55), dbl 0x1fb046a930947a (-53)),
     (dbl (-0x11df46a2529d39) (-55), dbl 0x1fb046a930947a (-53))]
  asin := table_value
    [(1, dbl 0x1921fb54442d18 (-52)),
     (dbl 0x11df37c4954c21 (-59), dbl 0x11df46a2529d39 (-59)),
     (dbl 0x11df37c4954c20 (-59), dbl 0x11df46a2529d38 (-59))]
  pow := fun x y =>
    if y = Fp.fin 2 then
      match x with
      | Fp.inf _ => Fp.inf false
      | x => table_value
        [(0, 0), (1, 1), (-1, 1),
         (dbl (-0x11df46a2529d39) (-82), dbl 0x13f6a1db141fb9 (-112)),
         (dbl 0x11df37c4954c21 (-59), dbl 0x13f680a5076462 (-66)),
         (dbl (-0x11df37c4954c20) (-59), dbl 0x13f680a5076460 (-66)),
         (dbl (-0x11d06c968d9e19) (-55), dbl 0x13d581ca184804 (-58))] x
    else Fp.nan

/-- Latitudes of a 2 x 1 grid: 0 in row 0 and `2^(-23)` degrees in row 1. -/
def example_antipodal_lat (row _col : Int) : Fp :=
  if row = 0 then Fp.fin 0 else Fp.fin (dbl 1 (-23))

/-- Latitudes of a 1 x 2 grid: 1 degree in column 0 and 3 degrees in column 1. -/
def example_tie_lat (_row col : Int) : Fp :=
  if col = 0 then Fp.fin 1 else Fp.fin 3

/-! ## Auxiliary definitions for the statements and proofs -/

section Aux

variable {α : Type} [LinearOrderedField α]

/-- The cells `(row, col)` in the order in which lines 108-109 visit them. -/
def grid_cells (rows cols : Int) : List (Int × Int) :=
  (for_range rows).flatMap (fun r => (for_range cols).map (fun c => (r, c)))

/-- The validity test of line 114 at a cell. -/
def cell_valid (data_lat data_lon : Int → Int → α) (p : Int × Int) : Prop :=
  data_lat p.1 p.2 > -9999 ∧ data_lon p.1 p.2 > -9999

/-- The distance of line 116 at a cell. -/
def cell_dist (gc : α → α → α → α → α) (data_lat data_lon : Int → Int → α)
    (target_lat target_lon : α) (p : Int × Int) : α :=
  gc (data_lat p.1 p.2) (data_lon p.1 p.2) target_lat target_lon

/-- The cells `(row, col)` in the order in which the nested `size_t` loops over
rows and columns visit them. -/
def cells2 (rows cols : Nat) : List (Nat × Nat) :=
  (List.range rows).flatMap (fun r => (List.range cols).map (fun c => (r, c)))

/-- Row-major order on cells: earlier row, or same row and earlier column. -/
def row_major_lt (p q : Int × Int) : Prop :=
  p.1 < q.1 ∨ (p.1 = q.1 ∧ p.2 < q.2)

end Aux

/-- The validity test of line 114 at a cell, on floating-point values. -/
def cell_valid_double (data_lat data_lon : Int → Int → Fp) (p : Int × Int) : Prop :=
  Fp.lt (Fp.fin (-9999)) (data_lat p.1 p.2) = true ∧
    Fp.lt (Fp.fin (-9999)) (data_lon p.1 p.2) = true

/-- The distance of line 116 at a cell, on floating-point values. -/
def cell_dist_double (gc : Fp → Fp → Fp → Fp → Fp) (data_lat data_lon : Int → Int → Fp)
    (target_lat target_lon : Fp) (p : Int × Int) : Fp :=
  gc (data_lat p.1 p.2) (data_lon p.1 p.2) target_lat target_lon

/-- The cells `(lev, (row, col))` in the order in which three nested `size_t`
loops over levels, rows and columns visit them. -/
def cells3 (levs rows cols : Nat) : List (Nat × Nat × Nat) :=
  (List.range levs).flatMap (fun l => (cells2 rows cols).map (fun p => (l, p)))

/-- The calls of `printf` that do not stand under `if (DEBUG_HDF5_LOOKUP)`, in
the order in which they were made. -/
def unguarded {α : Type} (out : List (Printf α)) : List (Printf α) :=
  out.filter (fun p => !p.guarded)

/-- The group and the class of a requested variable, as `main` obtains them
on lines 273-290. -/
def variable_class {α : Type} (rd : Reader α) (path dat_table : List Char) : Option Kind := do
  let (group_dat, name_dat) ← split_table dat_table
  pure (rd.get_variable_type_by_name path group_dat name_dat)

/-- What the loop over the requested variables prints for one of them outside
the debugging statements: one value when the class of the variable is
`H5T_INTEGER` or `H5T_FLOAT`, nothing for any other class. -/
def value_printed {α : Type} (rd : Reader α) (path dat_table : List Char)
    (out : List (Printf α)) : Prop :=
  ∃ k, variable_class rd path dat_table = some k ∧
    (k = Kind.H5T_INTEGER → ∃ v, out = printf " %lu" [Arg.ulong v]) ∧
    (k = Kind.H5T_FLOAT → ∃ x, out = printf " %f" [Arg.flt x]) ∧
    (k ≠ Kind.H5T_INTEGER → k ≠ Kind.H5T_FLOAT → out = [])

/-- The call of `printf` on lines 262-267. -/
def result_head {α : Type} (t : Target α) (distance : α) (row col : Int) : Printf α :=
  { guarded := false, format := "%10.6f %10.6f %6.4f %10.6f %10.6f",
    args := [Arg.flt t.lat, Arg.flt t.lon, Arg.flt distance,
             Arg.flt (t.data_lat row col), Arg.flt (t.data_lon row col)] }

/-! # Lemmas -/

/-! ### The scan as a fold over the cells in row-major order -/

section SearchLemmas

variable {α : Type} [LinearOrderedField α]

lemma mem_for_range (n i : Int) : i ∈ for_range n ↔ 0 ≤ i ∧ i < n := by
  simp only [for_range, List.mem_map, List.mem_range]
  constructor
  · rintro ⟨k, hk, rfl⟩
    exact ⟨Int.ofNat_nonneg k, by have := Int.lt_toNat.mp hk; simpa using this⟩
  · rintro ⟨h0, hn⟩
    refine ⟨i.toNat, ?_, ?_⟩
    · exact (Int.toNat_lt_toNat (lt_of_le_of_lt h0 hn)).mpr hn
    · simpa using Int.toNat_of_nonneg h0

lemma for_range_pairwise (n : Int) : (for_range n).Pairwise (· < ·) := by
  unfold for_range
  rw [List.pairwise_map]
  exact (List.pairwise_lt_range n.toNat).imp (fun h => by simpa using h)

lemma mem_grid_cells (rows cols : Int) (p : Int × Int) :
    p ∈ grid_cells rows cols ↔ (0 ≤ p.1 ∧ p.1 < rows) ∧ (0 ≤ p.2 ∧ p.2 < cols) := by
  obtain ⟨r, c⟩ := p
  simp only [grid_cells, List.mem_flatMap, List.mem_map, Prod.mk.injEq]
  constructor
  · rintro ⟨r', hr', c', hc', rfl, rfl⟩
    exact ⟨(mem_for_range _ _).mp hr', (mem_for_range _ _).mp hc'⟩
  · rintro ⟨hr, hc⟩
    exact ⟨r, (mem_for_range _ _).mpr hr, c, (mem_for_range _ _).mpr hc, rfl, rfl⟩

lemma grid_cells_pairwise (rows cols : Int) :
    (grid_cells rows cols).Pairwise row_major_lt := by
  unfold grid_cells
  rw [List.pairwise_flatMap]
  constructor
  · intro r _
    rw [List.pairwise_map]
    exact (for_range_pairwise cols).imp (fun h => Or.inr ⟨rfl, h⟩)
  · refine (for_range_pairwise rows).imp ?_
    intro r r' hrr p hp q hq
    simp only [List.mem_map] at hp hq
    obtain ⟨_, _, rfl⟩ := hp
    obtain ⟨_, _, rfl⟩ := hq
    exact Or.inl hrr

lemma scan_grid_eq_foldl (gc : α → α → α → α → α) (data_lat data_lon : Int → Int → α)
    (target_lat target_lon : α) (rows cols : Int) (st : ScanState α) :
    scan_grid gc data_lat data_lon target_lat target_lon rows cols st =
      (grid_cells rows cols).foldl
        (fun s p => visit_cell gc data_lat data_lon target_lat target_lon p.1 p.2 s) st := by
  unfold scan_grid grid_cells
  generalize for_range rows = rs
  induction rs generalizing st with
  | nil => rfl
  | cons r rs ih =>
    simp only [List.foldl_cons, List.flatMap_cons, List.foldl_append, List.foldl_map]
    rw [ih]
    rfl

end SearchLemmas


section ScanSpec

variable {α : Type} [LinearOrderedField α]
variable (gc : α → α → α → α → α) (data_lat data_lon : Int → Int → α)
variable (target_lat target_lon : α)

lemma visit_cell_invalid (row col : Int) (st : ScanState α)
    (h : ¬ cell_valid data_lat data_lon (row, col)) :
    visit_cell gc data_lat data_lon target_lat target_lon row col st = st := by
  unfold cell_valid at h
  simp only [visit_cell, if_neg h]

lemma visit_cell_closer (row col : Int) (st : ScanState α)
    (h : cell_valid data_lat data_lon (row, col))
    (hd : st.closest > cell_dist gc data_lat data_lon target_lat target_lon (row, col)) :
    visit_cell gc data_lat data_lon target_lat target_lon row col st =
      { closest := cell_dist gc data_lat data_lon target_lat target_lon (row, col),
        tmp_row := row, tmp_col := col } := by
  unfold cell_valid at h
  unfold cell_dist at hd
  simp only [visit_cell, if_pos h, if_pos hd, cell_dist]

lemma visit_cell_not_closer (row col : Int) (st : ScanState α)
    (hd : ¬ st.closest > cell_dist gc data_lat data_lon target_lat target_lon (row, col)) :
    visit_cell gc data_lat data_lon target_lat target_lon row col st = st := by
  unfold cell_dist at hd
  simp only [visit_cell]
  split_ifs <;> rfl

/-- What a scan of the cells `l` (pairwise ordered by `R`) started in `s0`
leaves in the state: a lower bound on all valid cells of `l`, and either no
update at all or the first cell of `l` that attains the minimum. -/
lemma foldl_visit_spec (R : Int × Int → Int × Int → Prop) (s0 : ScanState α)
    (l : List (Int × Int)) (hl : l.Pairwise R) :
    (∀ p ∈ l, cell_valid data_lat data_lon p →
      (l.foldl (fun s p => visit_cell gc data_lat data_lon target_lat target_lon p.1 p.2 s)
        s0).closest ≤ cell_dist gc data_lat data_lon target_lat target_lon p) ∧
    ((l.foldl (fun s p => visit_cell gc data_lat data_lon target_lat target_lon p.1 p.2 s) s0 = s0)
      ∨ ∃ r c, l.foldl (fun s p => visit_cell gc data_lat data_lon target_lat target_lon p.1 p.2 s)
            s0 = { closest := cell_dist gc data_lat data_lon target_lat target_lon (r, c),
                   tmp_row := r, tmp_col := c } ∧
          (r, c) ∈ l ∧ cell_valid data_lat data_lon (r, c) ∧
          cell_dist gc data_lat data_lon target_lat target_lon (r, c) < s0.closest ∧
          ∀ q ∈ l, cell_valid data_lat data_lon q →
            cell_dist gc data_lat data_lon target_lat target_lon q =
              cell_dist gc data_lat data_lon target_lat target_lon (r, c) →
            q = (r, c) ∨ R (r, c) q) := by
  induction l using List.reverseRecOn with
  | nil => exact ⟨by simp, Or.inl rfl⟩
  | append_singleton l p ih =>
    rw [List.pairwise_append] at hl
    obtain ⟨hl1, -, hlp⟩ := hl
    obtain ⟨ihlow, ihcase⟩ := ih hl1
    rw [List.foldl_append, List.foldl_cons, List.foldl_nil]
    set s := l.foldl
      (fun s p => visit_cell gc data_lat data_lon target_lat target_lon p.1 p.2 s) s0 with hs
    have hle0 : s.closest ≤ s0.closest := by
      rcases ihcase with h | ⟨r, c, h, -, -, hlt, -⟩
      · rw [h]
      · rw [h]; exact le_of_lt hlt
    by_cases hv : cell_valid data_lat data_lon (p.1, p.2)
    · by_cases hd : s.closest > cell_dist gc data_lat data_lon target_lat target_lon (p.1, p.2)
      · -- the new cell is strictly closer: it becomes the candidate
        rw [visit_cell_closer gc data_lat data_lon target_lat target_lon p.1 p.2 s hv hd]
        refine ⟨?_, Or.inr ⟨p.1, p.2, rfl, by simp, hv, lt_of_lt_of_le hd hle0, ?_⟩⟩
        · intro q hq hqv
          rcases List.mem_append.mp hq with hq | hq
          · exact le_trans (le_of_lt hd) (ihlow q hq hqv)
          · rw [List.mem_singleton.mp hq]
        · intro q hq hqv hqd
          rcases List.mem_append.mp hq with hq | hq
          · exact absurd (ihlow q hq hqv) (not_le.mpr (hqd ▸ hd))
          · exact Or.inl (List.mem_singleton.mp hq)
      · -- not closer: the state is kept
        rw [visit_cell_not_closer gc data_lat data_lon target_lat target_lon p.1 p.2 s hd]
        refine ⟨?_, ?_⟩
        · intro q hq hqv
          rcases List.mem_append.mp hq with hq | hq
          · exact ihlow q hq hqv
          · rw [List.mem_singleton.mp hq]; exact not_lt.mp hd
        · rcases ihcase with h | ⟨r, c, h, hmem, hrv, hlt, htie⟩
          · exact Or.inl h
          · refine Or.inr ⟨r, c, h, List.mem_append.mpr (Or.inl hmem), hrv, hlt, ?_⟩
            intro q hq hqv hqd
            rcases List.mem_append.mp hq with hq | hq
            · exact htie q hq hqv hqd
            · rw [List.mem_singleton.mp hq]
              exact Or.inr (hlp (r, c) hmem p (List.mem_singleton.mpr rfl))
    · rw [visit_cell_invalid gc data_lat data_lon target_lat target_lon p.1 p.2 s hv]
      refine ⟨?_, ?_⟩
      · intro q hq hqv
        rcases List.mem_append.mp hq with hq | hq
        · exact ihlow q hq hqv
        · rw [List.mem_singleton.mp hq] at hqv; exact absurd hqv hv
      · rcases ihcase with h | ⟨r, c, h, hmem, hrv, hlt, htie⟩
        · exact Or.inl h
        · refine Or.inr ⟨r, c, h, List.mem_append.mpr (Or.inl hmem), hrv, hlt, ?_⟩
          intro q hq hqv hqd
          rcases List.mem_append.mp hq with hq | hq
          · exact htie q hq hqv hqd
          · rw [List.mem_singleton.mp hq] at hqv; exact absurd hqv hv

/-- A scan that starts at a lower bound of all valid cells changes nothing. -/
lemma foldl_visit_fixed (s0 : ScanState α) (l : List (Int × Int))
    (h : ∀ p ∈ l, cell_valid data_lat data_lon p →
      s0.closest ≤ cell_dist gc data_lat data_lon target_lat target_lon p) :
    l.foldl (fun s p => visit_cell gc data_lat data_lon target_lat target_lon p.1 p.2 s) s0
      = s0 := by
  induction l with
  | nil => rfl
  | cons p l ih =>
    rw [List.foldl_cons]
    by_cases hv : cell_valid data_lat data_lon (p.1, p.2)
    · rw [visit_cell_not_closer gc data_lat data_lon target_lat target_lon p.1 p.2 s0
        (not_lt.mpr (h p (List.mem_cons_self _ _) hv))]
      exact ih (fun q hq => h q (List.mem_cons_of_mem _ hq))
    · rw [visit_cell_invalid gc data_lat data_lon target_lat target_lon p.1 p.2 s0 hv]
      exact ih (fun q hq => h q (List.mem_cons_of_mem _ hq))

end ScanSpec


/-! ### The repeat-until-fixed-point loop -/

section LoopSpec

variable {α : Type} [LinearOrderedField α]
variable (gc : α → α → α → α → α) (data_lat data_lon : Int → Int → α)
variable (target_lat target_lon : α)

/-- When no valid cell is closer than `closest`, the first execution of the
loop body changes nothing and sets `found`. -/
lemma search_loop_fixed (rows cols : Int) (closest : α) (closest_row closest_col : Int)
    (h : ∀ p ∈ grid_cells rows cols, cell_valid data_lat data_lon p →
      closest ≤ cell_dist gc data_lat data_lon target_lat target_lon p) (fuel : Nat) :
    search_loop gc data_lat data_lon target_lat target_lon rows cols (fuel + 1)
      closest closest_row closest_col = some (closest_row, closest_col, closest) := by
  rw [search_loop, scan_grid_eq_foldl,
    foldl_visit_fixed gc data_lat data_lon target_lat target_lon
      { closest := closest, tmp_row := closest_row, tmp_col := closest_col } _ h]
  simp

/-- When some valid cell is closer than `closest` and `closest_row` is not a
row of the grid, the first execution of the loop body moves to the first cell
at minimum distance and the loop goes round again. -/
lemma search_loop_improve (rows cols : Int) (closest : α) (closest_row closest_col : Int)
    (hrow : closest_row < 0)
    (h : ∃ p ∈ grid_cells rows cols, cell_valid data_lat data_lon p ∧
      cell_dist gc data_lat data_lon target_lat target_lon p < closest) :
    ∃ r c, (r, c) ∈ grid_cells rows cols ∧ cell_valid data_lat data_lon (r, c) ∧
      cell_dist gc data_lat data_lon target_lat target_lon (r, c) < closest ∧
      (∀ q ∈ grid_cells rows cols, cell_valid data_lat data_lon q →
        cell_dist gc data_lat data_lon target_lat target_lon (r, c) ≤
          cell_dist gc data_lat data_lon target_lat target_lon q) ∧
      (∀ q ∈ grid_cells rows cols, cell_valid data_lat data_lon q →
        cell_dist gc data_lat data_lon target_lat target_lon q =
          cell_dist gc data_lat data_lon target_lat target_lon (r, c) →
        q = (r, c) ∨ row_major_lt (r, c) q) ∧
      ∀ fuel, search_loop gc data_lat data_lon target_lat target_lon rows cols (fuel + 1)
          closest closest_row closest_col =
        search_loop gc data_lat data_lon target_lat target_lon rows cols fuel
          (cell_dist gc data_lat data_lon target_lat target_lon (r, c)) r c := by
  obtain ⟨hlow, hcase⟩ := foldl_visit_spec gc data_lat data_lon target_lat target_lon
    row_major_lt { closest := closest, tmp_row := closest_row, tmp_col := closest_col }
    (grid_cells rows cols) (grid_cells_pairwise rows cols)
  rcases hcase with hsame | ⟨r, c, hst, hmem, hv, hlt, htie⟩
  · obtain ⟨p, hp, hpv, hpd⟩ := h
    have := hlow p hp hpv
    rw [hsame] at this
    exact absurd this (not_le.mpr hpd)
  · rw [hst] at hlow
    refine ⟨r, c, hmem, hv, hlt, hlow, htie, ?_⟩
    intro fuel
    have hr0 : 0 ≤ r := ((mem_grid_cells rows cols (r, c)).mp hmem).1.1
    have hne : ¬ (closest_col = c ∧ closest_row = r) := by
      rintro ⟨-, rfl⟩
      exact absurd hrow (not_lt.mpr hr0)
    rw [search_loop, scan_grid_eq_foldl, hst]
    simp only [hne, if_false]

/-- In the situation of `search_loop_improve`, the loop stops after two
executions of its body, with the first cell at minimum distance. -/
lemma search_loop_found (rows cols : Int) (closest : α) (closest_row closest_col : Int)
    (hrow : closest_row < 0)
    (h : ∃ p ∈ grid_cells rows cols, cell_valid data_lat data_lon p ∧
      cell_dist gc data_lat data_lon target_lat target_lon p < closest) :
    ∃ r c, (r, c) ∈ grid_cells rows cols ∧ cell_valid data_lat data_lon (r, c) ∧
      cell_dist gc data_lat data_lon target_lat target_lon (r, c) < closest ∧
      (∀ q ∈ grid_cells rows cols, cell_valid data_lat data_lon q →
        cell_dist gc data_lat data_lon target_lat target_lon (r, c) ≤
          cell_dist gc data_lat data_lon target_lat target_lon q) ∧
      (∀ q ∈ grid_cells rows cols, cell_valid data_lat data_lon q →
        cell_dist gc data_lat data_lon target_lat target_lon q =
          cell_dist gc data_lat data_lon target_lat target_lon (r, c) →
        q = (r, c) ∨ row_major_lt (r, c) q) ∧
      search_loop gc data_lat data_lon target_lat target_lon rows cols 1
          closest closest_row closest_col = none ∧
      ∀ fuel, search_loop gc data_lat data_lon target_lat target_lon rows cols (fuel + 2)
          closest closest_row closest_col =
        some (r, c, cell_dist gc data_lat data_lon target_lat target_lon (r, c)) := by
  obtain ⟨r, c, hmem, hv, hlt, hmin, htie, hstep⟩ :=
    search_loop_improve gc data_lat data_lon target_lat target_lon rows cols
      closest closest_row closest_col hrow h
  refine ⟨r, c, hmem, hv, hlt, hmin, htie, ?_, ?_⟩
  · rw [hstep 0]; rfl
  · intro fuel
    rw [hstep (fuel + 1)]
    exact search_loop_fixed gc data_lat data_lon target_lat target_lon rows cols _ r c hmin fuel

lemma double_to_int_sentinel [FloorRing α] : double_to_int (99999 : α) = 99999 := by
  have h : (0 : α) ≤ 99999 := by norm_num
  have h2 : ((99999 : ℤ) : α) = 99999 := by norm_num
  rw [double_to_int, if_pos h, ← h2, Int.floor_intCast]

lemma double_to_int_of_nonneg [FloorRing α] (x : α) (h : 0 ≤ x) : double_to_int x = ⌊x⌋ := by
  rw [double_to_int, if_pos h]

/-- The result of `get_indices_from_lat_long` when no valid cell beats the
initial `closest = 99999`. -/
lemma get_indices_no_candidate [FloorRing α] (rows cols : Int)
    (h : ∀ p ∈ grid_cells rows cols, cell_valid data_lat data_lon p →
      99999 ≤ cell_dist gc data_lat data_lon target_lat target_lon p) (fuel : Nat) :
    get_indices_from_lat_long gc data_lat data_lon target_lat target_lon rows cols (fuel + 1)
      = some (-9999, -9999, 99999) := by
  rw [get_indices_from_lat_long,
    search_loop_fixed gc data_lat data_lon target_lat target_lon rows cols 99999 (-9999) (-9999)
      h fuel]
  simp only [double_to_int_sentinel]

/-- The result of `get_indices_from_lat_long` when some valid cell beats the
initial `closest = 99999`. -/
lemma get_indices_candidate [FloorRing α] (rows cols : Int)
    (h : ∃ p ∈ grid_cells rows cols, cell_valid data_lat data_lon p ∧
      cell_dist gc data_lat data_lon target_lat target_lon p < 99999) :
    ∃ r c, (r, c) ∈ grid_cells rows cols ∧ cell_valid data_lat data_lon (r, c) ∧
      cell_dist gc data_lat data_lon target_lat target_lon (r, c) < 99999 ∧
      (∀ q ∈ grid_cells rows cols, cell_valid data_lat data_lon q →
        cell_dist gc data_lat data_lon target_lat target_lon (r, c) ≤
          cell_dist gc data_lat data_lon target_lat target_lon q) ∧
      (∀ q ∈ grid_cells rows cols, cell_valid data_lat data_lon q →
        cell_dist gc data_lat data_lon target_lat target_lon q =
          cell_dist gc data_lat data_lon target_lat target_lon (r, c) →
        q = (r, c) ∨ row_major_lt (r, c) q) ∧
      get_indices_from_lat_long gc data_lat data_lon target_lat target_lon rows cols 0 = none ∧
      get_indices_from_lat_long gc data_lat data_lon target_lat target_lon rows cols 1 = none ∧
      ∀ fuel, get_indices_from_lat_long gc data_lat data_lon target_lat target_lon rows cols
          (fuel + 2) =
        some (r, c, double_to_int (cell_dist gc data_lat data_lon target_lat target_lon (r, c))) := by
  obtain ⟨r, c, hmem, hv, hlt, hmin, htie, hone, htwo⟩ :=
    search_loop_found gc data_lat data_lon target_lat target_lon rows cols 99999 (-9999) (-9999)
      (by norm_num) h
  refine ⟨r, c, hmem, hv, hlt, hmin, htie, rfl, ?_, ?_⟩
  · rw [get_indices_from_lat_long, hone]
  · intro fuel
    rw [get_indices_from_lat_long, htwo fuel]

end LoopSpec

/-! ### Helper lemmas on `gc_a` and `gc_distance` -/

lemma gc_a_nonneg_le_one (lat_0 lon_0 lat_1 lon_1 : ℝ) :
    0 ≤ gc_a lat_0 lon_0 lat_1 lon_1 ∧ gc_a lat_0 lon_0 lat_1 lon_1 ≤ 1 := by
  simp only [gc_a]
  set x := lat_0 * Real.pi / 180 with hx
  set y := lat_1 * Real.pi / 180 with hy
  set s := Real.sin ((lon_1 * Real.pi / 180 - lon_0 * Real.pi / 180) / 2) ^ 2 with hs
  have hs0 : 0 ≤ s := sq_nonneg _
  have hs1 : s ≤ 1 := Real.sin_sq_le_one _
  have hhalf : Real.sin ((y - x) / 2) ^ 2 = (1 - Real.cos (y - x)) / 2 := by
    have h := Real.cos_two_mul ((y - x) / 2)
    have h2 := Real.sin_sq_add_cos_sq ((y - x) / 2)
    have h3 : 2 * ((y - x) / 2) = y - x := by ring
    rw [h3] at h
    linarith
  rw [hhalf, Real.cos_sub]
  have hx1 := Real.sin_sq_add_cos_sq x
  have hy1 := Real.sin_sq_add_cos_sq y
  have hcc : |Real.cos y * Real.cos x| + |Real.sin y * Real.sin x| ≤ 1 := by
    rw [abs_mul, abs_mul]
    nlinarith [sq_nonneg (|Real.cos y| - |Real.cos x|), sq_nonneg (|Real.sin y| - |Real.sin x|),
      sq_abs (Real.cos y), sq_abs (Real.cos x), sq_abs (Real.sin y), sq_abs (Real.sin x)]
  have hc := abs_le.mp (le_refl |Real.cos y * Real.cos x|)
  have hsn := abs_le.mp (le_refl |Real.sin y * Real.sin x|)
  have hcn : 0 ≤ |Real.cos y * Real.cos x| := abs_nonneg _
  have hsnn : 0 ≤ |Real.sin y * Real.sin x| := abs_nonneg _
  constructor
  · nlinarith [mul_nonneg hs0 hcn, mul_nonneg (sub_nonneg.mpr hs1) hcn,
      mul_nonneg hs0 (sub_nonneg.mpr hc.2), mul_nonneg hs0 (sub_nonneg.mpr hc.1),
      mul_nonneg (sub_nonneg.mpr hs1) (sub_nonneg.mpr hc.2),
      mul_nonneg (sub_nonneg.mpr hs1) (sub_nonneg.mpr hc.1)]
  · nlinarith [mul_nonneg hs0 hcn, mul_nonneg (sub_nonneg.mpr hs1) hcn,
      mul_nonneg hs0 (sub_nonneg.mpr hc.2), mul_nonneg hs0 (sub_nonneg.mpr hc.1),
      mul_nonneg (sub_nonneg.mpr hs1) (sub_nonneg.mpr hc.2),
      mul_nonneg (sub_nonneg.mpr hs1) (sub_nonneg.mpr hc.1)]

lemma gc_distance_nonneg (lat_0 lon_0 lat_1 lon_1 : ℝ) :
    0 ≤ gc_distance lat_0 lon_0 lat_1 lon_1 := by
  simp only [gc_distance]
  have h : 0 ≤ Real.arcsin (Real.sqrt (gc_a lat_0 lon_0 lat_1 lon_1)) :=
    Real.arcsin_nonneg.mpr (Real.sqrt_nonneg _)
  positivity

lemma gc_distance_lt_sentinel (lat_0 lon_0 lat_1 lon_1 : ℝ) :
    gc_distance lat_0 lon_0 lat_1 lon_1 < 99999 := by
  simp only [gc_distance]
  have h : Real.arcsin (Real.sqrt (gc_a lat_0 lon_0 lat_1 lon_1)) ≤ Real.pi / 2 :=
    Real.arcsin_le_pi_div_two _
  have hpi := Real.pi_lt_d2
  nlinarith

lemma gc_distance_same_point (x y : ℝ) : gc_distance x y x y = 0 := by
  simp [gc_distance, gc_a]

lemma gc_a_symm (a b c d : ℝ) : gc_a a b c d = gc_a c d a b := by
  simp only [gc_a]
  have h1 : (c * Real.pi / 180 - a * Real.pi / 180) / 2 =
      -((a * Real.pi / 180 - c * Real.pi / 180) / 2) := by ring
  have h2 : (d * Real.pi / 180 - b * Real.pi / 180) / 2 =
      -((b * Real.pi / 180 - d * Real.pi / 180) / 2) := by ring
  rw [h1, h2, Real.sin_neg, Real.sin_neg]
  ring

lemma gc_distance_one_degree (y : ℝ) : gc_distance 0 y 1 y = Real.pi / 180 * 6367 := by
  have hpi := Real.pi_pos
  have ha : gc_a 0 y 1 y = Real.sin (Real.pi / 360) ^ 2 := by
    simp only [gc_a]
    have h1 : (1 * Real.pi / 180 - 0 * Real.pi / 180) / 2 = Real.pi / 360 := by ring
    have h2 : (y * Real.pi / 180 - y * Real.pi / 180) / 2 = 0 := by ring
    rw [h1, h2]
    simp
  have hs : 0 ≤ Real.sin (Real.pi / 360) :=
    Real.sin_nonneg_of_nonneg_of_le_pi (by positivity) (by linarith)
  simp only [gc_distance, ha]
  rw [Real.sqrt_sq hs, Real.arcsin_sin (by linarith) (by linarith)]
  ring

lemma gc_distance_one_degree_bounds (y : ℝ) :
    111 < gc_distance 0 y 1 y ∧ gc_distance 0 y 1 y < 112 := by
  rw [gc_distance_one_degree]
  have h1 := Real.pi_gt_d2
  have h2 := Real.pi_lt_d2
  constructor <;> linarith

/-- A valid cell always beats the initial `closest = 99999` when the distance
is `gc_distance`. -/
lemma exists_candidate_of_valid (data_lat data_lon : Int → Int → ℝ)
    (target_lat target_lon : ℝ) (rows cols : Int)
    (hvalid : ∃ r c, (0 ≤ r ∧ r < rows) ∧ (0 ≤ c ∧ c < cols) ∧
      data_lat r c > -9999 ∧ data_lon r c > -9999) :
    ∃ p ∈ grid_cells rows cols, cell_valid data_lat data_lon p ∧
      cell_dist gc_distance data_lat data_lon target_lat target_lon p < 99999 := by
  obtain ⟨r, c, hr, hc, hlat, hlon⟩ := hvalid
  exact ⟨(r, c), (mem_grid_cells rows cols (r, c)).mpr ⟨hr, hc⟩, ⟨hlat, hlon⟩,
    gc_distance_lt_sentinel _ _ _ _⟩

lemma row_major_key_le (cols : Int) (p q : Int × Int) (hp0 : 0 ≤ p.2) (hp : p.2 < cols)
    (hq : 0 ≤ q.2) (h : q = p ∨ row_major_lt p q) :
    p.1 * cols + p.2 ≤ q.1 * cols + q.2 := by
  rcases h with rfl | h | ⟨h1, h2⟩
  · exact le_refl _
  · have hc : (0 : Int) ≤ cols := by linarith
    have hd : (0 : Int) ≤ q.1 - p.1 - 1 := by linarith [Int.add_one_le_iff.mpr h]
    nlinarith [mul_nonneg hd hc]
  · rw [h1]; linarith

/-- On a 1 x 1 grid whose only cell is valid, two executions of the loop body
return that cell and the truncated distance. -/
lemma get_indices_single_cell (data_lat data_lon : Int → Int → ℝ) (target_lat target_lon : ℝ)
    (hlat : data_lat 0 0 > -9999) (hlon : data_lon 0 0 > -9999) (fuel : Nat) :
    get_indices_from_lat_long gc_distance data_lat data_lon target_lat target_lon 1 1 (fuel + 2)
      = some (0, 0, ⌊gc_distance (data_lat 0 0) (data_lon 0 0) target_lat target_lon⌋) := by
  obtain ⟨row, col, hmem, -, -, -, -, -, -, hres⟩ :=
    get_indices_candidate gc_distance data_lat data_lon target_lat target_lon 1 1
      (exists_candidate_of_valid data_lat data_lon target_lat target_lon 1 1
        ⟨0, 0, by norm_num, by norm_num, hlat, hlon⟩)
  have hin := (mem_grid_cells 1 1 (row, col)).mp hmem
  have hr : row = 0 := by have := hin.1; simp only at this; omega
  have hc : col = 0 := by have := hin.2; simp only at this; omega
  subst hr hc
  rw [hres fuel, cell_dist, double_to_int_of_nonneg _ (gc_distance_nonneg _ _ _ _)]

lemma floor_gc_distance_one_degree (y : ℝ) : ⌊gc_distance 0 y 1 y⌋ = 111 := by
  obtain ⟨h1, h2⟩ := gc_distance_one_degree_bounds y
  rw [Int.floor_eq_iff]
  constructor
  · push_cast; linarith
  · push_cast; linarith

/-- The 1 x 1 grid holding the point (0, 0), searched for the target (1, 0). -/
lemma get_indices_one_degree_example :
    get_indices_from_lat_long gc_distance (fun _ _ => (0 : ℝ)) (fun _ _ => (0 : ℝ)) 1 0 1 1 2
      = some (0, 0, 111) := by
  rw [get_indices_single_cell (fun _ _ => (0 : ℝ)) (fun _ _ => (0 : ℝ)) 1 0
    (by norm_num) (by norm_num) 0, floor_gc_distance_one_degree]

/-! ### Binary32 rounding -/

lemma round_half_even_intCast (z : ℤ) : round_half_even (z : ℚ) = z := by
  simp [round_half_even]

/-- A rational that is an integer multiple of its unit in the last place is
left unchanged by the rounding. -/
lemma to_float_of_multiple (q : ℚ) (z : ℤ) (hz : q / 2 ^ (Int.log 2 |q| - 23) = z) :
    to_float q = q := by
  by_cases hq : q = 0
  · simp [to_float, hq]
  · have hu : (2 : ℚ) ^ (Int.log 2 |q| - 23) ≠ 0 := zpow_ne_zero _ (by norm_num)
    simp only [to_float, if_neg hq]
    rw [hz, round_half_even_intCast, ← hz]
    field_simp

/-- Integers of magnitude below `2^24` are binary32 values: the casts
`(float) n` of such integers are exact. -/
lemma to_float_intCast (n : ℤ) (h : |n| < 2 ^ 24) : to_float (n : ℚ) = n := by
  by_cases hn : n = 0
  · simp [to_float, hn]
  · have h1 : (1 : ℚ) ≤ |(n : ℚ)| := by
      have : (1 : ℤ) ≤ |n| := Int.one_le_abs hn
      exact_mod_cast this
    have hlog : Int.log 2 |(n : ℚ)| = (Nat.log 2 n.natAbs : ℤ) := by
      have habs : |(n : ℚ)| = ((n.natAbs : ℕ) : ℚ) := by
        rw [Nat.cast_natAbs, Int.cast_abs]
      rw [Int.log_of_one_le_right _ h1, habs, Nat.floor_natCast]
    have hk : Nat.log 2 n.natAbs < 24 := by
      apply Nat.log_lt_of_lt_pow (Int.natAbs_ne_zero.mpr hn)
      have : (n.natAbs : ℤ) < 2 ^ 24 := by rwa [← Int.abs_eq_natAbs]
      exact_mod_cast this
    apply to_float_of_multiple _ (n * 2 ^ (23 - Nat.log 2 n.natAbs))
    rw [hlog]
    have hk' : Nat.log 2 n.natAbs ≤ 23 := by omega
    have : ((Nat.log 2 n.natAbs : ℤ) - 23) = -((23 - Nat.log 2 n.natAbs : ℕ) : ℤ) := by
      omega
    rw [this, zpow_neg, zpow_natCast]
    push_cast
    field_simp

/-- The rescaled index when no operation of line 337 rounds. -/
lemma rescale_index_of_exact (ll_idx count ll_count : ℤ)
    (hidx : 0 ≤ ll_idx ∧ ll_idx < ll_count) (hcount : 0 < count)
    (hsmall : ll_count < 2 ^ 24 ∧ count < 2 ^ 24)
    (hquot : to_float ((count : ℚ) / (ll_count : ℚ)) = (count : ℚ) / (ll_count : ℚ))
    (hprod : to_float ((ll_idx : ℚ) * ((count : ℚ) / (ll_count : ℚ))) =
      (ll_idx : ℚ) * ((count : ℚ) / (ll_count : ℚ))) :
    rescale_index ll_idx count ll_count =
      some ⌊(ll_idx : ℚ) * (count : ℚ) / (ll_count : ℚ)⌋ := by
  have hll : 0 < ll_count := lt_of_le_of_lt hidx.1 hidx.2
  have e1 : to_float (ll_idx : ℚ) = ll_idx :=
    to_float_intCast _ (by rw [abs_of_nonneg hidx.1]; exact lt_trans hidx.2 hsmall.1)
  have e2 : to_float (count : ℚ) = count :=
    to_float_intCast _ (by rw [abs_of_pos hcount]; exact hsmall.2)
  have e3 : to_float (ll_count : ℚ) = ll_count :=
    to_float_intCast _ (by rw [abs_of_pos hll]; exact hsmall.1)
  have hnn : (0 : ℚ) ≤ (ll_idx : ℚ) * ((count : ℚ) / (ll_count : ℚ)) := by
    have a1 : (0 : ℚ) ≤ ll_idx := by exact_mod_cast hidx.1
    have a2 : (0 : ℚ) < count := by exact_mod_cast hcount
    have a3 : (0 : ℚ) < ll_count := by exact_mod_cast hll
    positivity
  have hlt : (ll_idx : ℚ) * ((count : ℚ) / (ll_count : ℚ)) < 2 ^ 24 := by
    have a1 : (ll_idx : ℚ) < ll_count := by exact_mod_cast hidx.2
    have a2 : (0 : ℚ) < count := by exact_mod_cast hcount
    have a3 : (0 : ℚ) < ll_count := by exact_mod_cast hll
    have a4 : (count : ℚ) < 2 ^ 24 := by exact_mod_cast hsmall.2
    have a5 : (ll_idx : ℚ) * ((count : ℚ) / (ll_count : ℚ)) < count := by
      rw [← mul_div_assoc, div_lt_iff₀ a3]
      nlinarith
    linarith
  have hfl0 : 0 ≤ ⌊(ll_idx : ℚ) * ((count : ℚ) / (ll_count : ℚ))⌋ := Int.floor_nonneg.mpr hnn
  have hfl1 : ⌊(ll_idx : ℚ) * ((count : ℚ) / (ll_count : ℚ))⌋ < 2 ^ 24 := by
    rw [Int.floor_lt]
    exact_mod_cast hlt
  have hrange : -2 ^ 31 ≤ ⌊(ll_idx : ℚ) * ((count : ℚ) / (ll_count : ℚ))⌋ ∧
      ⌊(ll_idx : ℚ) * ((count : ℚ) / (ll_count : ℚ))⌋ < 2 ^ 31 := by
    constructor <;> omega
  simp only [rescale_index, if_neg (ne_of_gt hll), e1, e2, e3, hquot, hprod,
    double_to_int_of_nonneg _ hnn, hrange, and_self, if_true, mul_div_assoc]

/-! ### `size_t` arithmetic without wrap-around -/

lemma size_mul_of_lt {a b : Nat} (h : a * b < 2 ^ 64) : size_mul a b = a * b :=
  Nat.mod_eq_of_lt h

lemma size_add_of_lt {a b : Nat} (h : a + b < 2 ^ 64) : size_add a b = a + b :=
  Nat.mod_eq_of_lt h

lemma size_mul_mul (a b c : Nat) : size_mul (size_mul a b) c = (a * b * c) % 2 ^ 64 := by
  simp only [size_mul]
  rw [Nat.mul_mod, Nat.mod_mod, ← Nat.mul_mod]

lemma size_mul_mul_of_lt {a b c : Nat} (h : a * b * c < 2 ^ 64) :
    size_mul (size_mul a b) c = a * b * c := by
  rw [size_mul_mul, Nat.mod_eq_of_lt h]

/-! ### Loops that store into a block -/

section StoreLoops

variable {α : Type}

lemma foldlM_option_congr {σ ι : Type} (l : List ι) (f g : σ → ι → Option σ) (s : σ)
    (h : ∀ x ∈ l, ∀ t, f t x = g t x) : l.foldlM f s = l.foldlM g s := by
  induction l generalizing s with
  | nil => rfl
  | cons x l ih =>
    simp only [List.foldlM_cons]
    rw [h x (List.mem_cons_self _ _) s]
    cases hg : g s x with
    | none => rfl
    | some t =>
      simp only [Option.bind_eq_bind, Option.some_bind]
      exact ih t (fun y hy => h y (List.mem_cons_of_mem _ hy))

lemma foldlM_rows_cols {σ : Type} (step : σ → Nat × Nat → Option σ) (rs : List Nat)
    (cols : Nat) (s : σ) :
    rs.foldlM (fun d row => (List.range cols).foldlM (fun d col => step d (row, col)) d) s =
      (rs.flatMap (fun r => (List.range cols).map (fun c => (r, c)))).foldlM step s := by
  induction rs generalizing s with
  | nil => rfl
  | cons r rs ih =>
    simp only [List.foldlM_cons, List.flatMap_cons, List.foldlM_append, List.foldlM_map]
    cases h : (List.range cols).foldlM (fun d col => step d (r, col)) s with
    | none => rfl
    | some t =>
      simp only [Option.bind_eq_bind, Option.some_bind]
      exact ih t

lemma mem_cells2 (rows cols : Nat) (p : Nat × Nat) :
    p ∈ cells2 rows cols ↔ p.1 < rows ∧ p.2 < cols := by
  obtain ⟨r, c⟩ := p
  simp only [cells2, List.mem_flatMap, List.mem_map, List.mem_range, Prod.mk.injEq]
  constructor
  · rintro ⟨r', hr', c', hc', rfl, rfl⟩
    exact ⟨hr', hc'⟩
  · rintro ⟨hr, hc⟩
    exact ⟨r, hr, c, hc, rfl, rfl⟩

lemma cells2_pairwise (rows cols : Nat) :
    (cells2 rows cols).Pairwise (fun p q => p.1 * cols + p.2 < q.1 * cols + q.2) := by
  unfold cells2
  rw [List.pairwise_flatMap]
  constructor
  · intro r _
    rw [List.pairwise_map]
    exact (List.pairwise_lt_range cols).imp (fun h => by simpa using h)
  · refine (List.pairwise_lt_range rows).imp ?_
    intro r r' hrr p hp q hq
    simp only [List.mem_map, List.mem_range] at hp hq
    obtain ⟨c, hc, rfl⟩ := hp
    obtain ⟨c', _, rfl⟩ := hq
    simp only
    have : (r + 1) * cols ≤ r' * cols := Nat.mul_le_mul_right _ hrr
    nlinarith

/-- A loop whose body stores one scalar per item, at pairwise distinct
addresses inside the block, succeeds; afterwards each item's address holds the
item's value and all other scalars, all pointers and the length are as
before. -/
lemma foldlM_store_spec {ι : Type} (l : List ι) (step : Block α → ι → Option (Block α))
    (addr : ι → Nat) (val : ι → Option α) (size : Nat) (d0 : Block α)
    (hstep : ∀ d x, x ∈ l → d.bytes = d0.bytes → d.ptrs = d0.ptrs →
      step d x = d.store (addr x) size (val x))
    (hin : ∀ x ∈ l, addr x + size ≤ d0.bytes)
    (hinj : l.Pairwise (fun x y => addr x ≠ addr y)) :
    ∃ d, l.foldlM step d0 = some d ∧ d.bytes = d0.bytes ∧ d.ptrs = d0.ptrs ∧
      (∀ x ∈ l, d.elems (addr x) = val x) ∧
      (∀ o, (∀ x ∈ l, addr x ≠ o) → d.elems o = d0.elems o) := by
  induction l using List.reverseRecOn with
  | nil => exact ⟨d0, rfl, rfl, rfl, by simp, fun _ _ => rfl⟩
  | append_singleton l x ih =>
    rw [List.pairwise_append] at hinj
    obtain ⟨hl, -, hlx⟩ := hinj
    obtain ⟨d, hd, hb, hp, hval, hother⟩ := ih
      (fun d y hy => hstep d y (List.mem_append.mpr (Or.inl hy)))
      (fun y hy => hin y (List.mem_append.mpr (Or.inl hy))) hl
    have hx : x ∈ l ++ [x] := List.mem_append.mpr (Or.inr (List.mem_singleton.mpr rfl))
    have hfit : addr x + size ≤ d.bytes := by rw [hb]; exact hin x hx
    refine ⟨{ d with elems := fun o => if o = addr x then val x else d.elems o }, ?_, hb, hp, ?_, ?_⟩
    · rw [List.foldlM_append, hd]
      simp only [Option.bind_eq_bind, Option.some_bind, List.foldlM_cons, List.foldlM_nil]
      rw [hstep d x hx hb hp, Block.store, if_pos hfit]
      rfl
    · intro y hy
      rcases List.mem_append.mp hy with hy | hy
      · have hne : addr y ≠ addr x := hlx y hy x (List.mem_singleton.mpr rfl)
        simp only [if_neg hne]
        exact hval y hy
      · rw [List.mem_singleton.mp hy]
        simp
    · intro o ho
      have hne : o ≠ addr x := fun h => ho x hx h.symm
      simp only [if_neg hne]
      exact hother o (fun y hy => ho y (List.mem_append.mpr (Or.inl hy)))

/-- A loop `for (j = 0; j < n; j++) start[j] = val(j)` over pointer slots that
lie inside the block succeeds; afterwards slot `j` holds `val j` and everything
else is as before. -/
lemma foldlM_store_ptr_spec (n : Nat) (step : Block α → Nat → Option (Block α))
    (start : Nat) (val : Nat → Nat) (b0 : Block α)
    (hstep : ∀ b j, j < n → step b j = b.store_ptr (start + sizeof_ptr * j) (val j))
    (hin : start + sizeof_ptr * n ≤ b0.bytes) :
    ∃ b, (List.range n).foldlM step b0 = some b ∧ b.bytes = b0.bytes ∧ b.elems = b0.elems ∧
      (∀ j, j < n → b.ptrs (start + sizeof_ptr * j) = some (val j)) ∧
      (∀ o, (∀ j, j < n → start + sizeof_ptr * j ≠ o) → b.ptrs o = b0.ptrs o) := by
  induction n with
  | zero => exact ⟨b0, rfl, rfl, rfl, by simp, fun _ _ => rfl⟩
  | succ n ih =>
    have hin' : start + sizeof_ptr * n ≤ b0.bytes := by
      have : sizeof_ptr * n ≤ sizeof_ptr * (n + 1) := Nat.mul_le_mul_left _ (Nat.le_succ n)
      omega
    obtain ⟨b, hb, hbytes, helems, hval, hother⟩ :=
      ih (fun b j hj => hstep b j (Nat.lt_succ_of_lt hj)) hin'
    have hfit : start + sizeof_ptr * n + sizeof_ptr ≤ b.bytes := by
      rw [hbytes]
      have : sizeof_ptr * (n + 1) = sizeof_ptr * n + sizeof_ptr := by ring
      omega
    refine ⟨{ b with ptrs := fun o => if o = start + sizeof_ptr * n then some (val n) else b.ptrs o },
      ?_, hbytes, helems, ?_, ?_⟩
    · rw [List.range_succ, List.foldlM_append, hb]
      simp only [Option.bind_eq_bind, Option.some_bind, List.foldlM_cons, List.foldlM_nil]
      rw [hstep b n (Nat.lt_succ_self n), Block.store_ptr, if_pos hfit]
      rfl
    · intro j hj
      rcases Nat.lt_succ_iff_lt_or_eq.mp hj with hj | rfl
      · have hne : start + sizeof_ptr * j ≠ start + sizeof_ptr * n := by
          unfold sizeof_ptr
          omega
        simp only [if_neg hne]
        exact hval j hj
      · simp
    · intro o ho
      have hne : o ≠ start + sizeof_ptr * n := fun h => ho n (Nat.lt_succ_self n) h.symm
      simp only [if_neg hne]
      exact hother o (fun j hj => ho j (Nat.lt_succ_of_lt hj))

end StoreLoops

/-! ### The layout produced by `dimalloc` -/

section DimallocLayout

variable {α : Type}

lemma size_sub_two_one : size_sub 2 1 = 1 := by norm_num [size_sub]

lemma size_sub_two_two : size_sub 2 2 = 0 := by norm_num [size_sub]

lemma size_sub_three_one : size_sub 3 1 = 2 := by norm_num [size_sub]

lemma size_sub_three_two : size_sub 3 2 = 1 := by norm_num [size_sub]

lemma dimalloc_bytes_2d (size R C : Nat)
    (hfit : sizeof_ptr * R + R * C * size < 2 ^ 64) :
    dimalloc_bytes size 2 [R, C] = some (sizeof_ptr * R + R * C * size) := by
  simp only [sizeof_ptr] at hfit ⊢
  have h1 : size_mul 1 R = R := by rw [size_mul_of_lt (by omega)]; omega
  have h2 : size_mul R 8 = 8 * R := by rw [size_mul_of_lt (by omega)]; omega
  have h4 : size_mul (size_mul R C) size = R * C * size := size_mul_mul_of_lt (by omega)
  have h5 : size_add 0 (8 * R) = 8 * R := by rw [size_add_of_lt (by omega)]; omega
  have h6 : size_add (8 * R) (R * C * size) = 8 * R + R * C * size := size_add_of_lt (by omega)
  simp only [dimalloc_bytes, size_sub_two_one, List.range_succ, List.range_zero, List.nil_append,
    List.foldlM_cons, List.foldlM_nil, List.getElem?_cons_zero, List.getElem?_cons_succ,
    Option.bind_eq_bind, Option.some_bind, Option.pure_def, bind_pure_comp, sizeof_ptr,
    h1, h2, h4, h5, h6]

/-- The block `dimalloc(size, 2, R, C)` when the byte count does not wrap. -/
lemma dimalloc_2d (size R C : Nat)
    (hfit : sizeof_ptr * R + R * C * size < 2 ^ 64) :
    ∃ b : Block α, (dimalloc size 2 [R, C] : Ret (Block α)) = Ret.ptr b ∧
      b.bytes = sizeof_ptr * R + R * C * size ∧
      b.elems = (fun _ => none) ∧
      ∀ i, i < R → b.ptrs (sizeof_ptr * i) = some (sizeof_ptr * R + i * C * size) := by
  have hfit8 : 8 * R + R * C * size < 2 ^ 64 := hfit
  have h1 : size_mul 1 R = R := by rw [size_mul_of_lt (by omega)]; omega
  have h1' : size_mul R 1 = R := by rw [size_mul_of_lt (by omega)]; omega
  obtain ⟨b, hb, hbytes, helems, hval, -⟩ :=
    foldlM_store_ptr_spec (α := α) R
      (dimalloc_data_slot size 2 [R, C] 0 (sizeof_ptr * R)) 0
      (fun j => sizeof_ptr * R + j * C * size) (malloc (sizeof_ptr * R + R * C * size))
      (by
        intro m j hj
        have hjC : j * C ≤ R * C := Nat.mul_le_mul_right _ (le_of_lt hj)
        have hjCs : j * C * size ≤ R * C * size := Nat.mul_le_mul_right _ hjC
        have e2 : size_mul (size_mul j C) size = j * C * size := size_mul_mul_of_lt (by omega)
        simp only [dimalloc_data_slot, size_sub_two_one, List.getElem?_cons_succ,
          List.getElem?_cons_zero, Option.bind_eq_bind, Option.some_bind, e2])
      (by simp only [malloc, sizeof_ptr]; omega)
  refine ⟨b, ?_, hbytes, helems, ?_⟩
  · have hrun : dimalloc_data size 2 [R, C]
        ({ stride := 1, base := 0, mem := malloc (sizeof_ptr * R + R * C * size) } : PtrState α)
        = some b := by
      simp only [dimalloc_data, size_sub_two_two, List.getElem?_cons_zero, Option.bind_eq_bind,
        Option.some_bind, Option.pure_def, h1, h1', Nat.zero_add, gt_iff_lt, Nat.one_lt_ofNat,
        if_true]
      exact hb
    simp only [dimalloc, List.length_cons, List.length_nil, List.take, Nat.le_zero_eq,
      OfNat.ofNat_ne_zero, if_false, Nat.lt_irrefl, dimalloc_bytes_2d size R C hfit,
      size_sub_two_two, List.range_zero, List.foldlM_nil, Option.bind_eq_bind, Option.some_bind,
      Option.pure_def, hrun]
  · intro i hi
    have := hval i hi
    simpa using this

lemma dimalloc_bytes_3d (size L R C : Nat)
    (hfit : sizeof_ptr * L + sizeof_ptr * (L * R) + L * R * C * size < 2 ^ 64) :
    dimalloc_bytes size 3 [L, R, C] =
      some (sizeof_ptr * L + sizeof_ptr * (L * R) + L * R * C * size) := by
  simp only [sizeof_ptr] at hfit ⊢
  have h1 : size_mul 1 L = L := by rw [size_mul_of_lt (by omega)]; omega
  have h2 : size_mul L 8 = 8 * L := by rw [size_mul_of_lt (by omega)]; omega
  have h3 : size_mul L R = L * R := size_mul_of_lt (by omega)
  have h4 : size_mul (L * R) 8 = 8 * (L * R) := by rw [size_mul_of_lt (by omega)]; omega
  have h6 : size_mul (size_mul (L * R) C) size = L * R * C * size :=
    size_mul_mul_of_lt (by omega)
  have h7 : size_add 0 (8 * L) = 8 * L := by rw [size_add_of_lt (by omega)]; omega
  have h8 : size_add (8 * L) (8 * (L * R)) = 8 * L + 8 * (L * R) := size_add_of_lt (by omega)
  have h9 : size_add (8 * L + 8 * (L * R)) (L * R * C * size) =
      8 * L + 8 * (L * R) + L * R * C * size := size_add_of_lt (by omega)
  simp only [dimalloc_bytes, size_sub_three_one, List.range_succ, List.range_zero,
    List.nil_append, List.cons_append, List.foldlM_cons, List.foldlM_nil,
    List.getElem?_cons_zero, List.getElem?_cons_succ, Option.bind_eq_bind, Option.some_bind,
    Option.pure_def, bind_pure_comp, sizeof_ptr, h1, h2, h3, h4, h6, h7, h8, h9]

/-- The block `dimalloc(size, 3, L, R, C)` when the byte count does not wrap. -/
lemma dimalloc_3d (size L R C : Nat)
    (hfit : sizeof_ptr * L + sizeof_ptr * (L * R) + L * R * C * size < 2 ^ 64) :
    ∃ b : Block α, (dimalloc size 3 [L, R, C] : Ret (Block α)) = Ret.ptr b ∧
      b.bytes = sizeof_ptr * L + sizeof_ptr * (L * R) + L * R * C * size ∧
      b.elems = (fun _ => none) ∧
      (∀ i, i < L → b.ptrs (sizeof_ptr * i) = some (sizeof_ptr * L + sizeof_ptr * (i * R))) ∧
      (∀ m, m < L * R → b.ptrs (sizeof_ptr * L + sizeof_ptr * m) =
        some (sizeof_ptr * L + sizeof_ptr * (L * R) + m * C * size)) := by
  have hfit8 : 8 * L + 8 * (L * R) + L * R * C * size < 2 ^ 64 := hfit
  have h1 : size_mul 1 L = L := by rw [size_mul_of_lt (by omega)]; omega
  have h1' : size_mul L 1 = L := by rw [size_mul_of_lt (by omega)]; omega
  have h3 : size_mul L R = L * R := size_mul_of_lt (by omega)
  have h3' : size_mul R L = L * R := by rw [size_mul_of_lt (by rw [Nat.mul_comm]; omega)]; ring
  -- first level: `L` slots pointing into the second level
  obtain ⟨b1, hb1, hbytes1, helems1, hval1, -⟩ :=
    foldlM_store_ptr_spec (α := α) L
      (dimalloc_level_slot [L, R, C] 0 0 (sizeof_ptr * L)) 0
      (fun j => sizeof_ptr * L + sizeof_ptr * (j * R))
      (malloc (sizeof_ptr * L + sizeof_ptr * (L * R) + L * R * C * size))
      (by
        intro m j hj
        have hjR : j * R ≤ L * R := Nat.mul_le_mul_right _ (le_of_lt hj)
        have e1 : size_mul j R = j * R := size_mul_of_lt (by omega)
        simp only [dimalloc_level_slot, Nat.zero_add, List.getElem?_cons_succ,
          List.getElem?_cons_zero, Option.bind_eq_bind, Option.some_bind, e1])
      (by simp only [malloc, sizeof_ptr]; omega)
  -- second level: `L * R` slots pointing into the data
  obtain ⟨b, hb, hbytes, helems, hval, hother⟩ :=
    foldlM_store_ptr_spec (α := α) (L * R)
      (dimalloc_data_slot size 3 [L, R, C] (sizeof_ptr * L)
        (sizeof_ptr * L + sizeof_ptr * (L * R))) (sizeof_ptr * L)
      (fun j => sizeof_ptr * L + sizeof_ptr * (L * R) + j * C * size) b1
      (by
        intro m j hj
        have hjC : j * C ≤ L * R * C := Nat.mul_le_mul_right _ (le_of_lt hj)
        have hjCs : j * C * size ≤ L * R * C * size := Nat.mul_le_mul_right _ hjC
        have e2 : size_mul (size_mul j C) size = j * C * size := size_mul_mul_of_lt (by omega)
        simp only [dimalloc_data_slot, size_sub_three_one, List.getElem?_cons_succ,
          List.getElem?_cons_zero, Option.bind_eq_bind, Option.some_bind, e2])
      (by rw [hbytes1]; simp only [malloc, sizeof_ptr]; omega)
  refine ⟨b, ?_, by rw [hbytes, hbytes1]; rfl, by rw [helems, helems1]; rfl, ?_, ?_⟩
  · have hlevel : dimalloc_level [L, R, C]
        ({ stride := 1, base := 0,
           mem := malloc (sizeof_ptr * L + sizeof_ptr * (L * R) + L * R * C * size) } :
          PtrState α) 0
        = some { stride := L, base := sizeof_ptr * L, mem := b1 } := by
      simp only [dimalloc_level, List.getElem?_cons_zero, Option.bind_eq_bind,
        Option.some_bind, Option.pure_def, h1, h1', Nat.zero_add, hb1]
    have hrun : dimalloc_data size 3 [L, R, C]
        ({ stride := L, base := sizeof_ptr * L, mem := b1 } : PtrState α) = some b := by
      simp only [dimalloc_data, size_sub_three_two, List.getElem?_cons_zero,
        List.getElem?_cons_succ, Option.bind_eq_bind, Option.some_bind, Option.pure_def,
        h3, h3', gt_iff_lt, Nat.one_lt_ofNat, if_true]
      exact hb
    simp only [dimalloc, List.length_cons, List.length_nil, List.take, Nat.le_zero_eq,
      OfNat.ofNat_ne_zero, if_false, Nat.lt_irrefl, dimalloc_bytes_3d size L R C hfit,
      size_sub_three_two, List.range_succ, List.range_zero, List.nil_append, List.foldlM_cons,
      List.foldlM_nil, Option.bind_eq_bind, Option.some_bind, Option.pure_def, hlevel, hrun]
  · intro i hi
    have hne : ∀ j, j < L * R → sizeof_ptr * L + sizeof_ptr * j ≠ sizeof_ptr * i := by
      intro j _
      simp only [sizeof_ptr]
      omega
    rw [hother (sizeof_ptr * i) hne]
    have := hval1 i hi
    simpa using this
  · intro m hm
    exact hval m hm

end DimallocLayout

/-! ### A `dimalloc` that returns a block did not wrap -/

section DimallocFit

variable {α : Type}

lemma store_ptr_bytes (b b' : Block α) (off p : Nat) (h : b.store_ptr off p = some b') :
    off + sizeof_ptr ≤ b.bytes ∧ b'.bytes = b.bytes := by
  unfold Block.store_ptr at h
  split_ifs at h with hfit
  simp only [Option.some.injEq] at h
  subst h
  exact ⟨hfit, rfl⟩

/-- When a loop `for (j = 0; j < n; j++) start[j] = ...` runs through, the `n`
slots lie inside the block. -/
lemma foldlM_store_ptr_bound (n : Nat) (step : Block α → Nat → Option (Block α))
    (start : Nat) (val : Nat → Nat) (b0 b : Block α)
    (hstep : ∀ m j, j < n → step m j = m.store_ptr (start + sizeof_ptr * j) (val j))
    (hrun : (List.range n).foldlM step b0 = some b) :
    b.bytes = b0.bytes ∧ (1 ≤ n → start + sizeof_ptr * n ≤ b0.bytes) := by
  induction n generalizing b with
  | zero =>
    simp only [List.range_zero, List.foldlM_nil, Option.pure_def, Option.some.injEq] at hrun
    subst hrun
    exact ⟨rfl, fun h => absurd h (by omega)⟩
  | succ n ih =>
    rw [List.range_succ, List.foldlM_append] at hrun
    cases h1 : (List.range n).foldlM step b0 with
    | none => rw [h1] at hrun; simp at hrun
    | some b1 =>
      rw [h1] at hrun
      simp only [Option.bind_eq_bind, Option.some_bind, List.foldlM_cons, List.foldlM_nil,
        Option.pure_def, Option.bind_some] at hrun
      rw [hstep b1 n (Nat.lt_succ_self n)] at hrun
      obtain ⟨hb1, -⟩ := ih b1 (fun m j hj => hstep m j (Nat.lt_succ_of_lt hj)) h1
      obtain ⟨hfit, hbytes⟩ := store_ptr_bytes b1 b _ _ hrun
      refine ⟨by rw [hbytes, hb1], fun _ => ?_⟩
      rw [hb1] at hfit
      have : sizeof_ptr * (n + 1) = sizeof_ptr * n + sizeof_ptr := by ring
      omega

/-- If `dimalloc(size, 2, R, C)` returns a block although the data alone would
fit (`R * C * size < 2^64`), the byte count did not wrap. -/
lemma dimalloc_2d_fit_of_ptr (size R C : Nat) (hsize : 1 ≤ size) (hR : 1 ≤ R) (hC : 1 ≤ C)
    (hdata : R * C * size < 2 ^ 64) (b : Block α)
    (h : (dimalloc size 2 [R, C] : Ret (Block α)) = Ret.ptr b) :
    sizeof_ptr * R + R * C * size < 2 ^ 64 := by
  have hRC : R * C ≤ R * C * size := Nat.le_mul_of_pos_right _ hsize
  have hRle : R ≤ R * C := Nat.le_mul_of_pos_right _ hC
  have h1 : size_mul 1 R = R := by rw [size_mul_of_lt (by omega)]; omega
  have h1' : size_mul R 1 = R := by rw [size_mul_of_lt (by omega)]; omega
  have h3 : size_mul R C = R * C := size_mul_of_lt (by omega)
  have h4 : size_mul (R * C) size = R * C * size := size_mul_of_lt (by omega)
  have hbytes : dimalloc_bytes size 2 [R, C] =
      some (size_add (size_add 0 (size_mul R sizeof_ptr)) (R * C * size)) := by
    simp only [dimalloc_bytes, size_sub_two_one, List.range_succ, List.range_zero,
      List.nil_append, List.foldlM_cons, List.foldlM_nil, List.getElem?_cons_zero,
      List.getElem?_cons_succ, Option.bind_eq_bind, Option.some_bind, Option.pure_def,
      bind_pure_comp, h1, h3, h4]
  simp only [dimalloc, List.length_cons, List.length_nil, List.take, Nat.le_zero_eq,
    OfNat.ofNat_ne_zero, if_false, Nat.lt_irrefl, hbytes, size_sub_two_two, List.range_zero,
    List.foldlM_nil, Option.bind_eq_bind, Option.some_bind, Option.pure_def] at h
  cases hrun : dimalloc_data size 2 [R, C]
      ({ stride := 1, base := 0,
         mem := malloc (size_add (size_add 0 (size_mul R sizeof_ptr)) (R * C * size)) } :
        PtrState α) with
  | none => rw [hrun] at h; simp at h
  | some mem =>
    simp only [dimalloc_data, size_sub_two_two, List.getElem?_cons_zero, Option.bind_eq_bind,
      Option.some_bind, Option.pure_def, h1, h1', Nat.zero_add, gt_iff_lt, Nat.one_lt_ofNat,
      if_true] at hrun
    obtain ⟨-, hbound⟩ := foldlM_store_ptr_bound (α := α) R _ 0
      (fun j => sizeof_ptr * R + size_mul (size_mul j C) size) _ mem
      (by
        intro m j _
        simp only [dimalloc_data_slot, size_sub_two_one, List.getElem?_cons_succ,
          List.getElem?_cons_zero, Option.bind_eq_bind, Option.some_bind])
      hrun
    have hb := hbound hR
    simp only [malloc, size_add, size_mul, sizeof_ptr, Nat.zero_add] at hb ⊢
    omega

end DimallocFit

/-! ### The two-dimensional conversions -/

section Convert2d

variable {α : Type}

lemma cell_index_lt {rows cols row col : Nat} (hr : row < rows) (hc : col < cols) :
    row * cols + col < rows * cols := by
  have : (row + 1) * cols ≤ rows * cols := Nat.mul_le_mul_right _ hr
  nlinarith

lemma cell_index_no_wrap {rows cols row col : Nat} (hr : row < rows) (hc : col < cols)
    (h : rows * cols < 2 ^ 64) : size_add (size_mul row cols) col = row * cols + col := by
  have hlt := cell_index_lt hr hc
  have h1 : size_mul row cols = row * cols := size_mul_of_lt (by omega)
  rw [h1, size_add_of_lt (by omega)]

lemma cells2_addr_pairwise (rows cols : Nat) (base size : Nat) (hsize : 1 ≤ size) :
    (cells2 rows cols).Pairwise
      (fun p q => base + (p.1 * cols + p.2) * size ≠ base + (q.1 * cols + q.2) * size) := by
  refine (cells2_pairwise rows cols).imp ?_
  intro p q hlt heq
  have h1 : (p.1 * cols + p.2) * size = (q.1 * cols + q.2) * size := by omega
  have h2 := Nat.eq_of_mul_eq_mul_right (by omega : 0 < size) h1
  omega

/-- The call `convert_1d_to_2d` on a buffer of `rows * cols` scalars, when the nested
array fits: the result is the `dimalloc` block with the scalars copied in
row-major order. -/
lemma convert_1d_to_2d_spec (width : Kind → Nat) (data_in : Block α) (type : Kind)
    (rows cols : Nat) (hw : 1 ≤ width type)
    (hfit : sizeof_ptr * rows + rows * cols * width type < 2 ^ 64)
    (hbuf : width type * (rows * cols) ≤ data_in.bytes) :
    ∃ out, convert_1d_to_2d width data_in type rows cols = some out ∧
      out.bytes = sizeof_ptr * rows + rows * cols * width type ∧
      (∀ i, i < rows → out.ptrs (sizeof_ptr * i) =
        some (sizeof_ptr * rows + i * cols * width type)) ∧
      (∀ row col, row < rows → col < cols →
        out.elems (sizeof_ptr * rows + (row * cols + col) * width type) =
          data_in.elems (width type * (row * cols + col))) := by
  obtain ⟨d0, hd0, hbytes0, -, hptrs0⟩ := dimalloc_2d (α := α) (width type) rows cols hfit
  have hRC : rows * cols ≤ rows * cols * width type := Nat.le_mul_of_pos_right _ hw
  have hRC64 : rows * cols < 2 ^ 64 := by omega
  obtain ⟨out, hout, hbytes, hptrs, hval, -⟩ :=
    foldlM_store_spec (cells2 rows cols)
      (fun d p => convert_1d_to_2d_cell width data_in type cols d p.1 p.2)
      (fun p => sizeof_ptr * rows + (p.1 * cols + p.2) * width type)
      (fun p => data_in.elems (width type * (p.1 * cols + p.2))) (width type) d0
      (by
        intro d p hp hdb hdp
        obtain ⟨hr, hc⟩ := (mem_cells2 rows cols p).mp hp
        have hlt := cell_index_lt hr hc
        have hload : data_in.load (width type * (p.1 * cols + p.2)) (width type) =
            some (data_in.elems (width type * (p.1 * cols + p.2))) := by
          have : width type * (p.1 * cols + p.2) + width type ≤ data_in.bytes := by
            have : width type * (p.1 * cols + p.2 + 1) ≤ width type * (rows * cols) :=
              Nat.mul_le_mul_left _ hlt
            have e : width type * (p.1 * cols + p.2 + 1) =
              width type * (p.1 * cols + p.2) + width type := by ring
            omega
          rw [Block.load, if_pos this]
        have hslot : d.load_ptr (sizeof_ptr * p.1) =
            some (sizeof_ptr * rows + p.1 * cols * width type) := by
          have : sizeof_ptr * p.1 + sizeof_ptr ≤ d.bytes := by
            rw [hdb, hbytes0]
            simp only [sizeof_ptr]
            omega
          rw [Block.load_ptr, if_pos this, hdp, hptrs0 p.1 hr]
        have haddr : sizeof_ptr * rows + p.1 * cols * width type + width type * p.2 =
            sizeof_ptr * rows + (p.1 * cols + p.2) * width type := by ring
        simp only [convert_1d_to_2d_cell, cell_index_no_wrap hr hc hRC64, hload,
          Block.index2, hslot, Option.bind_eq_bind, Option.some_bind, Option.pure_def, haddr])
      (by
        intro p hp
        obtain ⟨hr, hc⟩ := (mem_cells2 rows cols p).mp hp
        have hlt := cell_index_lt hr hc
        have : (p.1 * cols + p.2 + 1) * width type ≤ rows * cols * width type :=
          Nat.mul_le_mul_right _ hlt
        have e : (p.1 * cols + p.2 + 1) * width type =
          (p.1 * cols + p.2) * width type + width type := by ring
        show sizeof_ptr * rows + (p.1 * cols + p.2) * width type + width type ≤ d0.bytes
        rw [hbytes0]
        omega)
      (cells2_addr_pairwise rows cols _ _ hw)
  refine ⟨out, ?_, by rw [hbytes, hbytes0], ?_, ?_⟩
  · simp only [convert_1d_to_2d, hd0]
    have := foldlM_rows_cols
      (fun d p => convert_1d_to_2d_cell width data_in type cols d p.1 p.2)
      (List.range rows) cols d0
    simp only at this
    rw [this]
    exact hout
  · intro i hi
    rw [hptrs]
    exact hptrs0 i hi
  · intro row col hr hc
    exact hval (row, col) ((mem_cells2 rows cols (row, col)).mpr ⟨hr, hc⟩)

/-- The call `convert_2d_to_1d` on a nested array whose `rows * cols` scalars can all be
read: the result is a buffer of `rows * cols` scalars holding `a[row][col]` at
index `row * cols + col`. -/
lemma convert_2d_to_1d_spec (width : Kind → Nat) (a : Block α) (type : Kind)
    (rows cols : Nat) (hw : 1 ≤ width type)
    (hsize : width type * (rows * cols) < 2 ^ 64)
    (hread : ∀ row col, row < rows → col < cols → ∃ c, a.at2 (width type) row col = some c) :
    ∃ flat, convert_2d_to_1d width a type rows cols = some flat ∧
      flat.bytes = width type * (rows * cols) ∧
      ∀ row col, row < rows → col < cols →
        flat.at1 (width type) (row * cols + col) = a.at2 (width type) row col := by
  have hRC : rows * cols ≤ width type * (rows * cols) := Nat.le_mul_of_pos_left _ hw
  have hRC64 : rows * cols < 2 ^ 64 := by omega
  have hmalloc : size_mul (size_mul (width type) rows) cols = width type * (rows * cols) := by
    rw [size_mul_mul, Nat.mul_assoc, Nat.mod_eq_of_lt hsize]
  obtain ⟨flat, hflat, hbytes, -, hval, -⟩ :=
    foldlM_store_spec (cells2 rows cols)
      (fun d p => convert_2d_to_1d_cell width a type cols d p.1 p.2)
      (fun p => width type * (p.1 * cols + p.2))
      (fun p => (a.at2 (width type) p.1 p.2).getD none) (width type)
      (malloc (width type * (rows * cols)))
      (by
        intro d p hp _ _
        obtain ⟨hr, hc⟩ := (mem_cells2 rows cols p).mp hp
        obtain ⟨c, hc2⟩ := hread p.1 p.2 hr hc
        show convert_2d_to_1d_cell width a type cols d p.1 p.2 =
          d.store (width type * (p.1 * cols + p.2)) (width type)
            ((a.at2 (width type) p.1 p.2).getD none)
        rw [hc2]
        simp only [Block.at2, Option.bind_eq_bind] at hc2
        cases hidx : a.index2 (width type) p.1 p.2 with
        | none => rw [hidx] at hc2; simp at hc2
        | some addr =>
          rw [hidx] at hc2
          simp only [Option.some_bind] at hc2
          simp only [convert_2d_to_1d_cell, cell_index_no_wrap hr hc hRC64, hidx, hc2,
            Option.bind_eq_bind, Option.some_bind, Option.getD_some])
      (by
        intro p hp
        obtain ⟨hr, hc⟩ := (mem_cells2 rows cols p).mp hp
        have hlt := cell_index_lt hr hc
        have : width type * (p.1 * cols + p.2 + 1) ≤ width type * (rows * cols) :=
          Nat.mul_le_mul_left _ hlt
        have e : width type * (p.1 * cols + p.2 + 1) =
          width type * (p.1 * cols + p.2) + width type := by ring
        show width type * (p.1 * cols + p.2) + width type ≤ width type * (rows * cols)
        omega)
      (by
        refine (cells2_addr_pairwise rows cols 0 (width type) hw).imp ?_
        intro p q hne heq
        apply hne
        have heq' : width type * (p.1 * cols + p.2) = width type * (q.1 * cols + q.2) := heq
        rw [Nat.mul_comm (p.1 * cols + p.2), Nat.mul_comm (q.1 * cols + q.2), heq'])
  refine ⟨flat, ?_, hbytes, ?_⟩
  · simp only [convert_2d_to_1d, hmalloc]
    have := foldlM_rows_cols
      (fun d p => convert_2d_to_1d_cell width a type cols d p.1 p.2)
      (List.range rows) cols (malloc (width type * (rows * cols)))
    simp only at this
    rw [this]
    exact hflat
  · intro row col hr hc
    have hlt := cell_index_lt hr hc
    have hin : width type * (row * cols + col) + width type ≤ flat.bytes := by
      have hbytes' : flat.bytes = width type * (rows * cols) := hbytes
      have : width type * (row * cols + col + 1) ≤ width type * (rows * cols) :=
        Nat.mul_le_mul_left _ hlt
      have e : width type * (row * cols + col + 1) =
        width type * (row * cols + col) + width type := by ring
      omega
    obtain ⟨c, hc2⟩ := hread row col hr hc
    have hv := hval (row, col) ((mem_cells2 rows cols (row, col)).mpr ⟨hr, hc⟩)
    simp only [hc2, Option.getD_some] at hv
    rw [Block.at1, Block.load, if_pos hin, hv, hc2]

end Convert2d

section Convert2dCorollaries

variable {α : Type}

/-- In the situation of `convert_1d_to_2d_spec`, every `out[row][col]` can be
read and is the scalar at index `row * cols + col` of the buffer. -/
lemma convert_1d_to_2d_at2 (width : Kind → Nat) (data_in : Block α) (type : Kind)
    (rows cols : Nat) (hw : 1 ≤ width type)
    (hfit : sizeof_ptr * rows + rows * cols * width type < 2 ^ 64)
    (hbuf : width type * (rows * cols) ≤ data_in.bytes) :
    ∃ out, convert_1d_to_2d width data_in type rows cols = some out ∧
      out.bytes = sizeof_ptr * rows + rows * cols * width type ∧
      ∀ row col, row < rows → col < cols →
        out.at2 (width type) row col = data_in.at1 (width type) (row * cols + col) ∧
        out.at2 (width type) row col =
          some (data_in.elems (width type * (row * cols + col))) := by
  obtain ⟨out, hout, hbytes, hptrs, hval⟩ :=
    convert_1d_to_2d_spec width data_in type rows cols hw hfit hbuf
  refine ⟨out, hout, hbytes, ?_⟩
  intro row col hr hc
  have hlt := cell_index_lt hr hc
  have hmul : (row * cols + col + 1) * width type ≤ rows * cols * width type :=
    Nat.mul_le_mul_right _ hlt
  have e : (row * cols + col + 1) * width type =
      (row * cols + col) * width type + width type := by ring
  have hslot : out.load_ptr (sizeof_ptr * row) =
      some (sizeof_ptr * rows + row * cols * width type) := by
    have : sizeof_ptr * row + sizeof_ptr ≤ out.bytes := by
      rw [hbytes]; simp only [sizeof_ptr]; omega
    rw [Block.load_ptr, if_pos this, hptrs row hr]
  have haddr : sizeof_ptr * rows + row * cols * width type + width type * col =
      sizeof_ptr * rows + (row * cols + col) * width type := by ring
  have hin : sizeof_ptr * rows + (row * cols + col) * width type + width type ≤ out.bytes := by
    rw [hbytes]; omega
  have hin1 : width type * (row * cols + col) + width type ≤ data_in.bytes := by
    have : width type * (row * cols + col + 1) ≤ width type * (rows * cols) :=
      Nat.mul_le_mul_left _ hlt
    have e' : width type * (row * cols + col + 1) =
      width type * (row * cols + col) + width type := by ring
    omega
  have h2 : out.at2 (width type) row col =
      some (data_in.elems (width type * (row * cols + col))) := by
    simp only [Block.at2, Block.index2, hslot, Option.bind_eq_bind, Option.some_bind,
      Option.pure_def, haddr, Block.load, if_pos hin, hval row col hr hc]
  refine ⟨?_, h2⟩
  rw [h2, Block.at1, Block.load, if_pos hin1]

/-- When `convert_1d_to_2d` returns an array for a buffer that holds
`rows * cols` scalars in a 64-bit address space, the nested array fits. -/
lemma convert_1d_to_2d_fit (width : Kind → Nat) (data_in : Block α) (type : Kind)
    (rows cols : Nat) (hw : 1 ≤ width type) (hrows : 1 ≤ rows) (hcols : 1 ≤ cols)
    (hbuf : width type * (rows * cols) ≤ data_in.bytes) (haddr : data_in.bytes < 2 ^ 64)
    (out : Block α) (h : convert_1d_to_2d width data_in type rows cols = some out) :
    sizeof_ptr * rows + rows * cols * width type < 2 ^ 64 := by
  have hdata : rows * cols * width type < 2 ^ 64 := by
    rw [Nat.mul_comm (rows * cols)]; omega
  unfold convert_1d_to_2d at h
  cases hd : (dimalloc (width type) 2 [rows, cols] : Ret (Block α)) with
  | ptr d0 => exact dimalloc_2d_fit_of_ptr (width type) rows cols hw hrows hcols hdata d0 hd
  | null => rw [hd] at h; simp at h
  | undef => rw [hd] at h; simp at h

lemma div_mod_cell (cols n : Nat) (rows : Nat) (hn : n < rows * cols) :
    n / cols < rows ∧ n % cols < cols ∧ n / cols * cols + n % cols = n := by
  have hc : 0 < cols := by
    rcases Nat.eq_zero_or_pos cols with h | h
    · subst h; simp at hn
    · exact h
  refine ⟨?_, Nat.mod_lt _ hc, ?_⟩
  · rw [Nat.div_lt_iff_lt_mul hc]; exact hn
  · rw [Nat.mul_comm]; exact Nat.div_add_mod n cols

end Convert2dCorollaries

/-! ### Element addresses in a `dimalloc` block -/

section ElementAddresses

variable {α : Type}

lemma key2_inj {C i j i' j' : Nat} (hj : j < C) (hj' : j' < C)
    (h : i * C + j = i' * C + j') : i = i' ∧ j = j' := by
  have hC : 0 < C := by omega
  have h1 : (i * C + j) / C = i := by
    rw [Nat.add_comm, Nat.add_mul_div_right _ _ hC, Nat.div_eq_of_lt hj, Nat.zero_add]
  have h2 : (i' * C + j') / C = i' := by
    rw [Nat.add_comm, Nat.add_mul_div_right _ _ hC, Nat.div_eq_of_lt hj', Nat.zero_add]
  have hi : i = i' := by rw [← h1, ← h2, h]
  subst hi
  exact ⟨rfl, by omega⟩

lemma key3_inj {R C i j k i' j' k' : Nat} (hj : j < R) (hj' : j' < R) (hk : k < C)
    (hk' : k' < C) (h : (i * R + j) * C + k = (i' * R + j') * C + k') :
    i = i' ∧ j = j' ∧ k = k' := by
  obtain ⟨h1, h2⟩ := key2_inj hk hk' h
  obtain ⟨h3, h4⟩ := key2_inj hj hj' h1
  exact ⟨h3, h4, h2⟩

lemma key3_lt {L R C i j k : Nat} (hi : i < L) (hj : j < R) (hk : k < C) :
    (i * R + j) * C + k < L * R * C :=
  cell_index_lt (cell_index_lt hi hj) hk

/-- Scalars at distinct positions `n`, `m` of the data occupy disjoint byte
ranges. -/
lemma ranges_disjoint (base size n m : Nat) (h : n ≠ m) :
    base + n * size + size ≤ base + m * size ∨ base + m * size + size ≤ base + n * size := by
  rcases Nat.lt_or_gt_of_ne h with hlt | hlt
  · left
    have : (n + 1) * size ≤ m * size := Nat.mul_le_mul_right _ hlt
    have e : (n + 1) * size = n * size + size := by ring
    omega
  · right
    have : (m + 1) * size ≤ n * size := Nat.mul_le_mul_right _ hlt
    have e : (m + 1) * size = m * size + size := by ring
    omega

/-- The address of `a[i][j]` in any block that has the length and the pointer slots of the
block `dimalloc(size, 2, R, C)`. -/
lemma index2_of_layout (m : Block α) (size R C : Nat)
    (hbytes : m.bytes = sizeof_ptr * R + R * C * size)
    (hptrs : ∀ i, i < R → m.ptrs (sizeof_ptr * i) = some (sizeof_ptr * R + i * C * size))
    (i j : Nat) (hi : i < R) :
    m.index2 size i j = some (sizeof_ptr * R + (i * C + j) * size) := by
  have hslot : m.load_ptr (sizeof_ptr * i) = some (sizeof_ptr * R + i * C * size) := by
    have : sizeof_ptr * i + sizeof_ptr ≤ m.bytes := by
      rw [hbytes]; simp only [sizeof_ptr]; omega
    rw [Block.load_ptr, if_pos this, hptrs i hi]
  have haddr : sizeof_ptr * R + i * C * size + size * j =
      sizeof_ptr * R + (i * C + j) * size := by ring
  simp only [Block.index2, hslot, Option.bind_eq_bind, Option.some_bind, Option.pure_def, haddr]

/-- The address of `a[i][j][k]` in any block that has the length and the pointer slots of the
block `dimalloc(size, 3, L, R, C)`. -/
lemma index3_of_layout (m : Block α) (size L R C : Nat)
    (hbytes : m.bytes = sizeof_ptr * L + sizeof_ptr * (L * R) + L * R * C * size)
    (hptrs1 : ∀ i, i < L →
      m.ptrs (sizeof_ptr * i) = some (sizeof_ptr * L + sizeof_ptr * (i * R)))
    (hptrs2 : ∀ n, n < L * R → m.ptrs (sizeof_ptr * L + sizeof_ptr * n) =
      some (sizeof_ptr * L + sizeof_ptr * (L * R) + n * C * size))
    (i j k : Nat) (hi : i < L) (hj : j < R) :
    m.index3 size i j k =
      some (sizeof_ptr * L + sizeof_ptr * (L * R) + ((i * R + j) * C + k) * size) := by
  have hn : i * R + j < L * R := cell_index_lt hi hj
  have hslot1 : m.load_ptr (sizeof_ptr * i) = some (sizeof_ptr * L + sizeof_ptr * (i * R)) := by
    have : sizeof_ptr * i + sizeof_ptr ≤ m.bytes := by
      rw [hbytes]; simp only [sizeof_ptr]; omega
    rw [Block.load_ptr, if_pos this, hptrs1 i hi]
  have e1 : sizeof_ptr * L + sizeof_ptr * (i * R) + sizeof_ptr * j =
      sizeof_ptr * L + sizeof_ptr * (i * R + j) := by ring
  have hslot2 : m.load_ptr (sizeof_ptr * L + sizeof_ptr * (i * R + j)) =
      some (sizeof_ptr * L + sizeof_ptr * (L * R) + (i * R + j) * C * size) := by
    have : sizeof_ptr * L + sizeof_ptr * (i * R + j) + sizeof_ptr ≤ m.bytes := by
      rw [hbytes]; simp only [sizeof_ptr]; omega
    rw [Block.load_ptr, if_pos this, hptrs2 _ hn]
  have haddr : sizeof_ptr * L + sizeof_ptr * (L * R) + (i * R + j) * C * size + size * k =
      sizeof_ptr * L + sizeof_ptr * (L * R) + ((i * R + j) * C + k) * size := by ring
  simp only [Block.index3, hslot1, e1, hslot2, Option.bind_eq_bind, Option.some_bind,
    Option.pure_def, haddr]

/-- Assignments through an array whose index expression resolves to `addr`:
after `a[x] = v` and any further assignments at positions with other
addresses, `a[x]` still holds `v`, and the length and pointer slots are
unchanged. -/
lemma writes_keep_value {ι : Type} (b0 : Block α) (size : Nat)
    (idx : Block α → ι → Option Nat) (addr : ι → Nat) (valid : ι → Prop)
    (hidx : ∀ m x, valid x → m.bytes = b0.bytes → m.ptrs = b0.ptrs → idx m x = some (addr x))
    (hin : ∀ x, valid x → addr x + size ≤ b0.bytes)
    (x : ι) (v : α) (hx : valid x) (ws : List (ι × α))
    (hws : ∀ w ∈ ws, valid w.1 ∧ addr w.1 ≠ addr x) :
    ∃ b1 b, (idx b0 x).bind (fun a => b0.store a size (some v)) = some b1 ∧
      ws.foldlM (fun m w => (idx m w.1).bind (fun a => m.store a size (some w.2))) b1 = some b ∧
      b.bytes = b0.bytes ∧ b.ptrs = b0.ptrs ∧ b.elems (addr x) = some v := by
  have hstore : ∀ (m : Block α) (y : ι) (u : α), valid y → m.bytes = b0.bytes →
      m.ptrs = b0.ptrs →
      (idx m y).bind (fun a => m.store a size (some u)) =
        some { m with elems := fun o => if o = addr y then some u else m.elems o } := by
    intro m y u hy hmb hmp
    have : addr y + size ≤ m.bytes := by rw [hmb]; exact hin y hy
    simp only [hidx m y hy hmb hmp, Option.some_bind, Block.store, if_pos this]
  have hfold : ∀ (ws : List (ι × α)) (b1 : Block α),
      (∀ w ∈ ws, valid w.1 ∧ addr w.1 ≠ addr x) →
      b1.bytes = b0.bytes ∧ b1.ptrs = b0.ptrs ∧ b1.elems (addr x) = some v →
      ∃ b, ws.foldlM (fun m w => (idx m w.1).bind (fun a => m.store a size (some w.2))) b1
          = some b ∧
        b.bytes = b0.bytes ∧ b.ptrs = b0.ptrs ∧ b.elems (addr x) = some v := by
    intro ws
    induction ws with
    | nil => intro b1 _ h1; exact ⟨b1, rfl, h1⟩
    | cons w ws ih =>
      intro b1 hws h1
      obtain ⟨hwv, hwa⟩ := hws w (List.mem_cons_self _ _)
      rw [List.foldlM_cons, hstore b1 w.1 w.2 hwv h1.1 h1.2.1]
      simp only [Option.bind_eq_bind, Option.some_bind]
      apply ih _ (fun u hu => hws u (List.mem_cons_of_mem _ hu))
      refine ⟨h1.1, h1.2.1, ?_⟩
      simp only [if_neg (Ne.symm hwa), h1.2.2]
  obtain ⟨b, hb, hprops⟩ := hfold ws
    { b0 with elems := fun o => if o = addr x then some v else b0.elems o } hws
    ⟨rfl, rfl, by simp⟩
  exact ⟨_, b, hstore b0 x v hx rfl rfl, hb, hprops⟩

end ElementAddresses

section LayoutProperties

variable {α : Type}

/-- The scalars of a block laid out like `dimalloc(size, 2, R, C)`: each lies
behind the pointer slots and inside the block, two of them at different
indices are disjoint, and an assignment `a[i][j] = v` survives assignments at
other indices. -/
lemma layout2_props (b : Block α) (size R C : Nat) (hsize : 1 ≤ size)
    (hbytes : b.bytes = sizeof_ptr * R + R * C * size)
    (hptrs : ∀ i, i < R → b.ptrs (sizeof_ptr * i) = some (sizeof_ptr * R + i * C * size)) :
    (∀ i j, i < R → j < C →
      ∃ a, b.index2 size i j = some a ∧ sizeof_ptr * R ≤ a ∧ a + size ≤ b.bytes) ∧
    (∀ i j i' j', i < R → j < C → i' < R → j' < C → (i, j) ≠ (i', j') →
      ∃ a a', b.index2 size i j = some a ∧ b.index2 size i' j' = some a' ∧
        (a + size ≤ a' ∨ a' + size ≤ a)) ∧
    (∀ i j (v : α) (ws : List ((Nat × Nat) × α)), i < R → j < C →
      (∀ w ∈ ws, w.1.1 < R ∧ w.1.2 < C ∧ w.1 ≠ (i, j)) →
      ∃ b1 b2, b.set2 size i j v = some b1 ∧
        ws.foldlM (fun m w => m.set2 size w.1.1 w.1.2 w.2) b1 = some b2 ∧
        b2.at2 size i j = some (some v)) := by
  have hin : ∀ i j, i < R → j < C →
      sizeof_ptr * R + (i * C + j) * size + size ≤ b.bytes := by
    intro i j hi hj
    have hlt := cell_index_lt hi hj
    have : (i * C + j + 1) * size ≤ R * C * size := Nat.mul_le_mul_right _ hlt
    have e : (i * C + j + 1) * size = (i * C + j) * size + size := by ring
    rw [hbytes]
    omega
  refine ⟨?_, ?_, ?_⟩
  · intro i j hi hj
    exact ⟨_, index2_of_layout b size R C hbytes hptrs i j hi, Nat.le_add_right _ _,
      hin i j hi hj⟩
  · intro i j i' j' hi hj hi' hj' hne
    refine ⟨_, _, index2_of_layout b size R C hbytes hptrs i j hi,
      index2_of_layout b size R C hbytes hptrs i' j' hi', ?_⟩
    apply ranges_disjoint
    intro h
    obtain ⟨h1, h2⟩ := key2_inj hj hj' h
    exact hne (by rw [h1, h2])
  · intro i j v ws hi hj hws
    obtain ⟨b1, b2, h1, h2, hb2, hp2, he2⟩ :=
      writes_keep_value b size (fun m x => m.index2 size x.1 x.2)
        (fun x => sizeof_ptr * R + (x.1 * C + x.2) * size) (fun x => x.1 < R ∧ x.2 < C)
        (fun m x hx hmb hmp =>
          index2_of_layout m size R C (by rw [hmb, hbytes])
            (fun i hi => by rw [hmp]; exact hptrs i hi) x.1 x.2 hx.1)
        (fun x hx => hin x.1 x.2 hx.1 hx.2)
        (i, j) v ⟨hi, hj⟩ ws
        (by
          intro w hw
          obtain ⟨hw1, hw2, hw3⟩ := hws w hw
          refine ⟨⟨hw1, hw2⟩, ?_⟩
          intro h
          have h' : w.1.1 * C + w.1.2 = i * C + j := by
            have := Nat.add_left_cancel h
            exact Nat.eq_of_mul_eq_mul_right (by omega : 0 < size) this
          obtain ⟨e1, e2⟩ := key2_inj hw2 hj h'
          exact hw3 (Prod.ext e1 e2))
    refine ⟨b1, b2, h1, h2, ?_⟩
    have hidx := index2_of_layout b2 size R C (by rw [hb2, hbytes])
      (fun i hi => by rw [hp2]; exact hptrs i hi) i j hi
    have hfit : sizeof_ptr * R + (i * C + j) * size + size ≤ b2.bytes := by
      rw [hb2]; exact hin i j hi hj
    simp only [Block.at2, hidx, Option.bind_eq_bind, Option.some_bind, Block.load,
      if_pos hfit]
    exact congrArg some he2

/-- The scalars of a block laid out like `dimalloc(size, 3, L, R, C)`: the
three-dimensional counterpart of `layout2_props`. -/
lemma layout3_props (b : Block α) (size L R C : Nat) (hsize : 1 ≤ size)
    (hbytes : b.bytes = sizeof_ptr * L + sizeof_ptr * (L * R) + L * R * C * size)
    (hptrs1 : ∀ i, i < L →
      b.ptrs (sizeof_ptr * i) = some (sizeof_ptr * L + sizeof_ptr * (i * R)))
    (hptrs2 : ∀ n, n < L * R → b.ptrs (sizeof_ptr * L + sizeof_ptr * n) =
      some (sizeof_ptr * L + sizeof_ptr * (L * R) + n * C * size)) :
    (∀ i j k, i < L → j < R → k < C →
      ∃ a, b.index3 size i j k = some a ∧
        sizeof_ptr * L + sizeof_ptr * (L * R) ≤ a ∧ a + size ≤ b.bytes) ∧
    (∀ i j k i' j' k', i < L → j < R → k < C → i' < L → j' < R → k' < C →
      (i, j, k) ≠ (i', j', k') →
      ∃ a a', b.index3 size i j k = some a ∧ b.index3 size i' j' k' = some a' ∧
        (a + size ≤ a' ∨ a' + size ≤ a)) ∧
    (∀ i j k (v : α) (ws : List ((Nat × Nat × Nat) × α)), i < L → j < R → k < C →
      (∀ w ∈ ws, w.1.1 < L ∧ w.1.2.1 < R ∧ w.1.2.2 < C ∧ w.1 ≠ (i, j, k)) →
      ∃ b1 b2, b.set3 size i j k v = some b1 ∧
        ws.foldlM (fun m w => m.set3 size w.1.1 w.1.2.1 w.1.2.2 w.2) b1 = some b2 ∧
        b2.at3 size i j k = some (some v)) := by
  have hin : ∀ i j k, i < L → j < R → k < C →
      sizeof_ptr * L + sizeof_ptr * (L * R) + ((i * R + j) * C + k) * size + size
        ≤ b.bytes := by
    intro i j k hi hj hk
    have hlt := key3_lt hi hj hk
    have : ((i * R + j) * C + k + 1) * size ≤ L * R * C * size := Nat.mul_le_mul_right _ hlt
    have e : ((i * R + j) * C + k + 1) * size = ((i * R + j) * C + k) * size + size := by ring
    rw [hbytes]
    omega
  refine ⟨?_, ?_, ?_⟩
  · intro i j k hi hj hk
    exact ⟨_, index3_of_layout b size L R C hbytes hptrs1 hptrs2 i j k hi hj,
      Nat.le_add_right _ _, hin i j k hi hj hk⟩
  · intro i j k i' j' k' hi hj hk hi' hj' hk' hne
    refine ⟨_, _, index3_of_layout b size L R C hbytes hptrs1 hptrs2 i j k hi hj,
      index3_of_layout b size L R C hbytes hptrs1 hptrs2 i' j' k' hi' hj', ?_⟩
    apply ranges_disjoint
    intro h
    obtain ⟨h1, h2, h3⟩ := key3_inj hj hj' hk hk' h
    exact hne (by rw [h1, h2, h3])
  · intro i j k v ws hi hj hk hws
    obtain ⟨b1, b2, h1, h2, hb2, hp2, he2⟩ :=
      writes_keep_value b size (fun m x => m.index3 size x.1 x.2.1 x.2.2)
        (fun x => sizeof_ptr * L + sizeof_ptr * (L * R) + ((x.1 * R + x.2.1) * C + x.2.2) * size)
        (fun x => x.1 < L ∧ x.2.1 < R ∧ x.2.2 < C)
        (fun m x hx hmb hmp =>
          index3_of_layout m size L R C (by rw [hmb, hbytes])
            (fun i hi => by rw [hmp]; exact hptrs1 i hi)
            (fun n hn => by rw [hmp]; exact hptrs2 n hn) x.1 x.2.1 x.2.2 hx.1 hx.2.1)
        (fun x hx => hin x.1 x.2.1 x.2.2 hx.1 hx.2.1 hx.2.2)
        (i, j, k) v ⟨hi, hj, hk⟩ ws
        (by
          intro w hw
          obtain ⟨hw1, hw2, hw3, hw4⟩ := hws w hw
          refine ⟨⟨hw1, hw2, hw3⟩, ?_⟩
          intro h
          have h' : (w.1.1 * R + w.1.2.1) * C + w.1.2.2 = (i * R + j) * C + k := by
            have := Nat.add_left_cancel h
            exact Nat.eq_of_mul_eq_mul_right (by omega : 0 < size) this
          obtain ⟨e1, e2, e3⟩ := key3_inj hw2 hj hw3 hk h'
          exact hw4 (Prod.ext e1 (Prod.ext e2 e3)))
    refine ⟨b1, b2, h1, h2, ?_⟩
    have hidx := index3_of_layout b2 size L R C (by rw [hb2, hbytes])
      (fun i hi => by rw [hp2]; exact hptrs1 i hi)
      (fun n hn => by rw [hp2]; exact hptrs2 n hn) i j k hi hj
    have hfit : sizeof_ptr * L + sizeof_ptr * (L * R) + ((i * R + j) * C + k) * size + size
        ≤ b2.bytes := by
      rw [hb2]; exact hin i j k hi hj hk
    simp only [Block.at3, hidx, Option.bind_eq_bind, Option.some_bind, Block.load,
      if_pos hfit]
    exact congrArg some he2

end LayoutProperties

/-! ### The byte count of `dimalloc` and the element count, modulo `2^64` -/

lemma size_sub_one_one : size_sub 1 1 = 0 := by norm_num [size_sub]

lemma dimalloc_bytes_mod_1d (size e0 : Nat) :
    dimalloc_bytes size 1 [e0] = some ((e0 * size) % 2 ^ 64) := by
  simp [dimalloc_bytes, size_sub_one_one, size_add, size_mul, Nat.mul_mod, Nat.add_mod]

lemma dimalloc_bytes_mod_2d (size e0 e1 : Nat) :
    dimalloc_bytes size 2 [e0, e1] = some ((e0 * sizeof_ptr + e0 * e1 * size) % 2 ^ 64) := by
  simp [dimalloc_bytes, size_sub_two_one, size_add, size_mul, List.range_succ, Nat.mul_mod, Nat.add_mod]

lemma dimalloc_bytes_mod_3d (size e0 e1 e2 : Nat) :
    dimalloc_bytes size 3 [e0, e1, e2] =
      some ((e0 * sizeof_ptr + e0 * e1 * sizeof_ptr + e0 * e1 * e2 * size) % 2 ^ 64) := by
  simp [dimalloc_bytes, size_sub_three_one, size_add, size_mul, List.range_succ, Nat.mul_mod, Nat.add_mod]

lemma total_data_count_mod (d0 d1 d2 : Nat) :
    total_data_count [d0, d1, d2] =
      some (((if d0 ≠ 0 then d0 else 1) * (if d1 ≠ 0 then d1 else 1) *
        (if d2 ≠ 0 then d2 else 1)) % 2 ^ 64) := by
  by_cases h0 : d0 = 0 <;> by_cases h1 : d1 = 0 <;> by_cases h2 : d2 = 0 <;>
    simp [total_data_count, MAX_DIMS, List.range_succ, size_mul, h0, h1, h2, Nat.mul_mod]

/-! ### A one-dimensional call of `dimalloc` -/

/-- In a one-dimensional call the loop of lines 97-104 runs at least twice; the
first execution of its body reads `sizes[1]` when `sizes[0]` is not zero, and
the second reads `sizes[1]` in any case. -/
lemma dimalloc_level_1d_none {α : Type} (n k : Nat) (st : PtrState α) :
    (List.range (k + 2)).foldlM (dimalloc_level [n]) st = none := by
  rw [List.range_succ_eq_map, List.range_succ_eq_map]
  simp only [List.map_cons, List.foldlM_cons]
  cases h : dimalloc_level [n] st 0 with
  | none => rfl
  | some st1 =>
    have h1 : dimalloc_level [n] st1 (Nat.succ 0) = none := by
      simp [dimalloc_level]
    simp [h1]

lemma size_sub_one_two : ∃ k, size_sub 1 2 = k + 2 :=
  ⟨2 ^ 64 - 3, by norm_num [size_sub]⟩

lemma dimalloc_1d_undef {α : Type} (size n : Nat) (rest : List Nat) :
    (dimalloc size 1 (n :: rest) : Ret (Block α)) = Ret.undef := by
  obtain ⟨k, hk⟩ := size_sub_one_two
  have htake : List.take 1 (n :: rest) = [n] := rfl
  have h0 : ¬ (1 ≤ 0) := by norm_num
  have hlen : ¬ ((n :: rest).length < 1) := by simp
  unfold dimalloc
  rw [if_neg h0, if_neg hlen, htake, hk]
  simp only [Option.bind_eq_bind, dimalloc_level_1d_none, Option.none_bind]
  cases dimalloc_bytes size 1 [n] <;> rfl

/-! ### The loop and a single scan -/

section LoopScan

variable {α : Type} [LinearOrderedField α]
variable (gc : α → α → α → α → α) (data_lat data_lon : Int → Int → α)
variable (target_lat target_lon : α)

/-- After a full scan `closest` is a lower bound of the distances of all valid
cells. -/
lemma scan_grid_lower_bound (rows cols : Int) (s0 : ScanState α) :
    ∀ p ∈ grid_cells rows cols, cell_valid data_lat data_lon p →
      (scan_grid gc data_lat data_lon target_lat target_lon rows cols s0).closest ≤
        cell_dist gc data_lat data_lon target_lat target_lon p := by
  rw [scan_grid_eq_foldl]
  exact (foldl_visit_spec gc data_lat data_lon target_lat target_lon row_major_lt s0
    (grid_cells rows cols) (grid_cells_pairwise rows cols)).1

/-- A scan started from the result of a scan changes nothing. -/
lemma scan_grid_idempotent (rows cols : Int) (s0 : ScanState α) :
    scan_grid gc data_lat data_lon target_lat target_lon rows cols
      (scan_grid gc data_lat data_lon target_lat target_lon rows cols s0) =
    scan_grid gc data_lat data_lon target_lat target_lon rows cols s0 := by
  rw [scan_grid_eq_foldl gc data_lat data_lon target_lat target_lon rows cols
    (scan_grid gc data_lat data_lon target_lat target_lon rows cols s0)]
  exact foldl_visit_fixed gc data_lat data_lon target_lat target_lon _ _
    (scan_grid_lower_bound gc data_lat data_lon target_lat target_lon rows cols s0)

/-- With fuel for two executions of its body, the loop returns what one scan
from its initial state leaves in `tmp_row`, `tmp_col` and `closest`. -/
lemma search_loop_eq_scan (rows cols : Int) (closest : α) (closest_row closest_col : Int)
    (fuel : Nat) :
    search_loop gc data_lat data_lon target_lat target_lon rows cols (fuel + 2)
      closest closest_row closest_col =
    some ((scan_grid gc data_lat data_lon target_lat target_lon rows cols
            { closest := closest, tmp_row := closest_row, tmp_col := closest_col }).tmp_row,
          (scan_grid gc data_lat data_lon target_lat target_lon rows cols
            { closest := closest, tmp_row := closest_row, tmp_col := closest_col }).tmp_col,
          (scan_grid gc data_lat data_lon target_lat target_lon rows cols
            { closest := closest, tmp_row := closest_row, tmp_col := closest_col }).closest) := by
  rw [search_loop]
  set st := scan_grid gc data_lat data_lon target_lat target_lon rows cols
    { closest := closest, tmp_row := closest_row, tmp_col := closest_col } with hst
  by_cases h : closest_col = st.tmp_col ∧ closest_row = st.tmp_row
  · simp only [h, and_self, if_true]
  · simp only [h, if_false]
    rw [search_loop]
    have hid : scan_grid gc data_lat data_lon target_lat target_lon rows cols
        { closest := st.closest, tmp_row := st.tmp_row, tmp_col := st.tmp_col } = st :=
      scan_grid_idempotent gc data_lat data_lon target_lat target_lon rows cols _
    rw [hid]
    simp

end LoopScan

/-! ### The split of a table path -/

lemma strrchr_none {s : List Char} {c : Char} (h : strrchr s c = none) : c ∉ s := by
  induction s with
  | nil => simp
  | cons x xs ih =>
    rw [strrchr] at h
    cases hxs : strrchr xs c with
    | some i => rw [hxs] at h; exact absurd h (by simp)
    | none =>
      rw [hxs] at h
      by_cases hx : x = c
      · simp [hx] at h
      · simp only [List.mem_cons, not_or]
        exact ⟨fun hc => hx hc.symm, ih hxs⟩

lemma strrchr_some {s : List Char} {c : Char} {i : Nat} (h : strrchr s c = some i) :
    (s.take (i + 1)).getLast? = some c ∧ c ∉ s.drop (i + 1) := by
  induction s generalizing i with
  | nil => simp [strrchr] at h
  | cons x xs ih =>
    rw [strrchr] at h
    cases hxs : strrchr xs c with
    | some j =>
      rw [hxs] at h
      simp only [Option.some.injEq] at h
      subst h
      obtain ⟨h1, h2⟩ := ih hxs
      refine ⟨?_, by simpa using h2⟩
      rw [List.take_succ_cons]
      cases hl : List.take (j + 1) xs with
      | nil => rw [hl] at h1; simp at h1
      | cons y ys => rw [hl] at h1; rw [List.getLast?_cons_cons]; exact h1
    | none =>
      rw [hxs] at h
      by_cases hx : x = c
      · simp only [hx, if_true, Option.some.injEq] at h
        subst h
        exact ⟨by simp [hx], by simpa using strrchr_none hxs⟩
      · simp [hx] at h

lemma strrchr_of_mem {s : List Char} {c : Char} (h : c ∈ s) : ∃ i, strrchr s c = some i := by
  cases hs : strrchr s c with
  | some i => exact ⟨i, rfl⟩
  | none => exact absurd h (strrchr_none hs)

lemma split_table_spec {table group name : List Char}
    (h : split_table table = some (group, name)) :
    group ++ name = table ∧ group.getLast? = some '/' ∧ '/' ∉ name := by
  unfold split_table at h
  cases hs : strrchr table '/' with
  | none => rw [hs] at h; simp at h
  | some i =>
    rw [hs] at h
    simp only [strncpy, Option.bind_eq_bind, Option.some_bind, Option.pure_def, Option.some.injEq,
      Prod.mk.injEq] at h
    obtain ⟨rfl, rfl⟩ := h
    obtain ⟨h1, h2⟩ := strrchr_some hs
    have hname : List.take (table.length - (i + 1)) (List.drop (i + 1) table) =
        List.drop (i + 1) table := by
      apply List.take_of_length_le
      simp
    rw [hname]
    exact ⟨List.take_append_drop _ _, h1, h2⟩

lemma split_table_of_mem {table : List Char} (h : '/' ∈ table) :
    ∃ group name, split_table table = some (group, name) := by
  obtain ⟨i, hi⟩ := strrchr_of_mem h
  refine ⟨strncpy table (i + 1), strncpy (table.drop (i + 1)) (table.length - (i + 1)), ?_⟩
  simp [split_table, hi]

/-! ### What the driver prints -/

section DriverOutput

variable {α : Type}

lemma unguarded_nil : unguarded ([] : List (Printf α)) = [] := rfl

lemma unguarded_append (a b : List (Printf α)) :
    unguarded (a ++ b) = unguarded a ++ unguarded b := by
  simp [unguarded]

lemma unguarded_printf (format : String) (args : List (Arg α)) :
    unguarded (printf format args) = printf format args := by
  simp [unguarded, printf]

lemma unguarded_debug_printf (format : String) (args : List (Arg α)) :
    unguarded (debug_printf format args) = [] := by
  unfold debug_printf
  split_ifs <;> simp [unguarded]

lemma mem_unguarded {p : Printf α} {out : List (Printf α)} :
    p ∈ unguarded out ↔ p ∈ out ∧ p.guarded = false := by
  simp [unguarded]

end DriverOutput

section DriverSearch

variable {α : Type} [LinearOrderedField α]
variable (gc : α → α → α → α → α) (data_lat data_lon : Int → Int → α)
variable (target_lat target_lon : α)

lemma unguarded_visit_cell_printed (cols row col : Int) (st : ScanState α) :
    unguarded (visit_cell_printed gc data_lat data_lon target_lat target_lon cols row col st)
      = [] := by
  unfold visit_cell_printed
  simp only []
  split_ifs <;> simp [unguarded_append, unguarded_debug_printf, unguarded_nil]

lemma unguarded_scan_row_printed (cols row : Int) (l : List Int)
    (acc : ScanState α × List (Printf α)) (h : unguarded acc.2 = []) :
    unguarded (l.foldl
      (fun (acc : ScanState α × List (Printf α)) col =>
        (visit_cell gc data_lat data_lon target_lat target_lon row col acc.1,
          acc.2 ++ visit_cell_printed gc data_lat data_lon target_lat target_lon cols row col
            acc.1)) acc).2 = [] := by
  induction l generalizing acc with
  | nil => exact h
  | cons c l ih =>
    rw [List.foldl_cons]
    apply ih
    simp [unguarded_append, h, unguarded_visit_cell_printed]

lemma unguarded_scan_grid_printed (rows cols : Int) (st : ScanState α) :
    unguarded (scan_grid_printed gc data_lat data_lon target_lat target_lon rows cols st).2
      = [] := by
  unfold scan_grid_printed
  generalize hacc : ((st, []) : ScanState α × List (Printf α)) = acc
  have h : unguarded acc.2 = [] := by rw [← hacc]; rfl
  clear hacc
  induction for_range rows generalizing acc with
  | nil => exact h
  | cons r l ih =>
    rw [List.foldl_cons]
    apply ih
    exact unguarded_scan_row_printed gc data_lat data_lon target_lat target_lon cols r _ acc h

lemma unguarded_search_loop_printed (rows cols : Int) (fuel : Nat) (closest : α)
    (closest_row closest_col : Int) :
    unguarded (search_loop_printed gc data_lat data_lon target_lat target_lon rows cols fuel
      closest closest_row closest_col) = [] := by
  induction fuel generalizing closest closest_row closest_col with
  | zero => rfl
  | succ fuel ih =>
    rw [search_loop_printed]
    split_ifs
    · exact unguarded_scan_grid_printed gc data_lat data_lon target_lat target_lon rows cols _
    · rw [unguarded_append, ih,
        unguarded_scan_grid_printed gc data_lat data_lon target_lat target_lon rows cols]
      rfl

end DriverSearch

section DriverMain

variable {α : Type}

lemma main_inputs_printed (rd : Reader α) (argv : List (List Char)) (t : Target α)
    (h : main_inputs rd argv = some t) : unguarded t.printed = [] := by
  unfold main_inputs at h
  simp only [Option.bind_eq_bind, Option.bind_eq_some, Option.pure_def, Option.some.injEq] at h
  obtain ⟨path, -, lat_table, -, lon_table, -, a, -, b, -, ⟨g1, n1⟩, -, ⟨g2, n2⟩, -, r, -, c, -, rfl⟩ := h
  simp [unguarded_append, unguarded_debug_printf]

lemma main_inputs_dat_tables (rd : Reader α) (argv : List (List Char)) (t : Target α)
    (h : main_inputs rd argv = some t) : t.dat_tables = (argv.drop 2).take (argv.length - 6) := by
  unfold main_inputs at h
  simp only [Option.bind_eq_bind, Option.bind_eq_some, Option.pure_def, Option.some.injEq] at h
  obtain ⟨path, -, lat_table, -, lon_table, -, a, -, b, -, ⟨g1, n1⟩, -, ⟨g2, n2⟩, -, r, -, c, -, rfl⟩ := h
  rfl

/-- What one pass of the loop over the requested variables prints outside the
debugging statements: one value when the class of the variable is
`H5T_INTEGER` or `H5T_FLOAT`, nothing otherwise. -/
lemma main_variable_unguarded (rd : Reader α) (t : Target α) (row col : Int)
    (dat_table : List Char) (out : List (Printf α))
    (h : main_variable rd t row col dat_table = some out) :
    ∃ k, variable_class rd t.path dat_table = some k ∧
      (k = Kind.H5T_INTEGER → ∃ v, unguarded out = printf " %lu" [Arg.ulong v]) ∧
      (k = Kind.H5T_FLOAT → ∃ x, unguarded out = printf " %f" [Arg.flt x]) ∧
      (k ≠ Kind.H5T_INTEGER → k ≠ Kind.H5T_FLOAT → unguarded out = []) := by
  unfold main_variable at h
  simp only [Option.bind_eq_bind, Option.bind_eq_some, Option.pure_def, Option.some.injEq] at h
  obtain ⟨⟨g, n⟩, hsplit, d0, -, d1, -, d2, -, l0, -, l1, -, ⟨nr, nc⟩, -, rfl⟩ := h
  refine ⟨rd.get_variable_type_by_name t.path g n, ?_, ?_, ?_, ?_⟩
  · simp [variable_class, hsplit]
  · intro hk
    exact ⟨rd.get_variable_data_by_name_dimalloc t.path g n nr,
      by simp [unguarded_append, unguarded_debug_printf, unguarded_printf, hk]⟩
  · intro hk
    exact ⟨rd.get_variable_data_by_name_dimalloc2 t.path g n nr nc,
      by simp [unguarded_append, unguarded_debug_printf, unguarded_printf, hk]⟩
  · intro hk1 hk2
    simp [unguarded_append, unguarded_debug_printf, unguarded_printf, hk1, hk2, unguarded_nil]

end DriverMain

section DriverReport

variable {α : Type}

lemma main_values_unguarded (rd : Reader α) (t : Target α) (row col : Int)
    (l : List (List Char)) (acc out : List (Printf α))
    (h : l.foldlM
      (fun (out : List (Printf α)) dat_table => do
        let out_variable ← main_variable rd t row col dat_table
        pure (out ++ out_variable)) acc = some out) :
    ∃ vals : List (List (Printf α)), List.Forall₂ (value_printed rd t.path) l vals ∧
      unguarded out = unguarded acc ++ vals.flatten := by
  induction l generalizing acc with
  | nil =>
    simp only [List.foldlM_nil, Option.pure_def, Option.some.injEq] at h
    subst h
    exact ⟨[], List.Forall₂.nil, by simp⟩
  | cons v l ih =>
    rw [List.foldlM_cons] at h
    simp only [Option.bind_eq_bind, Option.bind_eq_some, Option.pure_def, Option.some.injEq] at h
    obtain ⟨acc1, ⟨o, ho, rfl⟩, hrest⟩ := h
    obtain ⟨vals, hvals, hout⟩ := ih _ hrest
    refine ⟨unguarded o :: vals, List.Forall₂.cons (main_variable_unguarded rd t row col v o ho) hvals, ?_⟩
    rw [hout, unguarded_append, List.flatten_cons, List.append_assoc]

end DriverReport

section DriverRun

variable {α : Type} [LinearOrderedField α]

lemma main_report_unguarded (gc : α → α → α → α → α) (rd : Reader α) (t : Target α)
    (row col : Int) (out : List (Printf α)) (h : main_report gc rd t row col = some out) :
    (((0 ≤ row ∧ row < t.rows) ∧ (0 ≤ col ∧ col < t.cols) ∧
        gc (t.data_lat row col) (t.data_lon row col) t.lat t.lon < 15) →
      ∃ vals : List (List (Printf α)),
        List.Forall₂ (value_printed rd t.path) t.dat_tables vals ∧
        unguarded out =
          [result_head t (gc (t.data_lat row col) (t.data_lon row col) t.lat t.lon) row col]
            ++ vals.flatten ++ printf "\n" []) ∧
    (¬ ((0 ≤ row ∧ row < t.rows) ∧ (0 ≤ col ∧ col < t.cols) ∧
        gc (t.data_lat row col) (t.data_lon row col) t.lat t.lon < 15) →
      unguarded out = []) := by
  unfold main_report at h
  by_cases hin : (row ≥ 0 ∧ row < t.rows) ∧ (col ≥ 0 ∧ col < t.cols)
  · rw [if_pos hin] at h
    by_cases hd : gc (t.data_lat row col) (t.data_lon row col) t.lat t.lon < MAX_GOOD_DIS_KM
    · simp only [hd, if_true, Option.bind_eq_bind, Option.bind_eq_some, Option.pure_def,
        Option.some.injEq] at h
      obtain ⟨o, ho, rfl⟩ := h
      obtain ⟨vals, hvals, hout⟩ := main_values_unguarded rd t row col _ _ _ ho
      refine ⟨fun _ => ⟨vals, hvals, ?_⟩, fun hn => absurd ⟨hin.1, hin.2, hd⟩ hn⟩
      simp only [unguarded_append, unguarded_debug_printf, unguarded_printf, hout]
      simp [printf, result_head, unguarded]
    · simp only [hd, if_false, Option.pure_def, Option.some.injEq] at h
      subst h
      exact ⟨fun hc => absurd hc.2.2 hd, fun _ => unguarded_debug_printf _ _⟩
  · rw [if_neg hin] at h
    simp only [Option.pure_def, Option.some.injEq] at h
    subst h
    exact ⟨fun hc => absurd ⟨hc.1, hc.2.1⟩ hin, fun _ => rfl⟩

variable [FloorRing α]

/-- A run of `main` with `argc >= 7` that reaches line 385: the inputs were
read, the search returned, the report was printed, and the exit status is 0. -/
lemma main_run (gc : α → α → α → α → α) (rd : Reader α) (argv : List (List Char))
    (fuel : Nat) (status : Int) (out : List (Printf α))
    (hargc : ¬ (argv.length : Int) < 7) (h : main gc rd argv fuel = some (status, out)) :
    ∃ t row col d o, main_inputs rd argv = some t ∧
      get_indices_from_lat_long gc t.data_lat t.data_lon t.lat t.lon t.rows t.cols fuel
        = some (row, col, d) ∧
      main_report gc rd t row col = some o ∧ status = 0 ∧ unguarded out = unguarded o := by
  unfold main at h
  simp only [hargc, if_false, Option.bind_eq_bind, Option.bind_eq_some, Option.pure_def,
    Option.some.injEq, Prod.mk.injEq] at h
  obtain ⟨t, ht, ⟨row, col, d⟩, hs, o, ho, rfl, rfl⟩ := h
  refine ⟨t, row, col, d, o, ht, hs, ho, rfl, ?_⟩
  rw [unguarded_append, unguarded_append, main_inputs_printed rd argv t ht,
    unguarded_search_loop_printed]
  rfl

/-- A run of `main` with `argc < 7`: the exit status is 1 and only the message
and the usage text are printed. -/
lemma main_too_few (gc : α → α → α → α → α) (rd : Reader α) (argv : List (List Char))
    (fuel : Nat) (hargc : (argv.length : Int) < 7) :
    main gc rd argv fuel =
      (usage argv).map (fun out_usage => (1, printf "Too few arguments\n" [] ++ out_usage)) := by
  unfold main
  simp only [hargc, if_true]
  cases usage argv <;> rfl

end DriverRun

/-! ### The scan with its output -/

section DriverScanState

variable {α : Type} [LinearOrderedField α]
variable (gc : α → α → α → α → α) (data_lat data_lon : Int → Int → α)
variable (target_lat target_lon : α)

lemma scan_row_printed_fst (cols row : Int) (l : List Int)
    (acc : ScanState α × List (Printf α)) :
    (l.foldl
      (fun (acc : ScanState α × List (Printf α)) col =>
        (visit_cell gc data_lat data_lon target_lat target_lon row col acc.1,
          acc.2 ++ visit_cell_printed gc data_lat data_lon target_lat target_lon cols row col
            acc.1)) acc).1 =
    l.foldl (fun s col => visit_cell gc data_lat data_lon target_lat target_lon row col s)
      acc.1 := by
  induction l generalizing acc with
  | nil => rfl
  | cons c l ih => rw [List.foldl_cons, List.foldl_cons, ih]

/-- The scan with its output goes through the same states as `scan_grid`. -/
lemma scan_grid_printed_fst (rows cols : Int) (st : ScanState α) :
    (scan_grid_printed gc data_lat data_lon target_lat target_lon rows cols st).1 =
      scan_grid gc data_lat data_lon target_lat target_lon rows cols st := by
  unfold scan_grid_printed scan_grid scan_row
  generalize hacc : ((st, []) : ScanState α × List (Printf α)) = acc
  have h : acc.1 = st := by rw [← hacc]
  clear hacc
  induction for_range rows generalizing acc st with
  | nil => exact h
  | cons r l ih =>
    rw [List.foldl_cons, List.foldl_cons]
    apply ih
    rw [scan_row_printed_fst, h]

end DriverScanState

/-! ### Bounds on the distance and the rescaling of equal shapes -/

/-- The rescaling of one axis when the variable's extent equals the extent of
the coordinate grid. -/
lemma rescale_index_same_count (ll_idx count : ℤ) (hidx : 0 ≤ ll_idx ∧ ll_idx < count)
    (hsmall : count < 2 ^ 24) : rescale_index ll_idx count count = some ll_idx := by
  have hpos : 0 < count := lt_of_le_of_lt hidx.1 hidx.2
  have hq : (count : ℚ) ≠ 0 := by exact_mod_cast ne_of_gt hpos
  have hone : (count : ℚ) / (count : ℚ) = ((1 : ℤ) : ℚ) := by
    rw [div_self hq]; norm_num
  have h := rescale_index_of_exact ll_idx count count hidx hpos ⟨hsmall, hsmall⟩
    (by rw [hone]; exact to_float_intCast 1 (by norm_num))
    (by
      rw [hone]
      have : (ll_idx : ℚ) * ((1 : ℤ) : ℚ) = ((ll_idx : ℤ) : ℚ) := by push_cast; ring
      rw [this]
      exact to_float_intCast ll_idx
        (by rw [abs_of_nonneg hidx.1]; exact lt_trans hidx.2 hsmall))
  rw [h]
  have : (ll_idx : ℚ) * (count : ℚ) / (count : ℚ) = ((ll_idx : ℤ) : ℚ) := by
    field_simp
  rw [this, Int.floor_intCast]

/-! ### The rounding error of binary32 -/

lemma round_half_even_le (x : ℚ) : (round_half_even x : ℚ) ≤ x + 1 / 2 := by
  have hf : (⌊x⌋ : ℚ) ≤ x := Int.floor_le x
  have hlt : x < ⌊x⌋ + 1 := Int.lt_floor_add_one x
  simp only [round_half_even]
  split_ifs with h1 h2 h3
  · linarith
  · push_cast; linarith
  · linarith
  · push_cast
    have : x - ⌊x⌋ = 1 / 2 := le_antisymm (not_lt.mp h2) (not_lt.mp h1)
    linarith

lemma round_half_even_nonneg (x : ℚ) (hx : 0 ≤ x) : 0 ≤ round_half_even x := by
  have hf : 0 ≤ ⌊x⌋ := Int.floor_nonneg.mpr hx
  simp only [round_half_even]
  split_ifs <;> omega

lemma to_float_nonneg (q : ℚ) (hq : 0 ≤ q) : 0 ≤ to_float q := by
  unfold to_float
  split_ifs with h0
  · exact le_refl 0
  · have hu : (0 : ℚ) < 2 ^ (Int.log 2 |q| - 23) := zpow_pos (by norm_num) _
    have hx : 0 ≤ q / 2 ^ (Int.log 2 |q| - 23) := div_nonneg hq (le_of_lt hu)
    have hr : (0 : ℚ) ≤ round_half_even (q / 2 ^ (Int.log 2 |q| - 23)) := by
      exact_mod_cast round_half_even_nonneg _ hx
    exact mul_nonneg hr (le_of_lt hu)

/-- Rounding to binary32 raises a non-negative value by at most the factor
`1 + 2^-24`. -/
lemma to_float_le (q : ℚ) (hq : 0 ≤ q) : to_float q ≤ q * (1 + 1 / 2 ^ 24) := by
  unfold to_float
  split_ifs with h0
  · rw [h0]; norm_num
  · have hpos : 0 < q := lt_of_le_of_ne hq (Ne.symm h0)
    rw [abs_of_pos hpos]
    set e := Int.log 2 q with he
    have hu : (0 : ℚ) < 2 ^ (e - 23) := zpow_pos (by norm_num) _
    have hlog : (2 : ℚ) ^ e ≤ q := by
      have := Int.zpow_log_le_self (b := 2) (r := q) (by norm_num) hpos
      simpa using this
    have hr := round_half_even_le (q / 2 ^ (e - 23))
    have h1 : (round_half_even (q / 2 ^ (e - 23)) : ℚ) * 2 ^ (e - 23) ≤
        (q / 2 ^ (e - 23) + 1 / 2) * 2 ^ (e - 23) :=
      mul_le_mul_of_nonneg_right hr (le_of_lt hu)
    have h2 : (q / 2 ^ (e - 23) + 1 / 2) * 2 ^ (e - 23) = q + 2 ^ (e - 23) / 2 := by
      field_simp
      ring
    have h3 : (2 : ℚ) ^ (e - 23) / 2 = 2 ^ e / 2 ^ 24 := by
      rw [zpow_sub₀ (by norm_num : (2 : ℚ) ≠ 0)]
      norm_num
      ring
    have h4 : (2 : ℚ) ^ e / 2 ^ 24 ≤ q / 2 ^ 24 :=
      div_le_div_of_nonneg_right hlog (by norm_num)
    rw [h2, h3] at h1
    linarith

/-- The rescaled index of one axis stays below the variable's extent when the
coordinate grid has at most `2^23` entries on that axis. -/
lemma rescale_index_in_range (ll_idx count ll_count : ℤ)
    (hidx : 0 ≤ ll_idx ∧ ll_idx < ll_count) (hll : ll_count ≤ 2 ^ 23)
    (hcount : 1 ≤ count ∧ count < 2 ^ 24) :
    ∃ new_idx, rescale_index ll_idx count ll_count = some new_idx ∧
      0 ≤ new_idx ∧ new_idx < count := by
  have hllpos : 0 < ll_count := lt_of_le_of_lt hidx.1 hidx.2
  have e1 : to_float (ll_idx : ℚ) = ll_idx :=
    to_float_intCast _ (by rw [abs_of_nonneg hidx.1]; omega)
  have e2 : to_float (count : ℚ) = count :=
    to_float_intCast _ (by rw [abs_of_pos (by omega : 0 < count)]; exact hcount.2)
  have e3 : to_float (ll_count : ℚ) = ll_count :=
    to_float_intCast _ (by rw [abs_of_pos hllpos]; omega)
  have hi0 : (0 : ℚ) ≤ ll_idx := by exact_mod_cast hidx.1
  have hi1 : (ll_idx : ℚ) ≤ ll_count - 1 := by
    have : ll_idx ≤ ll_count - 1 := by omega
    exact_mod_cast this
  have hs0 : (0 : ℚ) < ll_count := by exact_mod_cast hllpos
  have hs1 : (ll_count : ℚ) ≤ 2 ^ 23 := by exact_mod_cast hll
  have hc0 : (0 : ℚ) < count := by
    have : 0 < count := by omega
    exact_mod_cast this
  set s : ℚ := (ll_count : ℚ) with hs
  set c : ℚ := (count : ℚ) with hc
  set i : ℚ := (ll_idx : ℚ) with hi
  set q : ℚ := to_float (c / s) with hq
  set p : ℚ := to_float (i * q) with hp
  have hq0 : 0 ≤ q := to_float_nonneg _ (div_nonneg (le_of_lt hc0) (le_of_lt hs0))
  have hq1 : q ≤ c / s * (1 + 1 / 2 ^ 24) :=
    to_float_le _ (div_nonneg (le_of_lt hc0) (le_of_lt hs0))
  have hp0 : 0 ≤ p := to_float_nonneg _ (mul_nonneg hi0 hq0)
  have hp1 : p ≤ i * q * (1 + 1 / 2 ^ 24) := to_float_le _ (mul_nonneg hi0 hq0)
  have hplt : p < c := by
    have h1 : i * q ≤ (s - 1) * (c / s * (1 + 1 / 2 ^ 24)) := by
      have hs1' : (0 : ℚ) ≤ s - 1 := by linarith
      calc i * q ≤ (s - 1) * q := mul_le_mul_of_nonneg_right hi1 hq0
        _ ≤ (s - 1) * (c / s * (1 + 1 / 2 ^ 24)) := mul_le_mul_of_nonneg_left hq1 hs1'
    have h2 : p ≤ (s - 1) * (c / s * (1 + 1 / 2 ^ 24)) * (1 + 1 / 2 ^ 24) :=
      le_trans hp1 (mul_le_mul_of_nonneg_right h1 (by norm_num))
    have h3 : (s - 1) * (c / s * (1 + 1 / 2 ^ 24)) * (1 + 1 / 2 ^ 24) =
        c * ((s - 1) * ((1 + 1 / 2 ^ 24) * (1 + 1 / 2 ^ 24)) / s) := by
      field_simp
      ring
    have h4 : (s - 1) * ((1 + 1 / 2 ^ 24) * (1 + 1 / 2 ^ 24)) / s < 1 := by
      rw [div_lt_one hs0]
      have : (s - 1) * ((1 + 1 / 2 ^ 24) * (1 + 1 / 2 ^ 24) - 1) < 1 := by
        have hs1' : s - 1 ≤ 2 ^ 23 - 1 := by linarith
        have hpos : (0 : ℚ) ≤ (1 + 1 / 2 ^ 24) * (1 + 1 / 2 ^ 24) - 1 := by norm_num
        calc (s - 1) * ((1 + 1 / 2 ^ 24) * (1 + 1 / 2 ^ 24) - 1)
            ≤ (2 ^ 23 - 1) * ((1 + 1 / 2 ^ 24) * (1 + 1 / 2 ^ 24) - 1) :=
              mul_le_mul_of_nonneg_right hs1' hpos
          _ < 1 := by norm_num
      linarith
    calc p ≤ c * ((s - 1) * ((1 + 1 / 2 ^ 24) * (1 + 1 / 2 ^ 24)) / s) := by rw [← h3]; exact h2
      _ < c * 1 := mul_lt_mul_of_pos_left h4 hc0
      _ = c := mul_one c
  have hfl0 : 0 ≤ ⌊p⌋ := Int.floor_nonneg.mpr hp0
  have hfl1 : ⌊p⌋ < count := by
    rw [Int.floor_lt]
    exact hplt
  have hrange : -2 ^ 31 ≤ ⌊p⌋ ∧ ⌊p⌋ < 2 ^ 31 := by
    constructor <;> omega
  refine ⟨⌊p⌋, ?_, hfl0, hfl1⟩
  simp only [rescale_index, if_neg (ne_of_gt hllpos), e1, e2, e3]
  rw [double_to_int_of_nonneg _ hp0, if_pos hrange]

/-- The binary32 value of a positive rational with `2^e <= q < 2^(e+1)`. -/
lemma to_float_of_log (q : ℚ) (e z : ℤ) (h1 : (2 : ℚ) ^ e ≤ q) (h2 : q < 2 ^ (e + 1))
    (hz : round_half_even (q / 2 ^ (e - 23)) = z) : to_float q = z * 2 ^ (e - 23) := by
  have hpos : 0 < q := lt_of_lt_of_le (zpow_pos (by norm_num) e) h1
  have hlog : Int.log 2 |q| = e := by
    rw [abs_of_pos hpos]
    apply le_antisymm
    · have := (Int.lt_zpow_iff_log_lt (b := 2) (by norm_num) hpos).mp
        (by exact_mod_cast h2 : q < ((2 : ℕ) : ℚ) ^ (e + 1))
      omega
    · exact (Int.zpow_le_iff_le_log (b := 2) (by norm_num) hpos).mp (by exact_mod_cast h1)
  simp only [to_float, if_neg (ne_of_gt hpos), hlog, hz]

/-- Row 13103684 of a coordinate grid of 13103685 rows, rescaled to a variable
of 16777216 rows: the single-precision product rounds up to 16777216. -/
lemma rescale_index_large_grid : rescale_index 13103684 16777216 13103685 = some 16777216 := by
  have e1 : to_float ((13103684 : ℤ) : ℚ) = 13103684 := by
    rw [to_float_intCast _ (by norm_num)]; norm_num
  have e3 : to_float ((13103685 : ℤ) : ℚ) = 13103685 := by
    rw [to_float_intCast _ (by norm_num)]; norm_num
  have e2 : to_float ((16777216 : ℤ) : ℚ) = 16777216 := by
    have h := to_float_of_log 16777216 24 8388608 (by norm_num) (by norm_num) (by decide!)
    rw [show ((16777216 : ℤ) : ℚ) = 16777216 by norm_num, h]
    norm_num
  have e4 : to_float ((16777216 : ℚ) / 13103685) = 10740299 / 8388608 := by
    have h := to_float_of_log (16777216 / 13103685) 0 10740299 (by norm_num) (by norm_num)
      (by decide!)
    rw [h]
    norm_num
  have e5 : to_float ((13103684 : ℚ) * (10740299 / 8388608)) = 16777216 := by
    have h := to_float_of_log (13103684 * (10740299 / 8388608)) 23 16777216 (by norm_num)
      (by norm_num) (by decide!)
    rw [h]
    norm_num
  have e6 : double_to_int (16777216 : ℚ) = 16777216 := by
    rw [double_to_int_of_nonneg _ (by norm_num)]
    exact_mod_cast Int.floor_intCast (16777216 : ℤ)
  simp only [rescale_index, e1, e2, e3, e4, e5, e6]
  norm_num

/-! ### The reshape of `get_variable_data_by_name_dimalloc2` -/

section ReshapeLemmas

variable {α : Type}

lemma dimalloc2_reshape_eq (width : Kind → Nat) (data : Block α) (type : Kind)
    (rows cols : Nat) :
    get_variable_data_by_name_dimalloc2_reshape width data type rows cols =
      convert_1d_to_2d width data type rows cols := rfl

end ReshapeLemmas

/-! ### The three-dimensional conversions -/

section Convert3d

variable {α : Type}

lemma foldlM_nested {σ ι κ : Type} (step : σ → ι × κ → Option σ) (xs : List ι)
    (ys : List κ) (s : σ) :
    xs.foldlM (fun d x => ys.foldlM (fun d y => step d (x, y)) d) s =
      (xs.flatMap (fun x => ys.map (fun y => (x, y)))).foldlM step s := by
  induction xs generalizing s with
  | nil => rfl
  | cons x xs ih =>
    simp only [List.foldlM_cons, List.flatMap_cons, List.foldlM_append, List.foldlM_map]
    cases h : ys.foldlM (fun d y => step d (x, y)) s with
    | none => rfl
    | some t =>
      simp only [Option.bind_eq_bind, Option.some_bind]
      exact ih t

lemma mem_cells3 (levs rows cols : Nat) (x : Nat × Nat × Nat) :
    x ∈ cells3 levs rows cols ↔ x.1 < levs ∧ x.2.1 < rows ∧ x.2.2 < cols := by
  obtain ⟨l, q⟩ := x
  simp only [cells3, List.mem_flatMap, List.mem_map, List.mem_range]
  constructor
  · rintro ⟨l', hl', p, hp, heq⟩
    simp only [Prod.mk.injEq] at heq
    obtain ⟨rfl, rfl⟩ := heq
    exact ⟨hl', (mem_cells2 rows cols p).mp hp⟩
  · rintro ⟨hl, hq⟩
    exact ⟨l, hl, q, (mem_cells2 rows cols q).mpr hq, rfl⟩

lemma cells3_pairwise (levs rows cols : Nat) :
    (cells3 levs rows cols).Pairwise
      (fun x y => (x.1 * rows + x.2.1) * cols + x.2.2 < (y.1 * rows + y.2.1) * cols + y.2.2) := by
  unfold cells3
  rw [List.pairwise_flatMap]
  constructor
  · intro l _
    rw [List.pairwise_map]
    refine (cells2_pairwise rows cols).imp ?_
    intro p q hpq
    show (l * rows + p.1) * cols + p.2 < (l * rows + q.1) * cols + q.2
    have e1 : (l * rows + p.1) * cols + p.2 = l * rows * cols + (p.1 * cols + p.2) := by ring
    have e2 : (l * rows + q.1) * cols + q.2 = l * rows * cols + (q.1 * cols + q.2) := by ring
    omega
  · refine (List.pairwise_lt_range levs).imp ?_
    intro l l' hll x hx y hy
    simp only [List.mem_map] at hx hy
    obtain ⟨p, hp, rfl⟩ := hx
    obtain ⟨q, _, rfl⟩ := hy
    obtain ⟨hr, hc⟩ := (mem_cells2 rows cols p).mp hp
    show (l * rows + p.1) * cols + p.2 < (l' * rows + q.1) * cols + q.2
    have h1 : (l * rows + p.1) * cols + p.2 < (l + 1) * rows * cols := by
      have hrow : l * rows + p.1 < (l + 1) * rows := by nlinarith
      exact @cell_index_lt ((l + 1) * rows) cols (l * rows + p.1) p.2 hrow hc
    have h2 : (l + 1) * rows * cols ≤ l' * rows * cols :=
      Nat.mul_le_mul_right _ (Nat.mul_le_mul_right _ hll)
    have h3 : l' * rows * cols ≤ (l' * rows + q.1) * cols + q.2 := by nlinarith
    omega

lemma cells3_addr_pairwise (levs rows cols : Nat) (base size : Nat) (hsize : 1 ≤ size) :
    (cells3 levs rows cols).Pairwise
      (fun x y => base + ((x.1 * rows + x.2.1) * cols + x.2.2) * size ≠
        base + ((y.1 * rows + y.2.1) * cols + y.2.2) * size) := by
  refine (cells3_pairwise levs rows cols).imp ?_
  intro x y hlt heq
  have h1 : ((x.1 * rows + x.2.1) * cols + x.2.2) * size =
      ((y.1 * rows + y.2.1) * cols + y.2.2) * size := by omega
  have h2 := Nat.eq_of_mul_eq_mul_right (by omega : 0 < size) h1
  omega

/-- The three nested loops of the 3-D conversions as one loop over `cells3`. -/
lemma foldlM_levs_rows_cols {σ : Type} (step : σ → Nat × Nat × Nat → Option σ)
    (levs rows cols : Nat) (s : σ) :
    (List.range levs).foldlM
      (fun d lev =>
        (List.range rows).foldlM
          (fun d row => (List.range cols).foldlM (fun d col => step d (lev, row, col)) d) d) s =
      (cells3 levs rows cols).foldlM step s := by
  have hinner : ∀ lev ∈ List.range levs, ∀ t : σ,
      (List.range rows).foldlM
          (fun d row => (List.range cols).foldlM (fun d col => step d (lev, row, col)) d) t =
        (cells2 rows cols).foldlM (fun d p => step d (lev, p)) t := by
    intro lev _ t
    exact foldlM_rows_cols (fun d p => step d (lev, p)) (List.range rows) cols t
  rw [foldlM_option_congr (List.range levs) _ _ s hinner]
  exact foldlM_nested step (List.range levs) (cells2 rows cols) s

/-- The call `convert_1d_to_3d` on a buffer of `rows * cols` scalars, when the nested
array fits: the result is the `dimalloc` block in which every level holds the
first `rows * cols` scalars of the buffer. -/
lemma convert_1d_to_3d_spec (width : Kind → Nat) (data_in : Block α) (type : Kind)
    (levs rows cols : Nat) (hw : 1 ≤ width type)
    (hfit : sizeof_ptr * levs + sizeof_ptr * (levs * rows) + levs * rows * cols * width type
      < 2 ^ 64)
    (hRC : rows * cols < 2 ^ 64)
    (hbuf : width type * (rows * cols) ≤ data_in.bytes) :
    ∃ out, convert_1d_to_3d width data_in type levs rows cols = some out ∧
      out.bytes = sizeof_ptr * levs + sizeof_ptr * (levs * rows)
        + levs * rows * cols * width type ∧
      (∃ d0 : Block α, (dimalloc (width type) 3 [levs, rows, cols] : Ret (Block α)) = Ret.ptr d0 ∧
        out.ptrs = d0.ptrs) ∧
      (∀ i, i < levs →
        out.ptrs (sizeof_ptr * i) = some (sizeof_ptr * levs + sizeof_ptr * (i * rows))) ∧
      (∀ n, n < levs * rows → out.ptrs (sizeof_ptr * levs + sizeof_ptr * n) =
        some (sizeof_ptr * levs + sizeof_ptr * (levs * rows) + n * cols * width type)) ∧
      (∀ lev row col, lev < levs → row < rows → col < cols →
        out.elems (sizeof_ptr * levs + sizeof_ptr * (levs * rows)
            + ((lev * rows + row) * cols + col) * width type) =
          data_in.elems (width type * (row * cols + col))) ∧
      (∀ o, (∀ x ∈ cells3 levs rows cols,
          sizeof_ptr * levs + sizeof_ptr * (levs * rows)
            + ((x.1 * rows + x.2.1) * cols + x.2.2) * width type ≠ o) →
        out.elems o = none) := by
  obtain ⟨d0, hd0, hbytes0, helems0, hptrs1, hptrs2⟩ :=
    dimalloc_3d (α := α) (width type) levs rows cols hfit
  obtain ⟨out, hout, hbytes, hptrs, hval, hother⟩ :=
    foldlM_store_spec (cells3 levs rows cols)
      (fun d x => convert_1d_to_3d_cell width data_in type cols d x.1 x.2.1 x.2.2)
      (fun x => sizeof_ptr * levs + sizeof_ptr * (levs * rows)
        + ((x.1 * rows + x.2.1) * cols + x.2.2) * width type)
      (fun x => data_in.elems (width type * (x.2.1 * cols + x.2.2))) (width type) d0
      (by
        intro d x hx hdb hdp
        obtain ⟨hl, hr, hc⟩ := (mem_cells3 levs rows cols x).mp hx
        have hlt := cell_index_lt hr hc
        have hload : data_in.load (width type * (x.2.1 * cols + x.2.2)) (width type) =
            some (data_in.elems (width type * (x.2.1 * cols + x.2.2))) := by
          have : width type * (x.2.1 * cols + x.2.2) + width type ≤ data_in.bytes := by
            have : width type * (x.2.1 * cols + x.2.2 + 1) ≤ width type * (rows * cols) :=
              Nat.mul_le_mul_left _ hlt
            have e : width type * (x.2.1 * cols + x.2.2 + 1) =
              width type * (x.2.1 * cols + x.2.2) + width type := by ring
            omega
          rw [Block.load, if_pos this]
        have hidx := index3_of_layout d (width type) levs rows cols (by rw [hdb, hbytes0])
          (fun i hi => by rw [hdp]; exact hptrs1 i hi)
          (fun n hn => by rw [hdp]; exact hptrs2 n hn) x.1 x.2.1 x.2.2 hl hr
        simp only [convert_1d_to_3d_cell, cell_index_no_wrap hr hc hRC, hload, hidx,
          Option.bind_eq_bind, Option.some_bind])
      (by
        intro x hx
        obtain ⟨hl, hr, hc⟩ := (mem_cells3 levs rows cols x).mp hx
        have hlt := key3_lt hl hr hc
        have : ((x.1 * rows + x.2.1) * cols + x.2.2 + 1) * width type
            ≤ levs * rows * cols * width type := Nat.mul_le_mul_right _ hlt
        have e : ((x.1 * rows + x.2.1) * cols + x.2.2 + 1) * width type =
          ((x.1 * rows + x.2.1) * cols + x.2.2) * width type + width type := by ring
        show sizeof_ptr * levs + sizeof_ptr * (levs * rows)
          + ((x.1 * rows + x.2.1) * cols + x.2.2) * width type + width type ≤ d0.bytes
        rw [hbytes0]
        omega)
      (cells3_addr_pairwise levs rows cols _ _ hw)
  refine ⟨out, ?_, by rw [hbytes, hbytes0], ⟨d0, hd0, hptrs⟩, ?_, ?_, ?_, ?_⟩
  · simp only [convert_1d_to_3d, hd0]
    have := foldlM_levs_rows_cols
      (fun d x => convert_1d_to_3d_cell width data_in type cols d x.1 x.2.1 x.2.2)
      levs rows cols d0
    simp only at this
    rw [this]
    exact hout
  · intro i hi
    rw [hptrs]
    exact hptrs1 i hi
  · intro n hn
    rw [hptrs]
    exact hptrs2 n hn
  · intro lev row col hl hr hc
    exact hval (lev, row, col) ((mem_cells3 levs rows cols (lev, row, col)).mpr ⟨hl, hr, hc⟩)
  · intro o ho
    rw [hother o ho, helems0]

end Convert3d

section Flatten3d

variable {α : Type}

/-- One pass of the two inner loops of `convert_3d_to_1d` for the level `lev`:
every position `row * cols + col` of the buffer receives `a[lev][row][col]`
and nothing else changes. -/
lemma convert_3d_to_1d_level (width : Kind → Nat) (a : Block α) (type : Kind)
    (levs rows cols lev : Nat) (hw : 1 ≤ width type) (hlev : lev < levs)
    (hsize : width type * (levs * rows * cols) < 2 ^ 64)
    (hread : ∀ lev row col, lev < levs → row < rows → col < cols →
      ∃ c, a.at3 (width type) lev row col = some c)
    (d : Block α) (hd : d.bytes = width type * (levs * rows * cols)) :
    ∃ d1, (List.range rows).foldlM
        (fun (d : Block α) row =>
          (List.range cols).foldlM
            (fun (d : Block α) col =>
              convert_3d_to_1d_cell width a type cols d lev row col) d) d = some d1 ∧
      d1.bytes = d.bytes ∧
      (∀ row col, row < rows → col < cols →
        some (d1.elems (width type * (row * cols + col))) = a.at3 (width type) lev row col) ∧
      (∀ o, (∀ p ∈ cells2 rows cols, width type * (p.1 * cols + p.2) ≠ o) →
        d1.elems o = d.elems o) := by
  have hL : rows * cols ≤ levs * rows * cols := by
    have : 1 * (rows * cols) ≤ levs * (rows * cols) := Nat.mul_le_mul_right _ (by omega)
    rw [Nat.mul_assoc]; omega
  have hRCw : rows * cols ≤ width type * (levs * rows * cols) :=
    le_trans hL (Nat.le_mul_of_pos_left _ hw)
  have hRC64 : rows * cols < 2 ^ 64 := by omega
  obtain ⟨d1, hd1, hbytes, -, hval, hother⟩ :=
    foldlM_store_spec (cells2 rows cols)
      (fun d p => convert_3d_to_1d_cell width a type cols d lev p.1 p.2)
      (fun p => width type * (p.1 * cols + p.2))
      (fun p => (a.at3 (width type) lev p.1 p.2).getD none) (width type) d
      (by
        intro d' p hp _ _
        obtain ⟨hr, hc⟩ := (mem_cells2 rows cols p).mp hp
        obtain ⟨c, hc2⟩ := hread lev p.1 p.2 hlev hr hc
        show convert_3d_to_1d_cell width a type cols d' lev p.1 p.2 =
          d'.store (width type * (p.1 * cols + p.2)) (width type)
            ((a.at3 (width type) lev p.1 p.2).getD none)
        rw [hc2]
        simp only [Block.at3, Option.bind_eq_bind] at hc2
        cases hidx : a.index3 (width type) lev p.1 p.2 with
        | none => rw [hidx] at hc2; simp at hc2
        | some addr =>
          rw [hidx] at hc2
          simp only [Option.some_bind] at hc2
          simp only [convert_3d_to_1d_cell, cell_index_no_wrap hr hc hRC64, hidx, hc2,
            Option.bind_eq_bind, Option.some_bind, Option.getD_some])
      (by
        intro p hp
        obtain ⟨hr, hc⟩ := (mem_cells2 rows cols p).mp hp
        have hlt := cell_index_lt hr hc
        have : width type * (p.1 * cols + p.2 + 1) ≤ width type * (levs * rows * cols) :=
          Nat.mul_le_mul_left _ (by omega)
        have e : width type * (p.1 * cols + p.2 + 1) =
          width type * (p.1 * cols + p.2) + width type := by ring
        show width type * (p.1 * cols + p.2) + width type ≤ d.bytes
        rw [hd]
        omega)
      (by
        refine (cells2_addr_pairwise rows cols 0 (width type) hw).imp ?_
        intro p q hne heq
        apply hne
        have heq' : width type * (p.1 * cols + p.2) = width type * (q.1 * cols + q.2) := heq
        rw [Nat.mul_comm (p.1 * cols + p.2), Nat.mul_comm (q.1 * cols + q.2), heq'])
  refine ⟨d1, ?_, hbytes, ?_, hother⟩
  · have := foldlM_rows_cols
      (fun d p => convert_3d_to_1d_cell width a type cols d lev p.1 p.2)
      (List.range rows) cols d
    simp only at this
    rw [this]
    exact hd1
  · intro row col hr hc
    obtain ⟨c, hc2⟩ := hread lev row col hlev hr hc
    have hv := hval (row, col) ((mem_cells2 rows cols (row, col)).mpr ⟨hr, hc⟩)
    simp only [hc2, Option.getD_some] at hv
    rw [hv, hc2]

/-- The call `convert_3d_to_1d` on a nested array whose scalars can all be read: the
buffer has room for `levs * rows * cols` scalars, its first `rows * cols`
positions hold the last level of the array, and no other position is
assigned. -/
lemma convert_3d_to_1d_spec (width : Kind → Nat) (a : Block α) (type : Kind)
    (levs rows cols : Nat) (hw : 1 ≤ width type) (hlevs : 1 ≤ levs)
    (hsize : width type * (levs * rows * cols) < 2 ^ 64)
    (hread : ∀ lev row col, lev < levs → row < rows → col < cols →
      ∃ c, a.at3 (width type) lev row col = some c) :
    ∃ flat, convert_3d_to_1d width a type levs rows cols = some flat ∧
      flat.bytes = width type * (levs * rows * cols) ∧
      (∀ row col, row < rows → col < cols →
        some (flat.elems (width type * (row * cols + col))) =
          a.at3 (width type) (levs - 1) row col) ∧
      (∀ o, (∀ p ∈ cells2 rows cols, width type * (p.1 * cols + p.2) ≠ o) →
        flat.elems o = none) := by
  have hmalloc : size_mul (size_mul (size_mul (width type) levs) rows) cols =
      width type * (levs * rows * cols) := by
    have e : width type * (levs * rows * cols) = width type * levs * rows * cols := by ring
    have h1 : width type * levs * rows * cols < 2 ^ 64 := by rw [← e]; exact hsize
    rw [size_mul_mul]
    simp only [size_mul]
    rw [Nat.mul_assoc (width type * levs % 2 ^ 64), Nat.mod_mul_mod, ← Nat.mul_assoc,
      Nat.mod_eq_of_lt h1, e]
  -- the state after the first `n` levels
  have key : ∀ n, n ≤ levs →
      ∃ d, (List.range n).foldlM
          (fun (d : Block α) lev =>
            (List.range rows).foldlM
              (fun (d : Block α) row =>
                (List.range cols).foldlM
                  (fun (d : Block α) col =>
                    convert_3d_to_1d_cell width a type cols d lev row col) d) d)
          (malloc (width type * (levs * rows * cols))) = some d ∧
        d.bytes = width type * (levs * rows * cols) ∧
        (1 ≤ n → ∀ row col, row < rows → col < cols →
          some (d.elems (width type * (row * cols + col))) =
            a.at3 (width type) (n - 1) row col) ∧
        (∀ o, (∀ p ∈ cells2 rows cols, width type * (p.1 * cols + p.2) ≠ o) →
          d.elems o = none) := by
    intro n
    induction n with
    | zero =>
      intro _
      exact ⟨_, rfl, rfl, fun h => absurd h (by norm_num), fun _ _ => rfl⟩
    | succ n ih =>
      intro hn
      obtain ⟨d, hd, hbytes, -, hnone⟩ := ih (by omega)
      obtain ⟨d1, hd1, hbytes1, hval1, hother1⟩ :=
        convert_3d_to_1d_level width a type levs rows cols n hw (by omega) hsize hread d hbytes
      refine ⟨d1, ?_, by rw [hbytes1, hbytes], ?_, ?_⟩
      · rw [List.range_succ, List.foldlM_append, hd]
        simp only [Option.bind_eq_bind, Option.some_bind, List.foldlM_cons, List.foldlM_nil]
        rw [hd1]
        rfl
      · intro _ row col hr hc
        simpa using hval1 row col hr hc
      · intro o ho
        rw [hother1 o ho, hnone o ho]
  obtain ⟨flat, hflat, hbytes, hval, hnone⟩ := key levs (le_refl _)
  refine ⟨flat, ?_, hbytes, hval hlevs, hnone⟩
  simp only [convert_3d_to_1d, hmalloc]
  exact hflat

end Flatten3d

/-- The pair of lines 337-338 from the two axes. -/
lemma rescale_indices_of_index (ll_row ll_col row_count col_count ll_row_count ll_col_count : Int)
    (new_row new_col : Int)
    (hrow : rescale_index ll_row row_count ll_row_count = some new_row)
    (hcol : rescale_index ll_col col_count ll_col_count = some new_col) :
    rescale_indices ll_row ll_col row_count col_count ll_row_count ll_col_count =
      some (new_row, new_col) := by
  simp only [rescale_indices, hrow, hcol]

/-! ### The scan and the loop on floating-point values -/

lemma fp_lt_trans {a b c : Fp} (hab : Fp.lt a b = true) (hbc : Fp.lt b c = true) :
    Fp.lt a c = true := by
  cases a <;> cases b <;> cases c <;> simp only [Fp.lt, decide_eq_true_eq, Bool.and_eq_true,
    Bool.not_eq_true', Bool.false_eq_true] at hab hbc ⊢
  · exact lt_trans hab hbc
  all_goals first
    | exact hbc
    | exact hab
    | (obtain ⟨h1, h2⟩ := hab; obtain ⟨h3, h4⟩ := hbc; simp_all)
    | simp_all

lemma fp_lt_irrefl (a : Fp) : Fp.lt a a = false := by
  cases a <;> simp [Fp.lt]

section ScanDouble

variable (gc : Fp → Fp → Fp → Fp → Fp) (data_lat data_lon : Int → Int → Fp)
variable (target_lat target_lon : Fp)

lemma scan_grid_double_eq_foldl (rows cols : Int) (st : ScanState Fp) :
    scan_grid_double gc data_lat data_lon target_lat target_lon rows cols st =
      (grid_cells rows cols).foldl
        (fun s p => visit_cell_double gc data_lat data_lon target_lat target_lon p.1 p.2 s) st := by
  unfold scan_grid_double grid_cells
  generalize for_range rows = rs
  induction rs generalizing st with
  | nil => rfl
  | cons r rs ih =>
    simp only [List.foldl_cons, List.flatMap_cons, List.foldl_append, List.foldl_map]
    rw [ih]
    rfl

lemma visit_cell_double_invalid (row col : Int) (st : ScanState Fp)
    (h : ¬ cell_valid_double data_lat data_lon (row, col)) :
    visit_cell_double gc data_lat data_lon target_lat target_lon row col st = st := by
  unfold cell_valid_double at h
  simp only [visit_cell_double, if_neg h]

lemma visit_cell_double_closer (row col : Int) (st : ScanState Fp)
    (h : cell_valid_double data_lat data_lon (row, col))
    (hd : Fp.lt (cell_dist_double gc data_lat data_lon target_lat target_lon (row, col))
      st.closest = true) :
    visit_cell_double gc data_lat data_lon target_lat target_lon row col st =
      { closest := cell_dist_double gc data_lat data_lon target_lat target_lon (row, col),
        tmp_row := row, tmp_col := col } := by
  unfold cell_valid_double at h
  unfold cell_dist_double at hd
  simp only [visit_cell_double, if_pos h, hd, if_true, cell_dist_double]

lemma visit_cell_double_not_closer (row col : Int) (st : ScanState Fp)
    (hd : Fp.lt (cell_dist_double gc data_lat data_lon target_lat target_lon (row, col))
      st.closest = false) :
    visit_cell_double gc data_lat data_lon target_lat target_lon row col st = st := by
  unfold cell_dist_double at hd
  simp only [visit_cell_double, hd]
  split_ifs <;> first | rfl | simp_all

/-- What a scan of the cells `l` (pairwise ordered by `R`) started in `s0`
leaves in the state: no valid cell of `l` is closer than the final `closest`,
and either nothing was updated or the state holds the first cell of `l` among
those with the final distance. -/
lemma foldl_visit_double_spec (R : Int × Int → Int × Int → Prop) (s0 : ScanState Fp)
    (l : List (Int × Int)) (hl : l.Pairwise R) :
    (∀ p ∈ l, cell_valid_double data_lat data_lon p →
      Fp.lt (cell_dist_double gc data_lat data_lon target_lat target_lon p)
        (l.foldl (fun s p => visit_cell_double gc data_lat data_lon target_lat target_lon
          p.1 p.2 s) s0).closest = false) ∧
    ((l.foldl (fun s p => visit_cell_double gc data_lat data_lon target_lat target_lon p.1 p.2 s)
        s0 = s0)
      ∨ ∃ r c, l.foldl (fun s p => visit_cell_double gc data_lat data_lon target_lat target_lon
            p.1 p.2 s) s0 =
              { closest := cell_dist_double gc data_lat data_lon target_lat target_lon (r, c),
                tmp_row := r, tmp_col := c } ∧
          (r, c) ∈ l ∧ cell_valid_double data_lat data_lon (r, c) ∧
          Fp.lt (cell_dist_double gc data_lat data_lon target_lat target_lon (r, c))
            s0.closest = true ∧
          ∀ q ∈ l, cell_valid_double data_lat data_lon q →
            cell_dist_double gc data_lat data_lon target_lat target_lon q =
              cell_dist_double gc data_lat data_lon target_lat target_lon (r, c) →
            q = (r, c) ∨ R (r, c) q) := by
  induction l using List.reverseRecOn with
  | nil => exact ⟨by simp, Or.inl rfl⟩
  | append_singleton l p ih =>
    rw [List.pairwise_append] at hl
    obtain ⟨hl1, -, hlp⟩ := hl
    obtain ⟨ihlow, ihcase⟩ := ih hl1
    rw [List.foldl_append, List.foldl_cons, List.foldl_nil]
    set s := l.foldl
      (fun s p => visit_cell_double gc data_lat data_lon target_lat target_lon p.1 p.2 s) s0
      with hs
    have hle0 : ∀ d, Fp.lt d s.closest = true → Fp.lt d s0.closest = true := by
      intro d hd
      rcases ihcase with h | ⟨r, c, h, -, -, hlt, -⟩
      · rwa [h] at hd
      · rw [h] at hd; exact fp_lt_trans hd hlt
    by_cases hv : cell_valid_double data_lat data_lon (p.1, p.2)
    · by_cases hd : Fp.lt (cell_dist_double gc data_lat data_lon target_lat target_lon (p.1, p.2))
          s.closest = true
      · rw [visit_cell_double_closer gc data_lat data_lon target_lat target_lon p.1 p.2 s hv hd]
        refine ⟨?_, Or.inr ⟨p.1, p.2, rfl, by simp, hv, hle0 _ hd, ?_⟩⟩
        · intro q hq hqv
          rcases List.mem_append.mp hq with hq | hq
          · by_contra hcon
            have hlt := fp_lt_trans (Bool.eq_true_of_not_eq_false hcon) hd
            rw [ihlow q hq hqv] at hlt
            exact Bool.false_ne_true hlt
          · rw [List.mem_singleton.mp hq]; exact fp_lt_irrefl _
        · intro q hq hqv hqd
          rcases List.mem_append.mp hq with hq | hq
          · have h1 := ihlow q hq hqv
            rw [hqd, hd] at h1
            exact absurd h1 (by simp)
          · exact Or.inl (List.mem_singleton.mp hq)
      · have hd' := Bool.eq_false_of_not_eq_true hd
        rw [visit_cell_double_not_closer gc data_lat data_lon target_lat target_lon p.1 p.2 s hd']
        refine ⟨?_, ?_⟩
        · intro q hq hqv
          rcases List.mem_append.mp hq with hq | hq
          · exact ihlow q hq hqv
          · rw [List.mem_singleton.mp hq]; exact hd'
        · rcases ihcase with h | ⟨r, c, h, hmem, hrv, hlt, htie⟩
          · exact Or.inl h
          · refine Or.inr ⟨r, c, h, List.mem_append.mpr (Or.inl hmem), hrv, hlt, ?_⟩
            intro q hq hqv hqd
            rcases List.mem_append.mp hq with hq | hq
            · exact htie q hq hqv hqd
            · rw [List.mem_singleton.mp hq]
              exact Or.inr (hlp (r, c) hmem p (List.mem_singleton.mpr rfl))
    · rw [visit_cell_double_invalid gc data_lat data_lon target_lat target_lon p.1 p.2 s hv]
      refine ⟨?_, ?_⟩
      · intro q hq hqv
        rcases List.mem_append.mp hq with hq | hq
        · exact ihlow q hq hqv
        · rw [List.mem_singleton.mp hq] at hqv; exact absurd hqv hv
      · rcases ihcase with h | ⟨r, c, h, hmem, hrv, hlt, htie⟩
        · exact Or.inl h
        · refine Or.inr ⟨r, c, h, List.mem_append.mpr (Or.inl hmem), hrv, hlt, ?_⟩
          intro q hq hqv hqd
          rcases List.mem_append.mp hq with hq | hq
          · exact htie q hq hqv hqd
          · rw [List.mem_singleton.mp hq] at hqv; exact absurd hqv hv

/-- A scan that starts at a value no valid cell is closer than changes nothing. -/
lemma foldl_visit_double_fixed (s0 : ScanState Fp) (l : List (Int × Int))
    (h : ∀ p ∈ l, cell_valid_double data_lat data_lon p →
      Fp.lt (cell_dist_double gc data_lat data_lon target_lat target_lon p) s0.closest = false) :
    l.foldl (fun s p => visit_cell_double gc data_lat data_lon target_lat target_lon p.1 p.2 s) s0
      = s0 := by
  induction l with
  | nil => rfl
  | cons p l ih =>
    rw [List.foldl_cons]
    by_cases hv : cell_valid_double data_lat data_lon (p.1, p.2)
    · rw [visit_cell_double_not_closer gc data_lat data_lon target_lat target_lon p.1 p.2 s0
        (h p (List.mem_cons_self _ _) hv)]
      exact ih (fun q hq => h q (List.mem_cons_of_mem _ hq))
    · rw [visit_cell_double_invalid gc data_lat data_lon target_lat target_lon p.1 p.2 s0 hv]
      exact ih (fun q hq => h q (List.mem_cons_of_mem _ hq))

lemma search_loop_double_fixed (rows cols : Int) (closest : Fp) (closest_row closest_col : Int)
    (h : ∀ p ∈ grid_cells rows cols, cell_valid_double data_lat data_lon p →
      Fp.lt (cell_dist_double gc data_lat data_lon target_lat target_lon p) closest = false)
    (fuel : Nat) :
    search_loop_double gc data_lat data_lon target_lat target_lon rows cols (fuel + 1)
      closest closest_row closest_col = some (closest_row, closest_col, closest) := by
  rw [search_loop_double, scan_grid_double_eq_foldl,
    foldl_visit_double_fixed gc data_lat data_lon target_lat target_lon
      { closest := closest, tmp_row := closest_row, tmp_col := closest_col } _ h]
  simp

/-- When some valid cell is closer than `closest` and `closest_row` is not a
row of the grid, the loop stops after two executions of its body, with the
first cell among those no valid cell is closer than. -/
lemma search_loop_double_found (rows cols : Int) (closest : Fp) (closest_row closest_col : Int)
    (hrow : closest_row < 0)
    (h : ∃ p ∈ grid_cells rows cols, cell_valid_double data_lat data_lon p ∧
      Fp.lt (cell_dist_double gc data_lat data_lon target_lat target_lon p) closest = true) :
    ∃ r c, (r, c) ∈ grid_cells rows cols ∧ cell_valid_double data_lat data_lon (r, c) ∧
      Fp.lt (cell_dist_double gc data_lat data_lon target_lat target_lon (r, c)) closest = true ∧
      (∀ q ∈ grid_cells rows cols, cell_valid_double data_lat data_lon q →
        Fp.lt (cell_dist_double gc data_lat data_lon target_lat target_lon q)
          (cell_dist_double gc data_lat data_lon target_lat target_lon (r, c)) = false) ∧
      (∀ q ∈ grid_cells rows cols, cell_valid_double data_lat data_lon q →
        cell_dist_double gc data_lat data_lon target_lat target_lon q =
          cell_dist_double gc data_lat data_lon target_lat target_lon (r, c) →
        q = (r, c) ∨ row_major_lt (r, c) q) ∧
      search_loop_double gc data_lat data_lon target_lat target_lon rows cols 1
          closest closest_row closest_col = none ∧
      ∀ fuel, search_loop_double gc data_lat data_lon target_lat target_lon rows cols (fuel + 2)
          closest closest_row closest_col =
        some (r, c, cell_dist_double gc data_lat data_lon target_lat target_lon (r, c)) := by
  obtain ⟨hlow, hcase⟩ := foldl_visit_double_spec gc data_lat data_lon target_lat target_lon
    row_major_lt { closest := closest, tmp_row := closest_row, tmp_col := closest_col }
    (grid_cells rows cols) (grid_cells_pairwise rows cols)
  rcases hcase with hsame | ⟨r, c, hst, hmem, hv, hlt, htie⟩
  · obtain ⟨p, hp, hpv, hpd⟩ := h
    have := hlow p hp hpv
    rw [hsame, hpd] at this
    exact absurd this (by simp)
  · rw [hst] at hlow
    have hr0 : 0 ≤ r := ((mem_grid_cells rows cols (r, c)).mp hmem).1.1
    have hne : ¬ (closest_col = c ∧ closest_row = r) := by
      rintro ⟨-, rfl⟩
      exact absurd hrow (not_lt.mpr hr0)
    have hstep : ∀ fuel, search_loop_double gc data_lat data_lon target_lat target_lon rows cols
        (fuel + 1) closest closest_row closest_col =
        search_loop_double gc data_lat data_lon target_lat target_lon rows cols fuel
          (cell_dist_double gc data_lat data_lon target_lat target_lon (r, c)) r c := by
      intro fuel
      rw [search_loop_double, scan_grid_double_eq_foldl, hst]
      simp only [hne, if_false]
    refine ⟨r, c, hmem, hv, hlt, hlow, htie, ?_, ?_⟩
    · rw [hstep 0]; rfl
    · intro fuel
      rw [hstep (fuel + 1)]
      exact search_loop_double_fixed gc data_lat data_lon target_lat target_lon rows cols _ r c
        hlow fuel

end ScanDouble

/-! ### The binary exponent and the square root -/

lemma log2_steps_spec (fuel n : Nat) (h1 : 1 ≤ n) (hf : n ≤ fuel) :
    2 ^ log2_steps fuel n ≤ n ∧ n < 2 ^ (log2_steps fuel n + 1) := by
  induction fuel generalizing n with
  | zero => omega
  | succ fuel ih =>
    rw [log2_steps]
    by_cases h2 : n < 2
    · rw [if_pos h2]
      constructor
      · simpa using h1
      · simpa using h2
    · rw [if_neg h2]
      obtain ⟨ha, hb⟩ := ih (n / 2) (by omega) (by omega)
      rw [pow_succ, pow_succ]
      rw [pow_succ] at hb
      constructor <;> omega

lemma nat_log2_spec (n : Nat) (h1 : 1 ≤ n) :
    2 ^ nat_log2 n ≤ n ∧ n < 2 ^ (nat_log2 n + 1) :=
  log2_steps_spec n n h1 (le_refl n)

lemma binary_exponent_spec (q : ℚ) (hq : q ≠ 0) :
    (2 : ℚ) ^ binary_exponent q ≤ |q| ∧ |q| < (2 : ℚ) ^ (binary_exponent q + 1) := by
  have hn : 1 ≤ q.num.natAbs := Nat.one_le_iff_ne_zero.mpr (by simpa using hq)
  have hd : 1 ≤ q.den := q.den_pos
  obtain ⟨na, nb⟩ := nat_log2_spec _ hn
  obtain ⟨da, db⟩ := nat_log2_spec _ hd
  have habs : |q| = (q.num.natAbs : ℚ) / (q.den : ℚ) := by
    conv_lhs => rw [← Rat.num_div_den q]
    rw [abs_div, Nat.abs_cast, Nat.cast_natAbs, Int.cast_abs]
  set a := nat_log2 q.num.natAbs with ha
  set b := nat_log2 q.den with hb
  have hdpos : (0 : ℚ) < q.den := by exact_mod_cast q.den_pos
  have na' : (2 : ℚ) ^ a ≤ (q.num.natAbs : ℚ) := by exact_mod_cast na
  have nb' : (q.num.natAbs : ℚ) < (2 : ℚ) ^ (a + 1) := by exact_mod_cast nb
  have da' : (2 : ℚ) ^ b ≤ (q.den : ℚ) := by exact_mod_cast da
  have db' : (q.den : ℚ) < (2 : ℚ) ^ (b + 1) := by exact_mod_cast db
  have h2 : (0 : ℚ) < 2 := by norm_num
  have hk : ∀ j : ℤ, (2 : ℚ) ^ (((a : ℤ) - (b : ℤ)) + j) = 2 ^ a / 2 ^ b * 2 ^ j := by
    intro j
    rw [zpow_add₀ (by norm_num), zpow_sub₀ (by norm_num), zpow_natCast, zpow_natCast]
  have hb0 : (0 : ℚ) < 2 ^ b := by positivity
  unfold binary_exponent
  simp only
  rw [← ha, ← hb]
  split_ifs with hle
  · refine ⟨hle, ?_⟩
    rw [hk 1, habs, zpow_one, div_lt_iff₀ hdpos]
    calc (q.num.natAbs : ℚ) < 2 ^ (a + 1) := nb'
      _ = 2 ^ a / 2 ^ b * 2 * 2 ^ b := by rw [pow_succ]; field_simp
      _ ≤ 2 ^ a / 2 ^ b * 2 * q.den := by
          apply mul_le_mul_of_nonneg_left da'
          positivity
  · have e1 : ((a : ℤ) - (b : ℤ) - 1) = ((a : ℤ) - (b : ℤ)) + (-1) := by ring
    have e2 : ((a : ℤ) - (b : ℤ) - 1 + 1) = ((a : ℤ) - (b : ℤ)) := by ring
    rw [e2]
    refine ⟨?_, not_le.mp hle⟩
    rw [e1, hk (-1), habs, le_div_iff₀ hdpos]
    calc 2 ^ a / 2 ^ b * 2 ^ (-1 : ℤ) * (q.den : ℚ)
        ≤ 2 ^ a / 2 ^ b * 2 ^ (-1 : ℤ) * 2 ^ (b + 1) := by
          apply mul_le_mul_of_nonneg_left (le_of_lt db')
          positivity
      _ = 2 ^ a := by
          rw [pow_succ, zpow_neg_one]; field_simp
      _ ≤ (q.num.natAbs : ℚ) := na'

lemma gc_distance_double_nan (m : Libm) (lat_0 lon_0 lat_1 lon_1 : Fp)
    (hsin : m.sin Fp.nan = Fp.nan) (hpow : m.pow Fp.nan (Fp.fin 2) = Fp.nan)
    (hasin : m.asin Fp.nan = Fp.nan) (h : lat_1 = Fp.nan ∨ lon_1 = Fp.nan) :
    gc_distance_double m lat_0 lon_0 lat_1 lon_1 = Fp.nan := by
  have hmul : ∀ x, Fp.mul x Fp.nan = Fp.nan := by intro x; cases x <;> rfl
  have hadd : ∀ x, Fp.add x Fp.nan = Fp.nan := by intro x; cases x <;> rfl
  have ha : gc_a_double m lat_0 lon_0 lat_1 lon_1 = Fp.nan := by
    rcases h with h | h
    · subst h
      have e : ∀ x, Fp.sub (Fp.div (Fp.mul Fp.nan M_PI) (Fp.fin 180)) x = Fp.nan := fun _ => rfl
      simp only [gc_a_double, e]
      have e2 : Fp.div Fp.nan (Fp.fin 2) = Fp.nan := rfl
      rw [e2, hsin, hpow]
      rfl
    · subst h
      have e : ∀ x, Fp.sub (Fp.div (Fp.mul Fp.nan M_PI) (Fp.fin 180)) x = Fp.nan := fun _ => rfl
      simp only [gc_a_double, e]
      have e2 : Fp.div Fp.nan (Fp.fin 2) = Fp.nan := rfl
      rw [e2, hsin, hpow, hmul, hadd]
  simp only [gc_distance_double, ha]
  have e3 : Fp.sqrt Fp.nan = Fp.nan := rfl
  rw [e3, hasin]
  rfl

lemma fp_lt_nan_left (x : Fp) : Fp.lt Fp.nan x = false := by
  cases x <;> rfl

/-! ### The exact distances of the examples -/

lemma gc_distance_antipodal_lt :
    gc_distance (1 / 2 ^ 23) 180 0 0 < gc_distance 0 180 0 0 := by
  have hpi := Real.pi_pos
  have ha1 : gc_a 0 180 0 0 = 1 := by
    simp only [gc_a]
    have e1 : (0 : ℝ) * Real.pi / 180 - 180 * Real.pi / 180 = -Real.pi := by ring
    have e2 : -Real.pi / 2 = -(Real.pi / 2) := by ring
    simp [e1, e2]
  have ha2 : gc_a (1 / 2 ^ 23) 180 0 0 < 1 := by
    simp only [gc_a]
    set x : ℝ := 1 / 2 ^ 23 * Real.pi / 180 / 2 with hx
    have e0 : (1 : ℝ) / 2 ^ 23 * Real.pi / 180 = 2 * x := by rw [hx]; ring
    have e1 : ((0 : ℝ) * Real.pi / 180 - 2 * x) / 2 = -x := by ring
    have e2 : ((0 : ℝ) * Real.pi / 180 - 180 * Real.pi / 180) / 2 = -(Real.pi / 2) := by ring
    rw [e0, e1, e2]
    have hx0 : 0 < x := by rw [hx]; positivity
    have hxpi : x < Real.pi := by
      rw [hx]
      have : (1 : ℝ) / 2 ^ 23 * Real.pi / 180 / 2 = Real.pi * (1 / (2 ^ 23 * 360)) := by ring
      rw [this]
      have : (1 : ℝ) / (2 ^ 23 * 360) < 1 := by norm_num
      nlinarith
    have hs := Real.sin_pos_of_pos_of_lt_pi hx0 hxpi
    have hc := Real.cos_two_mul x
    have hsc := Real.sin_sq_add_cos_sq x
    simp only [Real.sin_neg, Real.sin_pi_div_two, zero_mul, zero_div, Real.cos_zero, mul_one,
      neg_sq, one_pow]
    rw [hc]
    nlinarith
  have h0 : 0 ≤ gc_a (1 / 2 ^ 23) 180 0 0 := (gc_a_nonneg_le_one _ _ _ _).1
  simp only [gc_distance]
  rw [ha1, Real.sqrt_one, Real.arcsin_one]
  have hsq : Real.sqrt (gc_a (1 / 2 ^ 23) 180 0 0) < 1 := by
    have := Real.sqrt_lt_sqrt h0 ha2
    rwa [Real.sqrt_one] at this
  have := Real.arcsin_lt_pi_div_two.mpr hsq
  linarith

lemma gc_distance_tie : gc_distance 1 20 2 20 = gc_distance 3 20 2 20 := by
  have ha : gc_a 1 20 2 20 = gc_a 3 20 2 20 := by
    simp only [gc_a]
    have e1 : ((2 : ℝ) * Real.pi / 180 - 1 * Real.pi / 180) / 2 = Real.pi / 360 := by ring
    have e2 : ((2 : ℝ) * Real.pi / 180 - 3 * Real.pi / 180) / 2 = -(Real.pi / 360) := by ring
    rw [e1, e2, Real.sin_neg, neg_sq]
    simp
  simp only [gc_distance, ha]

/-! ### An upper bound on the computed distance -/

lemma round_half_even_le_int (x : ℚ) (N : ℤ) (h : x ≤ N) : round_half_even x ≤ N := by
  rcases eq_or_lt_of_le h with he | hlt
  · rw [he, round_half_even_intCast]
  · have hf : ⌊x⌋ < N := Int.floor_lt.mpr hlt
    simp only [round_half_even]
    split_ifs <;> omega

lemma round_half_even_nonpos (x : ℚ) (h : x ≤ 0) : round_half_even x ≤ 0 := by
  have := round_half_even_le_int x 0 (by simpa using h)
  simpa using this

/-- Rounding to binary64 does not cross a power of two: a rational that is at
most `2^k` rounds to a number that is at most `2^k`, or to `-inf`. -/
lemma round_double_le_pow (q : ℚ) (k : ℤ) (hk1 : -1021 ≤ k) (hk2 : k ≤ 1023)
    (h : q ≤ 2 ^ k) :
    (∃ r, round_double q = Fp.fin r ∧ r ≤ 2 ^ k) ∨ round_double q = Fp.inf true := by
  have hpk : (0 : ℚ) < 2 ^ k := by positivity
  have hk1024 : (2 : ℚ) ^ k < 2 ^ (1024 : ℕ) := by
    rw [← zpow_natCast]
    exact (zpow_lt_zpow_iff_right₀ (by norm_num : (1 : ℚ) < 2)).mpr (by push_cast; omega)
  by_cases hq0 : q = 0
  · left
    exact ⟨0, by simp [round_double, hq0], le_of_lt hpk⟩
  simp only [round_double, if_neg hq0]
  set e := max (binary_exponent q) (-1022) with he
  set ulp : ℚ := 2 ^ (e - 52) with hulp
  have hulp_pos : 0 < ulp := by positivity
  set r : ℚ := round_half_even (q / ulp) * ulp with hr
  have hres : r ≤ 2 ^ k := by
    rcases lt_or_gt_of_ne hq0 with hneg | hpos
    · have h1 : q / ulp ≤ 0 := div_nonpos_of_nonpos_of_nonneg (le_of_lt hneg) (le_of_lt hulp_pos)
      have h2 : (round_half_even (q / ulp) : ℚ) ≤ 0 := by
        exact_mod_cast round_half_even_nonpos _ h1
      have : r ≤ 0 := mul_nonpos_of_nonpos_of_nonneg h2 (le_of_lt hulp_pos)
      linarith
    · obtain ⟨b1, b2⟩ := binary_exponent_spec q hq0
      rw [abs_of_pos hpos] at b1 b2
      have hbe : binary_exponent q ≤ k := by
        have : (2 : ℚ) ^ binary_exponent q ≤ 2 ^ k := le_trans b1 h
        exact (zpow_le_zpow_iff_right₀ (by norm_num : (1 : ℚ) < 2)).mp this
      have hek : e ≤ k + 52 := by
        rw [he]
        apply max_le <;> omega
      obtain ⟨j, hj⟩ : ∃ j : ℕ, (j : ℤ) = k - (e - 52) := ⟨(k - (e - 52)).toNat, by omega⟩
      have hN : (2 : ℚ) ^ k / ulp = ((2 ^ j : ℤ) : ℚ) := by
        rw [hulp, ← zpow_sub₀ (by norm_num : (2 : ℚ) ≠ 0), ← hj]
        push_cast
        rw [zpow_natCast]
      have hx : q / ulp ≤ ((2 ^ j : ℤ) : ℚ) := by
        rw [← hN]
        exact div_le_div_of_nonneg_right h (le_of_lt hulp_pos)
      have hround : (round_half_even (q / ulp) : ℚ) ≤ ((2 ^ j : ℤ) : ℚ) := by
        exact_mod_cast round_half_even_le_int _ _ hx
      calc r = round_half_even (q / ulp) * ulp := hr
        _ ≤ ((2 ^ j : ℤ) : ℚ) * ulp := mul_le_mul_of_nonneg_right hround (le_of_lt hulp_pos)
        _ = 2 ^ k := by rw [← hN]; field_simp
  split_ifs with hover
  · right
    have hneg : q < 0 := by
      by_contra hcon
      have hq : 0 < q := lt_of_le_of_ne (not_lt.mp hcon) (Ne.symm hq0)
      have h1 : 0 ≤ q / ulp := div_nonneg (le_of_lt hq) (le_of_lt hulp_pos)
      have h2 : (0 : ℚ) ≤ round_half_even (q / ulp) := by
        exact_mod_cast round_half_even_nonneg _ h1
      have h3 : 0 ≤ r := mul_nonneg h2 (le_of_lt hulp_pos)
      rw [abs_of_nonneg h3] at hover
      have : (2 : ℚ) ^ (1024 : ℕ) ≤ 2 ^ k := le_trans hover hres
      linarith
    simp [hneg]
  · left
    exact ⟨r, rfl, hres⟩

/-- When `asin` returns NaN or a value that is not above 2 (its range is
`[-pi/2, pi/2]`), the computed distance is NaN or below 99999. -/
lemma gc_distance_double_lt_sentinel (m : Libm)
    (hasin : ∀ x, m.asin x = Fp.nan ∨ Fp.lt (Fp.fin 2) (m.asin x) = false)
    (lat_0 lon_0 lat_1 lon_1 : Fp) :
    gc_distance_double m lat_0 lon_0 lat_1 lon_1 = Fp.nan ∨
      Fp.lt (gc_distance_double m lat_0 lon_0 lat_1 lon_1) (Fp.fin 99999) = true := by
  simp only [gc_distance_double]
  generalize Fp.sqrt (gc_a_double m lat_0 lon_0 lat_1 lon_1) = s
  have hle : m.asin s = Fp.nan ∨ Fp.lt (Fp.fin 2) (m.asin s) = false := hasin s
  cases hy : m.asin s with
  | nan => left; rfl
  | inf neg =>
    right
    rw [hy] at hle
    cases neg with
    | false => simp [Fp.lt] at hle
    | true => decide
  | fin q =>
    right
    rw [hy] at hle
    have hq : q ≤ 2 := by
      rcases hle with hle | hle
      · exact absurd hle (by simp)
      · simp only [Fp.lt, decide_eq_false_iff_not, not_lt] at hle
        exact hle
    have h4 : (2 : ℚ) * q ≤ 2 ^ (2 : ℤ) := by norm_num; linarith
    show Fp.lt (Fp.mul (round_double (2 * q)) (Fp.fin 6367)) (Fp.fin 99999) = true
    rcases round_double_le_pow (2 * q) 2 (by norm_num) (by norm_num) h4 with ⟨r, hr, hr4⟩ | hinf
    · rw [hr]
      show Fp.lt (round_double (r * 6367)) (Fp.fin 99999) = true
      have h15 : r * 6367 ≤ 2 ^ (15 : ℤ) := by
        have : r ≤ 4 := by norm_num at hr4; exact hr4
        norm_num
        linarith
      rcases round_double_le_pow (r * 6367) 15 (by norm_num) (by norm_num) h15 with
        ⟨d, hd, hd15⟩ | hinf
      · rw [hd]
        simp only [Fp.lt, decide_eq_true_eq]
        have : (2 : ℚ) ^ (15 : ℤ) < 99999 := by norm_num
        linarith
      · rw [hinf]; rfl
    · rw [hinf]; decide

lemma lookup_le (t : List (ℚ × ℚ)) (B : ℚ) (h : ∀ p ∈ t, p.2 ≤ B) (q v : ℚ)
    (hv : t.lookup q = some v) : v ≤ B := by
  induction t with
  | nil => simp at hv
  | cons p t ih =>
    obtain ⟨k, w⟩ := p
    rw [List.lookup_cons] at hv
    cases hk : (q == k) with
    | true =>
      rw [hk] at hv
      simp only [Option.some.injEq] at hv
      rw [← hv]
      exact h (k, w) (List.mem_cons_self _ _)
    | false =>
      rw [hk] at hv
      exact ih (fun p hp => h p (List.mem_cons_of_mem _ hp)) hv

/-- A tabulated function whose values are at most `B` returns NaN or a value
that is not above `B`. -/
lemma table_value_range (t : List (ℚ × ℚ)) (B : ℚ) (h : ∀ p ∈ t, p.2 ≤ B) (x : Fp) :
    table_value t x = Fp.nan ∨ Fp.lt (Fp.fin B) (table_value t x) = false := by
  cases x with
  | nan => left; rfl
  | inf s => left; rfl
  | fin q =>
    cases hl : t.lookup q with
    | none => left; simp only [table_value, hl]
    | some v =>
      right
      simp only [table_value, hl, Fp.lt, decide_eq_false_iff_not, not_lt]
      exact lookup_le t B h q v hl

/-- The `asin` of `example_libm` returns NaN or a value that is not above 2. -/
lemma example_libm_asin_range (x : Fp) :
    example_libm.asin x = Fp.nan ∨ Fp.lt (Fp.fin 2) (example_libm.asin x) = false := by
  apply table_value_range
  decide!

/-! ### The result of the search on floating-point values -/

lemma get_indices_double_of_search (gc : Fp → Fp → Fp → Fp → Fp)
    (data_lat data_lon : Int → Int → Fp) (target_lat target_lon : Fp) (rows cols : Int)
    (fuel : Nat) (row col : Int) (closest : Fp)
    (h : search_loop_double gc data_lat data_lon target_lat target_lon rows cols fuel
      (Fp.fin 99999) (-9999) (-9999) = some (row, col, closest)) :
    get_indices_from_lat_long_double gc data_lat data_lon target_lat target_lon rows cols fuel =
      (Fp.to_int closest).map (fun d => (row, col, d)) := by
  rw [get_indices_from_lat_long_double, h]
  show (match Fp.to_int closest with
    | none => none
    | some d => some (row, col, d)) = _
  cases Fp.to_int closest <;> rfl

/-- The conversion to `int` of a distance between 0 and 99999. -/
lemma to_int_of_nonneg (q : ℚ) (h0 : 0 ≤ q) (h1 : q < 99999) :
    Fp.to_int (Fp.fin q) = some ⌊q⌋ := by
  have hf0 : 0 ≤ ⌊q⌋ := Int.floor_nonneg.mpr h0
  have hf1 : ⌊q⌋ < 99999 := Int.floor_lt.mpr (by exact_mod_cast h1)
  have hr : -2 ^ 31 ≤ ⌊q⌋ ∧ ⌊q⌋ < 2 ^ 31 := by constructor <;> omega
  simp only [Fp.to_int, double_to_int, if_pos h0, if_pos hr]

lemma exists_candidate_double (gc : Fp → Fp → Fp → Fp → Fp)
    (data_lat data_lon : Int → Int → Fp) (target_lat target_lon : Fp) (rows cols : Int) :
    (∃ r c, (0 ≤ r ∧ r < rows) ∧ (0 ≤ c ∧ c < cols) ∧
      Fp.lt (Fp.fin (-9999)) (data_lat r c) = true ∧
      Fp.lt (Fp.fin (-9999)) (data_lon r c) = true ∧
      Fp.lt (gc (data_lat r c) (data_lon r c) target_lat target_lon) (Fp.fin 99999) = true) ↔
    ∃ p ∈ grid_cells rows cols, cell_valid_double data_lat data_lon p ∧
      Fp.lt (cell_dist_double gc data_lat data_lon target_lat target_lon p) (Fp.fin 99999) = true := by
  constructor
  · rintro ⟨r, c, hr, hc, h1, h2, h3⟩
    exact ⟨(r, c), (mem_grid_cells rows cols (r, c)).mpr ⟨hr, hc⟩, ⟨h1, h2⟩, h3⟩
  · rintro ⟨p, hp, hv, hd⟩
    have hin := (mem_grid_cells rows cols p).mp hp
    exact ⟨p.1, p.2, hin.1, hin.2, hv.1, hv.2, hd⟩

/-! ### The search with distances computed exactly -/

/-- With the distances computed exactly (`gc_distance` over the reals), on a
grid with at least one valid cell the search returns, given fuel for two
executions of the loop body, the index of a valid in-range cell whose
great-circle distance to the target is at most that of every valid cell. -/
lemma nearest_is_global_minimum_exact (data_lat data_lon : Int → Int → ℝ)
    (target_lat target_lon : ℝ) (rows cols : Int)
    (hvalid : ∃ r c, (0 ≤ r ∧ r < rows) ∧ (0 ≤ c ∧ c < cols) ∧
      data_lat r c > -9999 ∧ data_lon r c > -9999)
    (fuel : Nat) (hfuel : 2 ≤ fuel) :
    ∃ row col d,
      get_indices_from_lat_long gc_distance data_lat data_lon target_lat target_lon
        rows cols fuel = some (row, col, d) ∧
      (0 ≤ row ∧ row < rows) ∧ (0 ≤ col ∧ col < cols) ∧
      data_lat row col > -9999 ∧ data_lon row col > -9999 ∧
      ∀ r c, 0 ≤ r ∧ r < rows → 0 ≤ c ∧ c < cols →
        data_lat r c > -9999 → data_lon r c > -9999 →
        gc_distance (data_lat row col) (data_lon row col) target_lat target_lon ≤
          gc_distance (data_lat r c) (data_lon r c) target_lat target_lon := by
  obtain ⟨row, col, hmem, hv, -, hmin, -, -, -, hres⟩ :=
    get_indices_candidate gc_distance data_lat data_lon target_lat target_lon rows cols
      (exists_candidate_of_valid data_lat data_lon target_lat target_lon rows cols hvalid)
  obtain ⟨k, rfl⟩ := Nat.exists_eq_add_of_le hfuel
  have hin := (mem_grid_cells rows cols (row, col)).mp hmem
  refine ⟨row, col, _, by rw [Nat.add_comm]; exact hres k, hin.1, hin.2, hv.1, hv.2, ?_⟩
  intro r c hr hc hlat hlon
  exact hmin (r, c) ((mem_grid_cells rows cols (r, c)).mpr ⟨hr, hc⟩) ⟨hlat, hlon⟩

/-- With the distances computed exactly, the cell the search returns has the
smallest row-major position `row * cols + col` among the valid cells at minimum
great-circle distance. -/
lemma nearest_tie_first_row_major_exact (data_lat data_lon : Int → Int → ℝ)
    (target_lat target_lon : ℝ) (rows cols : Int)
    (hvalid : ∃ r c, (0 ≤ r ∧ r < rows) ∧ (0 ≤ c ∧ c < cols) ∧
      data_lat r c > -9999 ∧ data_lon r c > -9999)
    (fuel : Nat) (hfuel : 2 ≤ fuel) :
    ∃ row col d,
      get_indices_from_lat_long gc_distance data_lat data_lon target_lat target_lon
        rows cols fuel = some (row, col, d) ∧
      (0 ≤ row ∧ row < rows) ∧ (0 ≤ col ∧ col < cols) ∧
      (data_lat row col > -9999 ∧ data_lon row col > -9999) ∧
      (∀ r c, 0 ≤ r ∧ r < rows → 0 ≤ c ∧ c < cols →
        data_lat r c > -9999 → data_lon r c > -9999 →
        gc_distance (data_lat row col) (data_lon row col) target_lat target_lon ≤
          gc_distance (data_lat r c) (data_lon r c) target_lat target_lon) ∧
      ∀ r c, 0 ≤ r ∧ r < rows → 0 ≤ c ∧ c < cols →
        data_lat r c > -9999 → data_lon r c > -9999 →
        gc_distance (data_lat r c) (data_lon r c) target_lat target_lon =
          gc_distance (data_lat row col) (data_lon row col) target_lat target_lon →
        row * cols + col ≤ r * cols + c := by
  obtain ⟨row, col, hmem, hv, -, hmin, htie, -, -, hres⟩ :=
    get_indices_candidate gc_distance data_lat data_lon target_lat target_lon rows cols
      (exists_candidate_of_valid data_lat data_lon target_lat target_lon rows cols hvalid)
  obtain ⟨k, rfl⟩ := Nat.exists_eq_add_of_le hfuel
  have hin := (mem_grid_cells rows cols (row, col)).mp hmem
  refine ⟨row, col, _, by rw [Nat.add_comm]; exact hres k, hin.1, hin.2, hv, ?_, ?_⟩
  · intro r c hr hc hlat hlon
    exact hmin (r, c) ((mem_grid_cells rows cols (r, c)).mpr ⟨hr, hc⟩) ⟨hlat, hlon⟩
  · intro r c hr hc hlat hlon hd
    exact row_major_key_le cols (row, col) (r, c) hin.2.1 hin.2.2 hc.1
      (htie (r, c) ((mem_grid_cells rows cols (r, c)).mpr ⟨hr, hc⟩) ⟨hlat, hlon⟩ hd)

/-- Over the reals the quantity `a` of line 86 lies in `[0, 1]`, hence so does
its square root, and the sine of half the central angle `c / 2` is that root. -/
lemma gc_a_in_unit_interval_exact (lat_0 lon_0 lat_1 lon_1 : ℝ) :
    (0 ≤ gc_a lat_0 lon_0 lat_1 lon_1 ∧ gc_a lat_0 lon_0 lat_1 lon_1 ≤ 1) ∧
    (0 ≤ Real.sqrt (gc_a lat_0 lon_0 lat_1 lon_1) ∧
      Real.sqrt (gc_a lat_0 lon_0 lat_1 lon_1) ≤ 1) ∧
    Real.sin (gc_distance lat_0 lon_0 lat_1 lon_1 / 6367 / 2) =
      Real.sqrt (gc_a lat_0 lon_0 lat_1 lon_1) := by
  obtain ⟨h0, h1⟩ := gc_a_nonneg_le_one lat_0 lon_0 lat_1 lon_1
  have hs0 : 0 ≤ Real.sqrt (gc_a lat_0 lon_0 lat_1 lon_1) := Real.sqrt_nonneg _
  have hs1 : Real.sqrt (gc_a lat_0 lon_0 lat_1 lon_1) ≤ 1 := by
    have h := Real.sqrt_le_sqrt h1
    rwa [Real.sqrt_one] at h
  refine ⟨⟨h0, h1⟩, ⟨hs0, hs1⟩, ?_⟩
  have hc : gc_distance lat_0 lon_0 lat_1 lon_1 / 6367 / 2 =
      Real.arcsin (Real.sqrt (gc_a lat_0 lon_0 lat_1 lon_1)) := by
    simp only [gc_distance]
    field_simp
  rw [hc, Real.sin_arcsin (by linarith) hs1]

/-- With the distances computed exactly, the index the search returns lies
inside the grid if and only if the grid has at least one valid cell: every
great-circle distance is below the initial 99999. -/
lemma index_in_grid_iff_valid_cell_exact (data_lat data_lon : Int → Int → ℝ)
    (target_lat target_lon : ℝ) (rows cols : Int) (fuel : Nat) (hfuel : 2 ≤ fuel) :
    (∃ row col d,
      get_indices_from_lat_long gc_distance data_lat data_lon target_lat target_lon
        rows cols fuel = some (row, col, d) ∧
      (((0 ≤ row ∧ row < rows) ∧ (0 ≤ col ∧ col < cols)) ↔
        ∃ r c, (0 ≤ r ∧ r < rows) ∧ (0 ≤ c ∧ c < cols) ∧
          data_lat r c > -9999 ∧ data_lon r c > -9999)) ∧
    ∀ r c, gc_distance (data_lat r c) (data_lon r c) target_lat target_lon < 99999 := by
  refine ⟨?_, fun r c => gc_distance_lt_sentinel _ _ _ _⟩
  obtain ⟨k, rfl⟩ := Nat.exists_eq_add_of_le hfuel
  by_cases hvalid : ∃ r c, (0 ≤ r ∧ r < rows) ∧ (0 ≤ c ∧ c < cols) ∧
      data_lat r c > -9999 ∧ data_lon r c > -9999
  · obtain ⟨row, col, hmem, -, -, -, -, -, -, hres⟩ :=
      get_indices_candidate gc_distance data_lat data_lon target_lat target_lon rows cols
        (exists_candidate_of_valid data_lat data_lon target_lat target_lon rows cols hvalid)
    have hin := (mem_grid_cells rows cols (row, col)).mp hmem
    exact ⟨row, col, _, by rw [Nat.add_comm]; exact hres k, fun _ => hvalid, fun _ => hin⟩
  · have hno : ∀ p ∈ grid_cells rows cols, cell_valid data_lat data_lon p →
        99999 ≤ cell_dist gc_distance data_lat data_lon target_lat target_lon p := by
      intro p hp hv
      exact absurd ⟨p.1, p.2, ((mem_grid_cells rows cols p).mp hp).1,
        ((mem_grid_cells rows cols p).mp hp).2, hv.1, hv.2⟩ hvalid
    refine ⟨-9999, -9999, 99999, ?_, ?_⟩
    · have := get_indices_no_candidate gc_distance data_lat data_lon target_lat target_lon
        rows cols hno (k + 1)
      rw [Nat.add_comm 2 k]
      exact this
    · constructor
      · rintro ⟨⟨h0, -⟩, -⟩
        exact absurd h0 (by norm_num)
      · intro h
        exact absurd h hvalid

/-! ### The example run of the driver -/

/-- The run of the example: exit status 0 and the output `example_stdout`. -/
lemma example_run : main example_gc example_reader example_argv 2 = some (0, example_stdout) := by
  decide!

/-! ## Theorems for the claims -/

/-- C1, amended: on a grid with a valid cell whose distance, as `gc_distance`
computes it in binary64 with the C library `m`, is below 99999 (so is not NaN),
`get_indices_from_lat_long` stops after two executions of the loop body with
the index of a valid in-range cell, and no valid cell of the grid has a
smaller computed distance.  The third component is the computed distance of
that cell converted to `int`: its integral part when the distance is not
negative. -/
theorem nearest_minimises_computed_distance (m : Libm) (data_lat data_lon : Int → Int → Fp)
    (target_lat target_lon : Fp) (rows cols : Int)
    (hvalid : ∃ r c, (0 ≤ r ∧ r < rows) ∧ (0 ≤ c ∧ c < cols) ∧
      Fp.lt (Fp.fin (-9999)) (data_lat r c) = true ∧
      Fp.lt (Fp.fin (-9999)) (data_lon r c) = true ∧
      Fp.lt (gc_distance_double m (data_lat r c) (data_lon r c) target_lat target_lon)
        (Fp.fin 99999) = true)
    (fuel : Nat) (hfuel : 2 ≤ fuel) :
    ∃ row col,
      search_loop_double (gc_distance_double m) data_lat data_lon target_lat target_lon
        rows cols fuel (Fp.fin 99999) (-9999) (-9999) =
          some (row, col,
            gc_distance_double m (data_lat row col) (data_lon row col) target_lat target_lon) ∧
      get_indices_from_lat_long_double (gc_distance_double m) data_lat data_lon
        target_lat target_lon rows cols fuel =
          (Fp.to_int (gc_distance_double m (data_lat row col) (data_lon row col)
            target_lat target_lon)).map (fun d => (row, col, d)) ∧
      (∀ q, gc_distance_double m (data_lat row col) (data_lon row col) target_lat target_lon
          = Fp.fin q → 0 ≤ q →
        get_indices_from_lat_long_double (gc_distance_double m) data_lat data_lon
          target_lat target_lon rows cols fuel = some (row, col, ⌊q⌋)) ∧
      (0 ≤ row ∧ row < rows) ∧ (0 ≤ col ∧ col < cols) ∧
      Fp.lt (Fp.fin (-9999)) (data_lat row col) = true ∧
      Fp.lt (Fp.fin (-9999)) (data_lon row col) = true ∧
      ∀ r c, 0 ≤ r ∧ r < rows → 0 ≤ c ∧ c < cols →
        Fp.lt (Fp.fin (-9999)) (data_lat r c) = true →
        Fp.lt (Fp.fin (-9999)) (data_lon r c) = true →
        Fp.lt (gc_distance_double m (data_lat r c) (data_lon r c) target_lat target_lon)
          (gc_distance_double m (data_lat row col) (data_lon row col) target_lat target_lon)
          = false := by
  obtain ⟨row, col, hmem, hv, hlt, hmin, -, -, hres⟩ :=
    search_loop_double_found (gc_distance_double m) data_lat data_lon target_lat target_lon
      rows cols (Fp.fin 99999) (-9999) (-9999) (by norm_num)
      ((exists_candidate_double _ data_lat data_lon target_lat target_lon rows cols).mp hvalid)
  obtain ⟨k, rfl⟩ := Nat.exists_eq_add_of_le hfuel
  have hin := (mem_grid_cells rows cols (row, col)).mp hmem
  have hs := hres k
  rw [Nat.add_comm] at hs
  have hg := get_indices_double_of_search _ _ _ _ _ _ _ _ _ _ _ hs
  refine ⟨row, col, hs, hg, ?_, hin.1, hin.2, hv.1, hv.2, ?_⟩
  · intro q hq h0
    rw [hg]
    simp only [cell_dist_double] at hlt ⊢
    rw [hq] at hlt ⊢
    have h1 : q < 99999 := by simpa [Fp.lt] using hlt
    rw [to_int_of_nonneg q h0 h1]
    rfl
  · intro r c hr hc hlat hlon
    exact hmin (r, c) ((mem_grid_cells rows cols (r, c)).mpr ⟨hr, hc⟩) ⟨hlat, hlon⟩

/-- Witness for the amended C1: the 1 x 2 grid with latitudes 1 and 3 at
longitude 20, target (2, 20); the search returns column 1. -/
theorem nearest_minimises_computed_distance_witness :
    ∃ row col,
      search_loop_double (gc_distance_double example_libm) example_tie_lat
        (fun _ _ => Fp.fin 20) (Fp.fin 2) (Fp.fin 20) 1 2 2 (Fp.fin 99999) (-9999) (-9999) =
          some (row, col,
            gc_distance_double example_libm (example_tie_lat row col)
              ((fun _ _ => Fp.fin 20) row col) (Fp.fin 2) (Fp.fin 20)) ∧
      get_indices_from_lat_long_double (gc_distance_double example_libm) example_tie_lat
        (fun _ _ => Fp.fin 20) (Fp.fin 2) (Fp.fin 20) 1 2 2 =
          (Fp.to_int (gc_distance_double example_libm (example_tie_lat row col)
            ((fun _ _ => Fp.fin 20) row col) (Fp.fin 2) (Fp.fin 20))).map
              (fun d => (row, col, d)) ∧
      (∀ q, gc_distance_double example_libm (example_tie_lat row col)
            ((fun _ _ => Fp.fin 20) row col) (Fp.fin 2) (Fp.fin 20) = Fp.fin q → 0 ≤ q →
        get_indices_from_lat_long_double (gc_distance_double example_libm) example_tie_lat
          (fun _ _ => Fp.fin 20) (Fp.fin 2) (Fp.fin 20) 1 2 2 = some (row, col, ⌊q⌋)) ∧
      (0 ≤ row ∧ row < 1) ∧ (0 ≤ col ∧ col < 2) ∧
      Fp.lt (Fp.fin (-9999)) (example_tie_lat row col) = true ∧
      Fp.lt (Fp.fin (-9999)) ((fun _ _ => Fp.fin 20) row col) = true ∧
      ∀ r c, 0 ≤ r ∧ r < (1 : Int) → 0 ≤ c ∧ c < (2 : Int) →
        Fp.lt (Fp.fin (-9999)) (example_tie_lat r c) = true →
        Fp.lt (Fp.fin (-9999)) ((fun _ _ => Fp.fin 20) r c) = true →
        Fp.lt (gc_distance_double example_libm (example_tie_lat r c)
            ((fun _ _ => Fp.fin 20) r c) (Fp.fin 2) (Fp.fin 20))
          (gc_distance_double example_libm (example_tie_lat row col)
            ((fun _ _ => Fp.fin 20) row col) (Fp.fin 2) (Fp.fin 20)) = false :=
  nearest_minimises_computed_distance example_libm example_tie_lat (fun _ _ => Fp.fin 20)
    (Fp.fin 2) (Fp.fin 20) 1 2
    ⟨0, 0, by decide, by decide, by decide!, by decide!, by decide!⟩ 2 (le_refl 2)

/-- C1, as stated, fails: on the 2 x 1 grid with the cells (0, 180) and
(2^(-23), 180) and the target (0, 0), both cells are valid and the code
computes the same distance for both, so `get_indices_from_lat_long` returns row
0; the great-circle distance of row 1 to the target is strictly smaller than
that of row 0. -/
theorem nearest_exact_distance_counterexample :
    get_indices_from_lat_long_double (gc_distance_double example_libm) example_antipodal_lat
      (fun _ _ => Fp.fin 180) (Fp.fin 0) (Fp.fin 0) 2 1 2 = some (0, 0, 20002) ∧
    (Fp.lt (Fp.fin (-9999)) (example_antipodal_lat 1 0) = true ∧
      Fp.lt (Fp.fin (-9999)) ((fun _ _ => Fp.fin 180) (1 : Int) (0 : Int)) = true) ∧
    gc_distance_double example_libm (example_antipodal_lat 0 0) (Fp.fin 180) (Fp.fin 0) (Fp.fin 0) =
      gc_distance_double example_libm (example_antipodal_lat 1 0) (Fp.fin 180) (Fp.fin 0)
        (Fp.fin 0) ∧
    example_antipodal_lat 0 0 = Fp.fin 0 ∧ example_antipodal_lat 1 0 = Fp.fin (1 / 2 ^ 23) ∧
    gc_distance (1 / 2 ^ 23) 180 0 0 < gc_distance 0 180 0 0 :=
  ⟨by decide!, ⟨by decide!, by decide!⟩, by decide!, by decide!, by decide!,
    gc_distance_antipodal_lt⟩

/-- C2, amended: under the hypotheses of the amended C1, the returned cell is
the first in row-major order among the valid cells with the same computed
distance: it has the smallest `row * cols + col` among them. -/
theorem first_among_equal_computed_distances (m : Libm) (data_lat data_lon : Int → Int → Fp)
    (target_lat target_lon : Fp) (rows cols : Int)
    (hvalid : ∃ r c, (0 ≤ r ∧ r < rows) ∧ (0 ≤ c ∧ c < cols) ∧
      Fp.lt (Fp.fin (-9999)) (data_lat r c) = true ∧
      Fp.lt (Fp.fin (-9999)) (data_lon r c) = true ∧
      Fp.lt (gc_distance_double m (data_lat r c) (data_lon r c) target_lat target_lon)
        (Fp.fin 99999) = true)
    (fuel : Nat) (hfuel : 2 ≤ fuel) :
    ∃ row col,
      search_loop_double (gc_distance_double m) data_lat data_lon target_lat target_lon
        rows cols fuel (Fp.fin 99999) (-9999) (-9999) =
          some (row, col,
            gc_distance_double m (data_lat row col) (data_lon row col) target_lat target_lon) ∧
      get_indices_from_lat_long_double (gc_distance_double m) data_lat data_lon
        target_lat target_lon rows cols fuel =
          (Fp.to_int (gc_distance_double m (data_lat row col) (data_lon row col)
            target_lat target_lon)).map (fun d => (row, col, d)) ∧
      (0 ≤ row ∧ row < rows) ∧ (0 ≤ col ∧ col < cols) ∧
      (∀ r c, 0 ≤ r ∧ r < rows → 0 ≤ c ∧ c < cols →
        Fp.lt (Fp.fin (-9999)) (data_lat r c) = true →
        Fp.lt (Fp.fin (-9999)) (data_lon r c) = true →
        Fp.lt (gc_distance_double m (data_lat r c) (data_lon r c) target_lat target_lon)
          (gc_distance_double m (data_lat row col) (data_lon row col) target_lat target_lon)
          = false) ∧
      ∀ r c, 0 ≤ r ∧ r < rows → 0 ≤ c ∧ c < cols →
        Fp.lt (Fp.fin (-9999)) (data_lat r c) = true →
        Fp.lt (Fp.fin (-9999)) (data_lon r c) = true →
        gc_distance_double m (data_lat r c) (data_lon r c) target_lat target_lon =
          gc_distance_double m (data_lat row col) (data_lon row col) target_lat target_lon →
        row * cols + col ≤ r * cols + c := by
  obtain ⟨row, col, hmem, -, -, hmin, htie, -, hres⟩ :=
    search_loop_double_found (gc_distance_double m) data_lat data_lon target_lat target_lon
      rows cols (Fp.fin 99999) (-9999) (-9999) (by norm_num)
      ((exists_candidate_double _ data_lat data_lon target_lat target_lon rows cols).mp hvalid)
  obtain ⟨k, rfl⟩ := Nat.exists_eq_add_of_le hfuel
  have hin := (mem_grid_cells rows cols (row, col)).mp hmem
  have hs := hres k
  rw [Nat.add_comm] at hs
  refine ⟨row, col, hs, get_indices_double_of_search _ _ _ _ _ _ _ _ _ _ _ hs,
    hin.1, hin.2, ?_, ?_⟩
  · intro r c hr hc hlat hlon
    exact hmin (r, c) ((mem_grid_cells rows cols (r, c)).mpr ⟨hr, hc⟩) ⟨hlat, hlon⟩
  · intro r c hr hc hlat hlon hd
    exact row_major_key_le cols (row, col) (r, c) hin.2.1 hin.2.2 hc.1
      (htie (r, c) ((mem_grid_cells rows cols (r, c)).mpr ⟨hr, hc⟩) ⟨hlat, hlon⟩ hd)

/-- Witness for the amended C2: the 2 x 1 grid with the cells (0, 180) and
(2^(-23), 180), target (0, 0): both computed distances are equal and row 0 is
returned. -/
theorem first_among_equal_computed_distances_witness :
    ∃ row col,
      search_loop_double (gc_distance_double example_libm) example_antipodal_lat
        (fun _ _ => Fp.fin 180) (Fp.fin 0) (Fp.fin 0) 2 1 2 (Fp.fin 99999) (-9999) (-9999) =
          some (row, col,
            gc_distance_double example_libm (example_antipodal_lat row col)
              ((fun _ _ => Fp.fin 180) row col) (Fp.fin 0) (Fp.fin 0)) ∧
      get_indices_from_lat_long_double (gc_distance_double example_libm) example_antipodal_lat
        (fun _ _ => Fp.fin 180) (Fp.fin 0) (Fp.fin 0) 2 1 2 =
          (Fp.to_int (gc_distance_double example_libm (example_antipodal_lat row col)
            ((fun _ _ => Fp.fin 180) row col) (Fp.fin 0) (Fp.fin 0))).map
              (fun d => (row, col, d)) ∧
      (0 ≤ row ∧ row < 2) ∧ (0 ≤ col ∧ col < 1) ∧
      (∀ r c, 0 ≤ r ∧ r < (2 : Int) → 0 ≤ c ∧ c < (1 : Int) →
        Fp.lt (Fp.fin (-9999)) (example_antipodal_lat r c) = true →
        Fp.lt (Fp.fin (-9999)) ((fun _ _ => Fp.fin 180) r c) = true →
        Fp.lt (gc_distance_double example_libm (example_antipodal_lat r c)
            ((fun _ _ => Fp.fin 180) r c) (Fp.fin 0) (Fp.fin 0))
          (gc_distance_double example_libm (example_antipodal_lat row col)
            ((fun _ _ => Fp.fin 180) row col) (Fp.fin 0) (Fp.fin 0)) = false) ∧
      ∀ r c, 0 ≤ r ∧ r < (2 : Int) → 0 ≤ c ∧ c < (1 : Int) →
        Fp.lt (Fp.fin (-9999)) (example_antipodal_lat r c) = true →
        Fp.lt (Fp.fin (-9999)) ((fun _ _ => Fp.fin 180) r c) = true →
        gc_distance_double example_libm (example_antipodal_lat r c)
            ((fun _ _ => Fp.fin 180) r c) (Fp.fin 0) (Fp.fin 0) =
          gc_distance_double example_libm (example_antipodal_lat row col)
            ((fun _ _ => Fp.fin 180) row col) (Fp.fin 0) (Fp.fin 0) →
        row * 1 + col ≤ r * 1 + c :=
  first_among_equal_computed_distances example_libm example_antipodal_lat
    (fun _ _ => Fp.fin 180) (Fp.fin 0) (Fp.fin 0) 2 1
    ⟨0, 0, by decide, by decide, by decide!, by decide!, by decide!⟩ 2 (le_refl 2)

/-- C2, as stated, fails: on the 1 x 2 grid with latitudes 1 and 3 at longitude
20 and the target (2, 20), both cells are valid and at the same great-circle
distance from the target, and the first of them in row-major order is column 0;
the code computes a strictly smaller distance for column 1 and
`get_indices_from_lat_long` returns column 1. -/
theorem tie_first_row_major_counterexample :
    get_indices_from_lat_long_double (gc_distance_double example_libm) example_tie_lat
      (fun _ _ => Fp.fin 20) (Fp.fin 2) (Fp.fin 20) 1 2 2 = some (0, 1, 111) ∧
    (example_tie_lat 0 0 = Fp.fin 1 ∧ example_tie_lat 0 1 = Fp.fin 3) ∧
    gc_distance 1 20 2 20 = gc_distance 3 20 2 20 ∧
    Fp.lt (gc_distance_double example_libm (Fp.fin 3) (Fp.fin 20) (Fp.fin 2) (Fp.fin 20))
      (gc_distance_double example_libm (Fp.fin 1) (Fp.fin 20) (Fp.fin 2) (Fp.fin 20)) = true :=
  ⟨by decide!, ⟨by decide!, by decide!⟩, gc_distance_tie, by decide!⟩

/-- C3: on a grid without any valid cell (every in-range cell has
`lat <= -9999` or `lon <= -9999`; in particular when `rows <= 0` or
`cols <= 0`), `get_indices_from_lat_long` returns `(-9999, -9999, 99999)` after
one execution of the loop body, whatever the distance function. -/
theorem no_valid_cell_returns_sentinel {α : Type} [LinearOrderedField α] [FloorRing α]
    (gc : α → α → α → α → α) (data_lat data_lon : Int → Int → α)
    (target_lat target_lon : α) (rows cols : Int)
    (hnone : ∀ r c, 0 ≤ r ∧ r < rows → 0 ≤ c ∧ c < cols →
      data_lat r c ≤ -9999 ∨ data_lon r c ≤ -9999)
    (fuel : Nat) (hfuel : 1 ≤ fuel) :
    get_indices_from_lat_long gc data_lat data_lon target_lat target_lon rows cols fuel
      = some (-9999, -9999, 99999) := by
  obtain ⟨k, rfl⟩ := Nat.exists_eq_add_of_le hfuel
  rw [Nat.add_comm]
  apply get_indices_no_candidate
  intro p hp hv
  have hin := (mem_grid_cells rows cols p).mp hp
  rcases hnone p.1 p.2 hin.1 hin.2 with h | h
  · exact absurd hv.1 (not_lt.mpr h)
  · exact absurd hv.2 (not_lt.mpr h)

/-- Witness for C3: a 3 x 3 grid filled with the fill value -9999, searched with
`gc_distance`. -/
theorem no_valid_cell_returns_sentinel_witness :
    (∀ r c, 0 ≤ r ∧ r < (3 : Int) → 0 ≤ c ∧ c < (3 : Int) →
      (fun _ _ => (-9999 : ℝ)) r c ≤ -9999 ∨ (fun _ _ => (-9999 : ℝ)) r c ≤ -9999) ∧
    get_indices_from_lat_long gc_distance (fun _ _ => (-9999 : ℝ)) (fun _ _ => (-9999 : ℝ))
      32.13 (-111.09) 3 3 1 = some (-9999, -9999, 99999) :=
  ⟨fun _ _ _ _ => Or.inl (le_refl _),
   no_valid_cell_returns_sentinel gc_distance (fun _ _ => (-9999 : ℝ)) (fun _ _ => (-9999 : ℝ))
    32.13 (-111.09) 3 3 (fun _ _ _ _ => Or.inl (le_refl _)) 1 (le_refl 1)⟩

/-- C4: whatever the distance function and the fuel, a result of
`get_indices_from_lat_long` other than the sentinel `(-9999, -9999)` is the index
of a cell whose latitude and longitude both exceed -9999. -/
theorem returned_index_is_valid {α : Type} [LinearOrderedField α] [FloorRing α]
    (gc : α → α → α → α → α) (data_lat data_lon : Int → Int → α)
    (target_lat target_lon : α) (rows cols : Int) (fuel : Nat) (row col d : Int)
    (hres : get_indices_from_lat_long gc data_lat data_lon target_lat target_lon rows cols fuel
      = some (row, col, d))
    (hsent : ¬ (row = -9999 ∧ col = -9999)) :
    data_lat row col > -9999 ∧ data_lon row col > -9999 := by
  by_cases hc : ∃ p ∈ grid_cells rows cols, cell_valid data_lat data_lon p ∧
      cell_dist gc data_lat data_lon target_lat target_lon p < 99999
  · obtain ⟨r, c, -, hv, -, -, -, h0, h1, h2⟩ :=
      get_indices_candidate gc data_lat data_lon target_lat target_lon rows cols hc
    match fuel, hres with
    | 0, hres => rw [h0] at hres; exact absurd hres (by simp)
    | 1, hres => rw [h1] at hres; exact absurd hres (by simp)
    | k + 2, hres =>
      rw [h2 k] at hres
      simp only [Option.some.injEq, Prod.mk.injEq] at hres
      obtain ⟨rfl, rfl, -⟩ := hres
      exact hv
  · have hno : ∀ p ∈ grid_cells rows cols, cell_valid data_lat data_lon p →
        99999 ≤ cell_dist gc data_lat data_lon target_lat target_lon p := by
      intro p hp hv
      by_contra hlt
      exact hc ⟨p, hp, hv, not_le.mp hlt⟩
    match fuel, hres with
    | 0, hres => exact absurd hres (by simp [get_indices_from_lat_long, search_loop])
    | k + 1, hres =>
      rw [get_indices_no_candidate gc data_lat data_lon target_lat target_lon rows cols hno k]
        at hres
      simp only [Option.some.injEq, Prod.mk.injEq] at hres
      exact absurd ⟨hres.1.symm, hres.2.1.symm⟩ hsent

/-- Witness for C4: the 1 x 1 grid holding the point (0, 0), target (1, 0); the
search returns `(0, 0, 111)`, which is not the sentinel, and the cell is valid. -/
theorem returned_index_is_valid_witness :
    get_indices_from_lat_long gc_distance (fun _ _ => (0 : ℝ)) (fun _ _ => (0 : ℝ)) 1 0 1 1 2
      = some (0, 0, 111) ∧
    ¬ ((0 : Int) = -9999 ∧ (0 : Int) = -9999) ∧
    ((fun _ _ => (0 : ℝ)) (0 : Int) (0 : Int) > -9999 ∧
      (fun _ _ => (0 : ℝ)) (0 : Int) (0 : Int) > -9999) :=
  ⟨get_indices_one_degree_example, by decide,
   returned_index_is_valid gc_distance (fun _ _ => (0 : ℝ)) (fun _ _ => (0 : ℝ)) 1 0 1 1 2
    0 0 111 get_indices_one_degree_example (by decide)⟩

/-- C6: the distance from a point to itself is zero, for every latitude `x` and
longitude `y`. -/
theorem gc_distance_identity (x y : ℝ) : gc_distance x y x y = 0 :=
  gc_distance_same_point x y

/-- C7: `gc_distance` is symmetric in its two points. -/
theorem gc_distance_symmetric (a b c d : ℝ) : gc_distance a b c d = gc_distance c d a b := by
  simp only [gc_distance, gc_a_symm a b c d]

/-- C8: one degree of latitude at the equator is between 110 and 112 km, for
every longitude `y`. -/
theorem gc_distance_one_degree_latitude (y : ℝ) :
    110 ≤ gc_distance 0 y 1 y ∧ gc_distance 0 y 1 y ≤ 112 := by
  obtain ⟨h1, h2⟩ := gc_distance_one_degree_bounds y
  constructor <;> linarith

/-- C10, as stated, fails: for the found row 7 of a 14-row coordinate grid and a
62-row variable grid (column 0 of 1 onto 1), lines 337-338 give `new_row = 30`,
while `floor(7 * 62 / 14) = 31`: the quotient `62 / 14` is rounded down to
binary32, and the product with 7 stays below 31. -/
theorem rescale_floor_counterexample :
    rescale_indices 7 0 62 1 14 1 = some (30, 0) ∧
    ⌊((7 : ℤ) : ℚ) * ((62 : ℤ) : ℚ) / ((14 : ℤ) : ℚ)⌋ = 31 := by
  decide!

/-- C10, amended: for a found index inside the coordinate grid and positive
extents below `2^24`, whenever the binary32 quotient `count / ll_count` and its
product with the index are exact on both axes (the two operations of lines
337-338 do not round), the rescaled index is
`(floor(row * tgtRows / srcRows), floor(col * tgtCols / srcCols))`. -/
theorem rescale_indices_floor_of_exact
    (ll_row ll_col row_count col_count ll_row_count ll_col_count : Int)
    (hrow : 0 ≤ ll_row ∧ ll_row < ll_row_count) (hcol : 0 ≤ ll_col ∧ ll_col < ll_col_count)
    (hcount : 0 < row_count ∧ 0 < col_count)
    (hrows_small : ll_row_count < 2 ^ 24 ∧ row_count < 2 ^ 24)
    (hcols_small : ll_col_count < 2 ^ 24 ∧ col_count < 2 ^ 24)
    (hrow_quot : to_float ((row_count : ℚ) / (ll_row_count : ℚ)) =
      (row_count : ℚ) / (ll_row_count : ℚ))
    (hrow_prod : to_float ((ll_row : ℚ) * ((row_count : ℚ) / (ll_row_count : ℚ))) =
      (ll_row : ℚ) * ((row_count : ℚ) / (ll_row_count : ℚ)))
    (hcol_quot : to_float ((col_count : ℚ) / (ll_col_count : ℚ)) =
      (col_count : ℚ) / (ll_col_count : ℚ))
    (hcol_prod : to_float ((ll_col : ℚ) * ((col_count : ℚ) / (ll_col_count : ℚ))) =
      (ll_col : ℚ) * ((col_count : ℚ) / (ll_col_count : ℚ))) :
    rescale_indices ll_row ll_col row_count col_count ll_row_count ll_col_count =
      some (⌊(ll_row : ℚ) * (row_count : ℚ) / (ll_row_count : ℚ)⌋,
            ⌊(ll_col : ℚ) * (col_count : ℚ) / (ll_col_count : ℚ)⌋) := by
  rw [rescale_indices,
    rescale_index_of_exact ll_row row_count ll_row_count hrow hcount.1 hrows_small
      hrow_quot hrow_prod,
    rescale_index_of_exact ll_col col_count ll_col_count hcol hcount.2 hcols_small
      hcol_quot hcol_prod]

/-- Witness for the amended C10: index (100, 200) of a 3200 x 4064 coordinate
grid rescaled to an 800 x 1016 variable grid gives (25, 50). -/
theorem rescale_indices_floor_of_exact_witness :
    rescale_indices 100 200 800 1016 3200 4064 =
      some (⌊((100 : ℤ) : ℚ) * ((800 : ℤ) : ℚ) / ((3200 : ℤ) : ℚ)⌋,
            ⌊((200 : ℤ) : ℚ) * ((1016 : ℤ) : ℚ) / ((4064 : ℤ) : ℚ)⌋) :=
  rescale_indices_floor_of_exact 100 200 800 1016 3200 4064 (by decide) (by decide)
    (by decide) (by decide) (by decide) (by decide!) (by decide!) (by decide!) (by decide!)

/-- C11: the computation of lines 337-338 for the source index (2, 3) of a 4 x 6
coordinate grid and a 2 x 3 variable grid gives (1, 1). -/
theorem rescale_scenario_4x6_to_2x3 : rescale_indices 2 3 2 3 4 6 = some (1, 1) := by
  decide!

/-- C12: for every tag `type` (element width at least 1) and every buffer `buf`
that holds `rows * cols` scalars (in a 64-bit address space), flattening the
array built by `convert_1d_to_2d` gives back `buf` at every index below
`rows * cols`; both calls return whenever the nested array, pointer slots
included, fits in `size_t`. -/
theorem round_trip_2d {α : Type} (width : Kind → Nat) (type : Kind) (rows cols : Nat)
    (buf : Block α) (hw : 1 ≤ width type) (hrows : 1 ≤ rows) (hcols : 1 ≤ cols)
    (hbuf : width type * (rows * cols) ≤ buf.bytes) (haddr : buf.bytes < 2 ^ 64) :
    (∀ nested flat, convert_1d_to_2d width buf type rows cols = some nested →
      convert_2d_to_1d width nested type rows cols = some flat →
      flat.bytes = width type * (rows * cols) ∧
      ∀ n, n < rows * cols → flat.at1 (width type) n = buf.at1 (width type) n) ∧
    (sizeof_ptr * rows + rows * cols * width type < 2 ^ 64 →
      ∃ nested flat, convert_1d_to_2d width buf type rows cols = some nested ∧
        convert_2d_to_1d width nested type rows cols = some flat) := by
  have hsize : width type * (rows * cols) < 2 ^ 64 := by omega
  have key : sizeof_ptr * rows + rows * cols * width type < 2 ^ 64 →
      ∃ nested flat, convert_1d_to_2d width buf type rows cols = some nested ∧
        convert_2d_to_1d width nested type rows cols = some flat ∧
        flat.bytes = width type * (rows * cols) ∧
        ∀ n, n < rows * cols → flat.at1 (width type) n = buf.at1 (width type) n := by
    intro hfit
    obtain ⟨nested, hnested, -, hat⟩ :=
      convert_1d_to_2d_at2 width buf type rows cols hw hfit hbuf
    obtain ⟨flat, hflat, hbytes, hcopy⟩ :=
      convert_2d_to_1d_spec width nested type rows cols hw hsize
        (fun row col hr hc => ⟨_, (hat row col hr hc).2⟩)
    refine ⟨nested, flat, hnested, hflat, hbytes, ?_⟩
    intro n hn
    obtain ⟨hr, hc, hrc⟩ := div_mod_cell cols n rows hn
    have h1 := hcopy (n / cols) (n % cols) hr hc
    have h2 := (hat (n / cols) (n % cols) hr hc).1
    rw [hrc] at h1 h2
    rw [h1, h2]
  refine ⟨?_, fun hfit => ?_⟩
  · intro nested flat hnested hflat
    have hfit := convert_1d_to_2d_fit width buf type rows cols hw hrows hcols hbuf haddr
      nested hnested
    obtain ⟨nested', flat', hnested', hflat', hbytes, hall⟩ := key hfit
    rw [hnested] at hnested'
    cases hnested'
    rw [hflat] at hflat'
    cases hflat'
    exact ⟨hbytes, hall⟩
  · obtain ⟨nested, flat, hnested, hflat, -, -⟩ := key hfit
    exact ⟨nested, flat, hnested, hflat⟩

/-- Witness for C12: a buffer of six 4-byte scalars, reshaped to 2 x 3 and
back. -/
theorem round_trip_2d_witness :
    ∃ nested flat,
      convert_1d_to_2d (fun _ => 4) (flat_of_list 4 [10, 11, 12, 13, 14, 15])
        Kind.H5T_NATIVE_FLOAT 2 3 = some nested ∧
      convert_2d_to_1d (fun _ => 4) nested Kind.H5T_NATIVE_FLOAT 2 3 = some flat :=
  (round_trip_2d (fun _ => 4) Kind.H5T_NATIVE_FLOAT 2 3
    (flat_of_list 4 [10, 11, 12, 13, 14, 15]) (by decide) (by decide) (by decide)
    (by decide) (by decide)).2 (by decide)

/-- C15: for every nested array `a` whose block holds `rows * cols` scalars and
in which every `a[row][col]` with `row < rows`, `col < cols` can be read,
`convert_2d_to_1d` returns a buffer of exactly `rows * cols` scalars that
holds `a[row][col]` at index `row * cols + col`. -/
theorem convert_2d_to_1d_row_major {α : Type} (width : Kind → Nat) (type : Kind)
    (rows cols : Nat) (a : Block α) (hw : 1 ≤ width type)
    (hread : ∀ row col, row < rows → col < cols → ∃ c, a.at2 (width type) row col = some c)
    (hsize : width type * (rows * cols) ≤ a.bytes) (haddr : a.bytes < 2 ^ 64) :
    ∃ flat, convert_2d_to_1d width a type rows cols = some flat ∧
      flat.bytes = width type * (rows * cols) ∧
      ∀ row col, row < rows → col < cols →
        flat.at1 (width type) (row * cols + col) = a.at2 (width type) row col :=
  convert_2d_to_1d_spec width a type rows cols hw (by omega) hread

/-- C16: for every buffer `buf` that holds `rows * cols` scalars (in a 64-bit
address space), the nested array returned by `convert_1d_to_2d` satisfies
`out[row][col] = buf[row * cols + col]` for all `row < rows`, `col < cols`; the
call returns whenever the nested array, pointer slots included, fits in
`size_t`. -/
theorem convert_1d_to_2d_row_major {α : Type} (width : Kind → Nat) (type : Kind)
    (rows cols : Nat) (buf : Block α) (hw : 1 ≤ width type)
    (hbuf : width type * (rows * cols) ≤ buf.bytes) (haddr : buf.bytes < 2 ^ 64) :
    (∀ out, convert_1d_to_2d width buf type rows cols = some out →
      ∀ row col, row < rows → col < cols →
        out.at2 (width type) row col = buf.at1 (width type) (row * cols + col)) ∧
    (sizeof_ptr * rows + rows * cols * width type < 2 ^ 64 →
      ∃ out, convert_1d_to_2d width buf type rows cols = some out) := by
  refine ⟨?_, fun hfit => ?_⟩
  · intro out hout row col hr hc
    have hfit := convert_1d_to_2d_fit width buf type rows cols hw (by omega) (by omega)
      hbuf haddr out hout
    obtain ⟨out', hout', -, hat⟩ := convert_1d_to_2d_at2 width buf type rows cols hw hfit hbuf
    rw [hout] at hout'
    cases hout'
    exact (hat row col hr hc).1
  · obtain ⟨out, hout, -, -⟩ := convert_1d_to_2d_at2 width buf type rows cols hw hfit hbuf
    exact ⟨out, hout⟩

/-- Witness for C15: the 2 x 2 array `example_nested_2x2` of 4-byte scalars. -/
theorem convert_2d_to_1d_row_major_witness :
    ∃ flat, convert_2d_to_1d (fun _ => 4) example_nested_2x2 Kind.H5T_NATIVE_UINT 2 2
        = some flat ∧
      flat.bytes = 4 * (2 * 2) ∧
      ∀ row col, row < 2 → col < 2 →
        flat.at1 4 (row * 2 + col) = example_nested_2x2.at2 4 row col :=
  convert_2d_to_1d_row_major (fun _ => 4) Kind.H5T_NATIVE_UINT 2 2 example_nested_2x2
    (by decide)
    (by
      intro row col hr hc
      interval_cases row <;> interval_cases col <;> exact ⟨_, rfl⟩)
    (by decide) (by decide)

/-- Witness for C16: a buffer of six 4-byte scalars reshaped to 2 x 3. -/
theorem convert_1d_to_2d_row_major_witness :
    ∃ out, convert_1d_to_2d (fun _ => 4) (flat_of_list 4 [10, 11, 12, 13, 14, 15])
      Kind.H5T_FLOAT 2 3 = some out :=
  (convert_1d_to_2d_row_major (fun _ => 4) Kind.H5T_FLOAT 2 3
    (flat_of_list 4 [10, 11, 12, 13, 14, 15]) (by decide) (by decide) (by decide)).2
    (by decide)

/-- C13 fails on the code: for a buffer of two 4-byte scalars `{7, 9}` and
`levs = 2`, `rows = cols = 1`, `convert_3d_to_1d(convert_1d_to_3d(buf))` holds 7
at index 0 and an indeterminate value at index 1, where `buf` holds 9: both
functions compute `index = row * cols + col` without the level. -/
theorem round_trip_3d_failing_input :
    ((convert_1d_to_3d (fun _ => 4) (flat_of_list 4 [7, 9]) Kind.H5T_NATIVE_FLOAT 2 1 1).bind
      (fun nested => convert_3d_to_1d (fun _ => 4) nested Kind.H5T_NATIVE_FLOAT 2 1 1)).map
      (fun flat => (flat.bytes, flat.at1 4 0, flat.at1 4 1))
        = some (8, some (some 7), some none) ∧
    (flat_of_list 4 [7, 9]).at1 4 1 = some (some 9) := by
  decide!

/-- C14 fails on the code: for the 2 x 3 x 4 array of the test, with
`a[i][j][k] = 10 i + j + k / 10`, the array `convert_1d_to_3d(convert_3d_to_1d(a))`
holds `a[1][0][0] = 10` at `[0][0][0]`, where `a` holds 0. -/
theorem round_trip_nested_3d_failing_input :
    ((test_array_3d.bind
        (fun a => convert_3d_to_1d (fun _ => 4) a Kind.H5T_NATIVE_FLOAT 2 3 4)).bind
      (fun flat => convert_1d_to_3d (fun _ => 4) flat Kind.H5T_NATIVE_FLOAT 2 3 4)).bind
      (fun out => out.at3 4 0 0 0) = some (some 10) ∧
    test_array_3d.bind (fun a => a.at3 4 0 0 0) = some (some 0) := by
  decide!

/-- C17 fails on the code: for the 2 x 3 x 4 array of the test, the buffer
returned by `convert_3d_to_1d` has room for 24 scalars, holds `a[1][0][0] = 10`
at index 0 (where row-major order puts `a[0][0][0] = 0`) and nothing determinate
at index 12 (where row-major order puts `a[1][0][0]`). -/
theorem convert_3d_to_1d_failing_input :
    (test_array_3d.bind
      (fun a => convert_3d_to_1d (fun _ => 4) a Kind.H5T_NATIVE_FLOAT 2 3 4)).map
      (fun flat => (flat.bytes, flat.at1 4 0, flat.at1 4 12))
        = some (96, some (some 10), some none) ∧
    test_array_3d.bind (fun a => a.at3 4 0 0 0) = some (some 0) ∧
    test_array_3d.bind (fun a => a.at3 4 1 0 0) = some (some 10) := by
  decide!

/-- C18 fails on the code: for the buffer `{0, 1, ..., 23}` of 4-byte scalars and
`levs = 2`, `rows = 3`, `cols = 4`, the array returned by `convert_1d_to_3d`
holds `buf[0] = 0` at `[1][0][0]`, where row-major order puts `buf[12] = 12`. -/
theorem convert_1d_to_3d_failing_input :
    (convert_1d_to_3d (fun _ => 4) (flat_of_list 4 (List.range 24))
      Kind.H5T_NATIVE_UINT 2 3 4).bind (fun out => out.at3 4 1 0 0) = some (some 0) ∧
    (flat_of_list 4 (List.range 24)).at1 4 ((1 * 3 + 0) * 4 + 0) = some (some 12) := by
  decide!

/-- C19, as stated, fails: `dimalloc(8, 2, 1, 2^61)` requests
`1 * 8 + 2^61 * 8 = 8 (mod 2^64)` bytes and returns a block of 8 bytes in which
`a[0][0]` resolves to byte offset 8: the scalar slot `[8, 16)` lies outside the
block. -/
theorem dimalloc_resolves_counterexample :
    (dimalloc 8 2 [1, 2 ^ 61] : Ret (Block Nat)).block.map
      (fun b => (b.bytes, b.index2 8 0 0)) = some (8, some 8) ∧
    ¬ (8 + 8 ≤ 8) := by
  decide!

/-- C19, amended: for dimension counts 2 and 3 and extents at least 1 whose
byte count does not exceed the range of `size_t` (`2^64`), `dimalloc` returns a
block in which `a[i][j]` resolves to `R * P + (i * C + j) * size` and
`a[i][j][k]` to `L * P + L * R * P + ((i * R + j) * C + k) * size`, every
pointer slot read on the way and the scalar slot itself lying inside the
block. -/
theorem dimalloc_resolves_row_major {α : Type} (size L R C : Nat)
    (_hL : 1 ≤ L) (_hR : 1 ≤ R) (_hC : 1 ≤ C) :
    (R * sizeof_ptr + R * C * size < 2 ^ 64 →
      ∃ b : Block α, dimalloc size 2 [R, C] = Ret.ptr b ∧
        b.bytes = R * sizeof_ptr + R * C * size ∧
        ∀ i j, i < R → j < C →
          b.index2 size i j = some (R * sizeof_ptr + (i * C + j) * size) ∧
          R * sizeof_ptr + (i * C + j) * size + size ≤ b.bytes) ∧
    (L * sizeof_ptr + L * R * sizeof_ptr + L * R * C * size < 2 ^ 64 →
      ∃ b : Block α, dimalloc size 3 [L, R, C] = Ret.ptr b ∧
        b.bytes = L * sizeof_ptr + L * R * sizeof_ptr + L * R * C * size ∧
        ∀ i j k, i < L → j < R → k < C →
          b.index3 size i j k =
            some (L * sizeof_ptr + L * R * sizeof_ptr + ((i * R + j) * C + k) * size) ∧
          L * sizeof_ptr + L * R * sizeof_ptr + ((i * R + j) * C + k) * size + size
            ≤ b.bytes) := by
  constructor
  · intro hfit
    rw [Nat.mul_comm R sizeof_ptr] at hfit ⊢
    obtain ⟨b, hb, hbytes, -, hptrs⟩ := dimalloc_2d (α := α) size R C hfit
    refine ⟨b, hb, hbytes, ?_⟩
    intro i j hi hj
    refine ⟨index2_of_layout b size R C hbytes hptrs i j hi, ?_⟩
    have hlt := cell_index_lt hi hj
    have : (i * C + j + 1) * size ≤ R * C * size := Nat.mul_le_mul_right _ hlt
    have e : (i * C + j + 1) * size = (i * C + j) * size + size := by ring
    rw [hbytes]
    omega
  · intro hfit
    rw [Nat.mul_comm L sizeof_ptr, Nat.mul_comm (L * R) sizeof_ptr] at hfit ⊢
    obtain ⟨b, hb, hbytes, -, hptrs1, hptrs2⟩ := dimalloc_3d (α := α) size L R C hfit
    refine ⟨b, hb, hbytes, ?_⟩
    intro i j k hi hj hk
    refine ⟨index3_of_layout b size L R C hbytes hptrs1 hptrs2 i j k hi hj, ?_⟩
    have hlt := key3_lt hi hj hk
    have : ((i * R + j) * C + k + 1) * size ≤ L * R * C * size := Nat.mul_le_mul_right _ hlt
    have e : ((i * R + j) * C + k + 1) * size = ((i * R + j) * C + k) * size + size := by ring
    rw [hbytes]
    omega

/-- Witness for the amended C19: `dimalloc(sizeof(float), 3, 2, 3, 4)`, the
array of the test in hdf5_helper.c, and `dimalloc(sizeof(float), 2, 3, 4)`. -/
theorem dimalloc_resolves_row_major_witness :
    (∃ b : Block ℚ, dimalloc 4 2 [3, 4] = Ret.ptr b ∧
      b.bytes = 3 * sizeof_ptr + 3 * 4 * 4 ∧
      ∀ i j, i < 3 → j < 4 →
        b.index2 4 i j = some (3 * sizeof_ptr + (i * 4 + j) * 4) ∧
        3 * sizeof_ptr + (i * 4 + j) * 4 + 4 ≤ b.bytes) ∧
    (∃ b : Block ℚ, dimalloc 4 3 [2, 3, 4] = Ret.ptr b ∧
      b.bytes = 2 * sizeof_ptr + 2 * 3 * sizeof_ptr + 2 * 3 * 4 * 4 ∧
      ∀ i j k, i < 2 → j < 3 → k < 4 →
        b.index3 4 i j k =
          some (2 * sizeof_ptr + 2 * 3 * sizeof_ptr + ((i * 3 + j) * 4 + k) * 4) ∧
        2 * sizeof_ptr + 2 * 3 * sizeof_ptr + ((i * 3 + j) * 4 + k) * 4 + 4 ≤ b.bytes) :=
  ⟨(dimalloc_resolves_row_major 4 2 3 4 (by decide) (by decide) (by decide)).1 (by decide),
   (dimalloc_resolves_row_major 4 2 3 4 (by decide) (by decide) (by decide)).2 (by decide)⟩

/-- C20, as stated, fails: `dimalloc(8, 3, 1, 1, 2^61)` requests
`8 + 8 + 2^61 * 8 = 16 (mod 2^64)` bytes and returns a block of 16 bytes, all of
it pointer slots, in which `a[0][0][0]` denotes the byte range `[16, 24)`: it
leaves the block. -/
theorem dimalloc_disjoint_counterexample :
    (dimalloc 8 3 [1, 1, 2 ^ 61] : Ret (Block Nat)).block.map
      (fun b => (b.bytes, b.index3 8 0 0 0)) = some (16, some 16) ∧
    ¬ (16 + 8 ≤ 16) := by
  decide!

/-- C20, amended: for element size at least 1, 2 or 3 dimensions and extents at
least 1 whose byte count does not exceed the range of `size_t` (`2^64`), in the
array returned by `dimalloc` every in-range index denotes a byte range behind
the pointer tables and inside the block, distinct in-range indices denote
disjoint ranges, and a value assigned at one index is read back after
assignments at any other in-range indices. -/
theorem dimalloc_elements_disjoint {α : Type} (size L R C : Nat) (hsize : 1 ≤ size)
    (_hL : 1 ≤ L) (_hR : 1 ≤ R) (_hC : 1 ≤ C) :
    (sizeof_ptr * R + R * C * size < 2 ^ 64 →
      ∃ b : Block α, dimalloc size 2 [R, C] = Ret.ptr b ∧
        (∀ i j, i < R → j < C →
          ∃ a, b.index2 size i j = some a ∧ sizeof_ptr * R ≤ a ∧ a + size ≤ b.bytes) ∧
        (∀ i j i' j', i < R → j < C → i' < R → j' < C → (i, j) ≠ (i', j') →
          ∃ a a', b.index2 size i j = some a ∧ b.index2 size i' j' = some a' ∧
            (a + size ≤ a' ∨ a' + size ≤ a)) ∧
        (∀ i j (v : α) (ws : List ((Nat × Nat) × α)), i < R → j < C →
          (∀ w ∈ ws, w.1.1 < R ∧ w.1.2 < C ∧ w.1 ≠ (i, j)) →
          ∃ b1 b2, b.set2 size i j v = some b1 ∧
            ws.foldlM (fun m w => m.set2 size w.1.1 w.1.2 w.2) b1 = some b2 ∧
            b2.at2 size i j = some (some v))) ∧
    (sizeof_ptr * L + sizeof_ptr * (L * R) + L * R * C * size < 2 ^ 64 →
      ∃ b : Block α, dimalloc size 3 [L, R, C] = Ret.ptr b ∧
        (∀ i j k, i < L → j < R → k < C →
          ∃ a, b.index3 size i j k = some a ∧
            sizeof_ptr * L + sizeof_ptr * (L * R) ≤ a ∧ a + size ≤ b.bytes) ∧
        (∀ i j k i' j' k', i < L → j < R → k < C → i' < L → j' < R → k' < C →
          (i, j, k) ≠ (i', j', k') →
          ∃ a a', b.index3 size i j k = some a ∧ b.index3 size i' j' k' = some a' ∧
            (a + size ≤ a' ∨ a' + size ≤ a)) ∧
        (∀ i j k (v : α) (ws : List ((Nat × Nat × Nat) × α)), i < L → j < R → k < C →
          (∀ w ∈ ws, w.1.1 < L ∧ w.1.2.1 < R ∧ w.1.2.2 < C ∧ w.1 ≠ (i, j, k)) →
          ∃ b1 b2, b.set3 size i j k v = some b1 ∧
            ws.foldlM (fun m w => m.set3 size w.1.1 w.1.2.1 w.1.2.2 w.2) b1 = some b2 ∧
            b2.at3 size i j k = some (some v))) := by
  constructor
  · intro hfit
    obtain ⟨b, hb, hbytes, -, hptrs⟩ := dimalloc_2d (α := α) size R C hfit
    exact ⟨b, hb, layout2_props b size R C hsize hbytes hptrs⟩
  · intro hfit
    obtain ⟨b, hb, hbytes, -, hptrs1, hptrs2⟩ := dimalloc_3d (α := α) size L R C hfit
    exact ⟨b, hb, layout3_props b size L R C hsize hbytes hptrs1 hptrs2⟩

/-- Witness for the amended C20: `dimalloc(sizeof(double), 3, 100, 20, 1024)`,
the array of the test in dimalloc3.c; the value assigned at `[94][15][954]` is
read back after the assignments at `[0][0][0]` and `[99][19][1023]`. -/
theorem dimalloc_elements_disjoint_witness :
    ∃ b : Block ℚ, dimalloc 8 3 [100, 20, 1024] = Ret.ptr b ∧
      ∃ b1 b2, b.set3 8 94 15 954 (6 / 8) = some b1 ∧
        [((0, 0, 0), (1 / 8 : ℚ)), ((99, 19, 1023), (5 / 8 : ℚ))].foldlM
          (fun m w => m.set3 8 w.1.1 w.1.2.1 w.1.2.2 w.2) b1 = some b2 ∧
        b2.at3 8 94 15 954 = some (some (6 / 8)) :=
  match (dimalloc_elements_disjoint (α := ℚ) 8 100 20 1024 (by decide) (by decide)
      (by decide) (by decide)).2 (by decide) with
  | ⟨b, hb, _, _, hrw⟩ =>
    ⟨b, hb, hrw 94 15 954 (6 / 8) [((0, 0, 0), 1 / 8), ((99, 19, 1023), 5 / 8)]
      (by decide) (by decide) (by decide) (by
        intro w hw
        simp only [List.mem_cons, List.mem_singleton, List.not_mem_nil, or_false] at hw
        rcases hw with rfl | rfl <;> decide)⟩

/-- C21, as stated, fails: for the call `dimalloc(8, 2, 1, 2^61)` the sum of the
claim is `1 * 8 + 1 * 2^61 * 8 = 8 + 2^64`, while the number of bytes passed to
`malloc` is 8. -/
theorem dimalloc_bytes_wrap_counterexample :
    dimalloc_bytes 8 2 [1, 2 ^ 61] = some 8 ∧
    1 * sizeof_ptr + 1 * 2 ^ 61 * 8 ≠ 8 := by
  constructor
  · rw [dimalloc_bytes_mod_2d]
    norm_num [sizeof_ptr]
  · norm_num [sizeof_ptr]

/-- C21, amended: for dimension counts 1, 2 and 3 the number of bytes passed to
`malloc` is the sum over the levels `i = 0..N-2` of
`(e[0] * ... * e[i]) * sizeof(void *)`, plus `(e[0] * ... * e[N-1]) * size`,
reduced modulo `2^64` (the arithmetic is done in `size_t`); it is the sum itself
whenever the sum is below `2^64`. -/
theorem dimalloc_bytes_formula_mod (size e0 e1 e2 : Nat) :
    dimalloc_bytes size 1 [e0] = some ((e0 * size) % 2 ^ 64) ∧
    dimalloc_bytes size 2 [e0, e1] = some ((e0 * sizeof_ptr + e0 * e1 * size) % 2 ^ 64) ∧
    dimalloc_bytes size 3 [e0, e1, e2] =
      some ((e0 * sizeof_ptr + e0 * e1 * sizeof_ptr + e0 * e1 * e2 * size) % 2 ^ 64) :=
  ⟨dimalloc_bytes_mod_1d size e0, dimalloc_bytes_mod_2d size e0 e1,
    dimalloc_bytes_mod_3d size e0 e1 e2⟩

/-- C22 fails on the code: a call of `dimalloc` with dimension count 1 has
undefined behaviour for every element size and extent.  The bound
`dimensions - 2` of the loop of lines 97-104 is computed in `size_t` and is
`2^64 - 1`, so the loop body runs and reads `sizes[1]`, outside the one-entry
array `sizes`. -/
theorem dimalloc_one_dimension_failing_input {α : Type} (size n : Nat) :
    (dimalloc size 1 [n] : Ret (Block α)) = Ret.undef :=
  dimalloc_1d_undef size n []

/-- C23: with a dimension count of 0 `dimalloc` returns `NULL` (line 66), for
every element size and whatever the variadic arguments; no block is
allocated. -/
theorem dimalloc_zero_dimensions_null {α : Type} (size : Nat) (args : List Nat) :
    (dimalloc size 0 args : Ret (Block α)) = Ret.null ∧
    (dimalloc size 0 args : Ret (Block α)).block = none := by
  have h : (dimalloc size 0 args : Ret (Block α)) = Ret.null := by
    simp [dimalloc]
  exact ⟨h, by rw [h]; rfl⟩

/-- C24, as stated, fails: for the extents `(2^32, 2^32, 1)` the element count
with which the buffer is sized is 0, while the product of the extents is
`2^64`. -/
theorem total_data_count_wrap_counterexample :
    total_data_count [2 ^ 32, 2 ^ 32, 1] = some 0 ∧
    (2 ^ 32 * 2 ^ 32 * 1 : Nat) ≠ 0 := by
  constructor
  · rw [total_data_count_mod]
    norm_num
  · norm_num

/-- C24, amended: for every triple of extents the element count is the product
over the three slots of (extent if extent != 0, else 1), reduced modulo `2^64`
(the product is formed in `size_t`).  That product is at least 1, so the count
equals it and is at least 1 whenever the product is below `2^64`; an extent of
0 counts as 1. -/
theorem total_data_count_product_mod (d0 d1 d2 : Nat) :
    total_data_count [d0, d1, d2] =
      some (((if d0 ≠ 0 then d0 else 1) * (if d1 ≠ 0 then d1 else 1) *
        (if d2 ≠ 0 then d2 else 1)) % 2 ^ 64) ∧
    1 ≤ (if d0 ≠ 0 then d0 else 1) * (if d1 ≠ 0 then d1 else 1) *
        (if d2 ≠ 0 then d2 else 1) := by
  refine ⟨total_data_count_mod d0 d1 d2, ?_⟩
  have h : ∀ d : Nat, 1 ≤ (if d ≠ 0 then d else 1) := by
    intro d
    split_ifs with hd
    · exact Nat.one_le_iff_ne_zero.mpr hd
    · exact le_refl 1
  exact Nat.one_le_iff_ne_zero.mpr
    (Nat.mul_ne_zero (Nat.mul_ne_zero (Nat.one_le_iff_ne_zero.mp (h d0))
      (Nat.one_le_iff_ne_zero.mp (h d1))) (Nat.one_le_iff_ne_zero.mp (h d2)))

/-- C26: in a run of `main` with `argc >= 7` that returns, the inputs were read
and the search returned some `(row, col)`; the result line of lines 262-267 is
printed if and only if `0 <= row < rows`, `0 <= col < cols` and the distance
from the cell `(row, col)` to the target is below 15; when this fails, nothing
is printed outside the debugging statements. -/
theorem result_line_iff_close_match {α : Type} [LinearOrderedField α] [FloorRing α]
    (gc : α → α → α → α → α) (rd : Reader α) (argv : List (List Char)) (fuel : Nat)
    (status : Int) (out : List (Printf α))
    (hargc : 7 ≤ (argv.length : Int))
    (h : main gc rd argv fuel = some (status, out)) :
    ∃ t row col d,
      main_inputs rd argv = some t ∧
      get_indices_from_lat_long gc t.data_lat t.data_lon t.lat t.lon t.rows t.cols fuel
        = some (row, col, d) ∧
      (result_head t (gc (t.data_lat row col) (t.data_lon row col) t.lat t.lon) row col ∈ out ↔
        ((0 ≤ row ∧ row < t.rows) ∧ (0 ≤ col ∧ col < t.cols) ∧
          gc (t.data_lat row col) (t.data_lon row col) t.lat t.lon < 15)) ∧
      (¬ ((0 ≤ row ∧ row < t.rows) ∧ (0 ≤ col ∧ col < t.cols) ∧
          gc (t.data_lat row col) (t.data_lon row col) t.lat t.lon < 15) →
        unguarded out = []) := by
  obtain ⟨t, row, col, d, o, ht, hs, ho, -, hout⟩ :=
    main_run gc rd argv fuel status out (not_lt.mpr hargc) h
  obtain ⟨hyes, hno⟩ := main_report_unguarded gc rd t row col o ho
  refine ⟨t, row, col, d, ht, hs, ⟨?_, ?_⟩, ?_⟩
  · intro hmem
    by_contra hc
    have hmem' : result_head t (gc (t.data_lat row col) (t.data_lon row col) t.lat t.lon) row col
        ∈ unguarded out := mem_unguarded.mpr ⟨hmem, rfl⟩
    rw [hout, hno hc] at hmem'
    exact absurd hmem' (List.not_mem_nil _)
  · intro hc
    obtain ⟨vals, -, hv⟩ := hyes hc
    have hmem' : result_head t (gc (t.data_lat row col) (t.data_lon row col) t.lat t.lon) row col
        ∈ unguarded out := by
      rw [hout, hv]
      simp
    exact (mem_unguarded.mp hmem').1
  · intro hc
    rw [hout, hno hc]

/-- Witness for C26: the example run, which prints a result line. -/
theorem result_line_iff_close_match_witness :
    7 ≤ (example_argv.length : Int) ∧
    main example_gc example_reader example_argv 2 = some (0, example_stdout) ∧
    ∃ t row col d,
      main_inputs example_reader example_argv = some t ∧
      get_indices_from_lat_long example_gc t.data_lat t.data_lon t.lat t.lon t.rows t.cols 2
        = some (row, col, d) ∧
      (result_head t (example_gc (t.data_lat row col) (t.data_lon row col) t.lat t.lon) row col
          ∈ example_stdout ↔
        ((0 ≤ row ∧ row < t.rows) ∧ (0 ≤ col ∧ col < t.cols) ∧
          example_gc (t.data_lat row col) (t.data_lon row col) t.lat t.lon < 15)) ∧
      (¬ ((0 ≤ row ∧ row < t.rows) ∧ (0 ≤ col ∧ col < t.cols) ∧
          example_gc (t.data_lat row col) (t.data_lon row col) t.lat t.lon < 15) →
        unguarded example_stdout = []) :=
  ⟨by decide, example_run,
    result_line_iff_close_match example_gc example_reader example_argv 2 0 example_stdout
      (by decide) example_run⟩

/-- C27, as stated, fails: the example run prints a result line, and its
standard output begins with the debugging line `lat path:  f.h5` and consists
of 38 calls of `printf`, 34 of them under `if (DEBUG_HDF5_LOOKUP)`; the four
calls that make up the result line are separated by debugging lines. -/
theorem stdout_one_line_counterexample :
    main example_gc example_reader example_argv 2 = some (0, example_stdout) ∧
    example_stdout.head? = some ⟨true, "lat path:  %s\n", [Arg.str "f.h5".toList]⟩ ∧
    example_stdout.length = 38 ∧
    unguarded example_stdout =
      [⟨false, "%10.6f %10.6f %6.4f %10.6f %10.6f",
         [Arg.flt 1, Arg.flt 0, Arg.flt 0, Arg.flt 1, Arg.flt 0]⟩,
       ⟨false, " %lu", [Arg.ulong 101]⟩, ⟨false, " %f", [Arg.flt 10]⟩, ⟨false, "\n", []⟩] ∧
    example_stdout ≠ unguarded example_stdout := by
  refine ⟨example_run, rfl, rfl, ?_, ?_⟩
  · decide!
  · decide!

/-- C27, amended: in a run of `main` that returns and prints the result head of
lines 262-267, the calls of `printf` that do not stand under
`if (DEBUG_HDF5_LOOKUP)` are, in this order: the result head with the five
fields target latitude, target longitude, distance, found latitude, found
longitude; then for each requested variable one value when its class is
`H5T_INTEGER` or `H5T_FLOAT` and nothing for any other class; then the newline.
The debugging statements are compiled in (`DEBUG_HDF5_LOOKUP` is 1) and print
before and in between. -/
theorem stdout_unguarded_one_line {α : Type} [LinearOrderedField α] [FloorRing α]
    (gc : α → α → α → α → α) (rd : Reader α) (argv : List (List Char)) (fuel : Nat)
    (status : Int) (out : List (Printf α))
    (h : main gc rd argv fuel = some (status, out))
    (hmatch : ∃ p ∈ out, p.guarded = false ∧ p.format = "%10.6f %10.6f %6.4f %10.6f %10.6f") :
    ∃ t row col d, ∃ vals : List (List (Printf α)),
      main_inputs rd argv = some t ∧
      get_indices_from_lat_long gc t.data_lat t.data_lon t.lat t.lon t.rows t.cols fuel
        = some (row, col, d) ∧
      t.dat_tables = (argv.drop 2).take (argv.length - 6) ∧
      List.Forall₂ (value_printed rd t.path) t.dat_tables vals ∧
      unguarded out =
        [result_head t (gc (t.data_lat row col) (t.data_lon row col) t.lat t.lon) row col]
          ++ vals.flatten ++ printf "\n" [] := by
  obtain ⟨p, hp, hg, hf⟩ := hmatch
  by_cases hargc : (argv.length : Int) < 7
  · exfalso
    rw [main_too_few gc rd argv fuel hargc] at h
    cases hu : (usage argv : Option (List (Printf α))) with
    | none => rw [hu] at h; exact absurd h (by simp)
    | some u =>
      rw [hu] at h
      simp only [Option.map_some', Option.some.injEq, Prod.mk.injEq] at h
      obtain ⟨-, rfl⟩ := h
      unfold usage at hu
      simp only [Option.bind_eq_bind, Option.bind_eq_some, Option.pure_def,
        Option.some.injEq] at hu
      obtain ⟨a0, -, rfl⟩ := hu
      simp only [printf, List.cons_append, List.nil_append, List.mem_cons, List.mem_singleton,
        List.not_mem_nil, or_false] at hp
      rcases hp with rfl | rfl | rfl | rfl <;> simp at hf
  · obtain ⟨t, row, col, d, o, ht, hs, ho, -, hout⟩ := main_run gc rd argv fuel status out hargc h
    obtain ⟨hyes, hno⟩ := main_report_unguarded gc rd t row col o ho
    by_cases hc : (0 ≤ row ∧ row < t.rows) ∧ (0 ≤ col ∧ col < t.cols) ∧
        gc (t.data_lat row col) (t.data_lon row col) t.lat t.lon < 15
    · obtain ⟨vals, hvals, hv⟩ := hyes hc
      exact ⟨t, row, col, d, vals, ht, hs, main_inputs_dat_tables rd argv t ht, hvals,
        by rw [hout, hv]⟩
    · exfalso
      have hmem : p ∈ unguarded out := mem_unguarded.mpr ⟨hp, hg⟩
      rw [hout, hno hc] at hmem
      exact absurd hmem (List.not_mem_nil _)

/-- Witness for the amended C27: the example run. -/
theorem stdout_unguarded_one_line_witness :
    main example_gc example_reader example_argv 2 = some (0, example_stdout) ∧
    (∃ p ∈ example_stdout,
      p.guarded = false ∧ p.format = "%10.6f %10.6f %6.4f %10.6f %10.6f") ∧
    ∃ t row col d, ∃ vals : List (List (Printf ℚ)),
      main_inputs example_reader example_argv = some t ∧
      get_indices_from_lat_long example_gc t.data_lat t.data_lon t.lat t.lon t.rows t.cols 2
        = some (row, col, d) ∧
      t.dat_tables = (example_argv.drop 2).take (example_argv.length - 6) ∧
      List.Forall₂ (value_printed example_reader t.path) t.dat_tables vals ∧
      unguarded example_stdout =
        [result_head t (example_gc (t.data_lat row col) (t.data_lon row col) t.lat t.lon) row col]
          ++ vals.flatten ++ printf "\n" [] :=
  ⟨example_run, by decide!,
    stdout_unguarded_one_line example_gc example_reader example_argv 2 0 example_stdout
      example_run (by decide!)⟩

/-- C28: for every table path that contains a `/`, the split of `main` returns
a group and a name with `group ++ name = path`, the group ends with `/` and the
name contains no `/`: the path is cut right after its last `/`. -/
theorem split_table_at_last_slash (table : List Char) (h : '/' ∈ table) :
    ∃ group name, split_table table = some (group, name) ∧
      group ++ name = table ∧ group.getLast? = some '/' ∧ '/' ∉ name := by
  obtain ⟨group, name, hs⟩ := split_table_of_mem h
  exact ⟨group, name, hs, split_table_spec hs⟩

/-- Witness for C28: the path `/All_Data/VIIRS-DNB-GEO_All/Latitude` of the
usage example. -/
theorem split_table_at_last_slash_witness :
    '/' ∈ "/All_Data/VIIRS-DNB-GEO_All/Latitude".toList ∧
    ∃ group name, split_table "/All_Data/VIIRS-DNB-GEO_All/Latitude".toList = some (group, name) ∧
      group ++ name = "/All_Data/VIIRS-DNB-GEO_All/Latitude".toList ∧
      group.getLast? = some '/' ∧ '/' ∉ name :=
  ⟨by decide, split_table_at_last_slash "/All_Data/VIIRS-DNB-GEO_All/Latitude".toList (by decide)⟩

/-- C29: with fuel for two executions of the loop body, the row, the column and
the distance with which the loop of `get_indices_from_lat_long` ends are those
left by one row-major scan started from `closest = 99999`,
`row = col = -9999`; the function returns that row and column and the distance
converted to `int`.  This holds for every grid, target and distance function. -/
theorem loop_equals_single_scan {α : Type} [LinearOrderedField α] [FloorRing α]
    (gc : α → α → α → α → α) (data_lat data_lon : Int → Int → α)
    (target_lat target_lon : α) (rows cols : Int) (fuel : Nat) :
    search_loop gc data_lat data_lon target_lat target_lon rows cols (fuel + 2)
        99999 (-9999) (-9999) =
      some ((scan_grid gc data_lat data_lon target_lat target_lon rows cols
              { closest := 99999, tmp_row := -9999, tmp_col := -9999 }).tmp_row,
            (scan_grid gc data_lat data_lon target_lat target_lon rows cols
              { closest := 99999, tmp_row := -9999, tmp_col := -9999 }).tmp_col,
            (scan_grid gc data_lat data_lon target_lat target_lon rows cols
              { closest := 99999, tmp_row := -9999, tmp_col := -9999 }).closest) ∧
    get_indices_from_lat_long gc data_lat data_lon target_lat target_lon rows cols (fuel + 2) =
      some ((scan_grid gc data_lat data_lon target_lat target_lon rows cols
              { closest := 99999, tmp_row := -9999, tmp_col := -9999 }).tmp_row,
            (scan_grid gc data_lat data_lon target_lat target_lon rows cols
              { closest := 99999, tmp_row := -9999, tmp_col := -9999 }).tmp_col,
            double_to_int (scan_grid gc data_lat data_lon target_lat target_lon rows cols
              { closest := 99999, tmp_row := -9999, tmp_col := -9999 }).closest) := by
  have h := search_loop_eq_scan gc data_lat data_lon target_lat target_lon rows cols
    99999 (-9999) (-9999) fuel
  refine ⟨h, ?_⟩
  rw [get_indices_from_lat_long, h]

/-- C30: the loop of `get_indices_from_lat_long` ends after at most two
executions of its body, for every grid, target and distance function.  When no
valid cell is closer than 99999 it ends after one scan.  Otherwise it does not
end after one scan and ends after the second, and the second scan, started from
the state left by the first, changes nothing. -/
theorem loop_scan_count {α : Type} [LinearOrderedField α]
    (gc : α → α → α → α → α) (data_lat data_lon : Int → Int → α)
    (target_lat target_lon : α) (rows cols : Int) :
    (∀ fuel, (search_loop gc data_lat data_lon target_lat target_lon rows cols (fuel + 2)
        99999 (-9999) (-9999)).isSome = true) ∧
    ((∀ r c, 0 ≤ r ∧ r < rows → 0 ≤ c ∧ c < cols →
        data_lat r c > -9999 → data_lon r c > -9999 →
        99999 ≤ gc (data_lat r c) (data_lon r c) target_lat target_lon) →
      search_loop gc data_lat data_lon target_lat target_lon rows cols 1
        99999 (-9999) (-9999) = some (-9999, -9999, 99999)) ∧
    ((∃ r c, (0 ≤ r ∧ r < rows) ∧ (0 ≤ c ∧ c < cols) ∧
        data_lat r c > -9999 ∧ data_lon r c > -9999 ∧
        gc (data_lat r c) (data_lon r c) target_lat target_lon < 99999) →
      search_loop gc data_lat data_lon target_lat target_lon rows cols 1
        99999 (-9999) (-9999) = none ∧
      search_loop gc data_lat data_lon target_lat target_lon rows cols 2
        99999 (-9999) (-9999) =
        some ((scan_grid gc data_lat data_lon target_lat target_lon rows cols
                { closest := 99999, tmp_row := -9999, tmp_col := -9999 }).tmp_row,
              (scan_grid gc data_lat data_lon target_lat target_lon rows cols
                { closest := 99999, tmp_row := -9999, tmp_col := -9999 }).tmp_col,
              (scan_grid gc data_lat data_lon target_lat target_lon rows cols
                { closest := 99999, tmp_row := -9999, tmp_col := -9999 }).closest) ∧
      scan_grid gc data_lat data_lon target_lat target_lon rows cols
        (scan_grid gc data_lat data_lon target_lat target_lon rows cols
          { closest := 99999, tmp_row := -9999, tmp_col := -9999 }) =
        scan_grid gc data_lat data_lon target_lat target_lon rows cols
          { closest := 99999, tmp_row := -9999, tmp_col := -9999 }) := by
  refine ⟨?_, ?_, ?_⟩
  · intro fuel
    rw [search_loop_eq_scan]
    rfl
  · intro hno
    apply search_loop_fixed
    intro p hp hv
    have hin := (mem_grid_cells rows cols p).mp hp
    exact hno p.1 p.2 hin.1 hin.2 hv.1 hv.2
  · rintro ⟨r, c, hr, hc, hlat, hlon, hd⟩
    obtain ⟨r', c', -, -, -, -, -, hone, -⟩ :=
      search_loop_found gc data_lat data_lon target_lat target_lon rows cols 99999 (-9999) (-9999)
        (by norm_num) ⟨(r, c), (mem_grid_cells rows cols (r, c)).mpr ⟨hr, hc⟩, ⟨hlat, hlon⟩, hd⟩
    exact ⟨hone,
      search_loop_eq_scan gc data_lat data_lon target_lat target_lon rows cols 99999 (-9999) (-9999) 0,
      scan_grid_idempotent gc data_lat data_lon target_lat target_lon rows cols _⟩

/-- C32 fails on the code: for a 2 x 2 variable of integer class whose elements
are 4 bytes wide in the file, the buffer of `get_variable_data_by_name` has 16
bytes (line 919 takes the element size from `H5Tget_size`), while the reshape of
`get_variable_data_by_name_dimalloc2` reads elements of `sizeof(long) = 8` bytes
and runs past the end of the buffer: the read for `[1][0]`, at flat index 2, is
outside it, and the call has no defined result. -/
theorem reshape_reads_past_buffer_failing_input :
    (get_variable_data_by_name example_int32_dataset).map (fun b => b.bytes) = some 16 ∧
    (get_variable_data_by_name_dimalloc2 sizeof_tag example_int32_dataset).isSome = false ∧
    ((get_variable_data_by_name example_int32_dataset).bind
      (fun b => b.load (sizeof_tag Kind.H5T_INTEGER * (1 * 2 + 0))
        (sizeof_tag Kind.H5T_INTEGER))).isSome = false ∧
    sizeof_tag example_int32_dataset.type = 8 ∧ example_int32_dataset.type_size = 4 := by
  refine ⟨by decide!, by decide!, by decide!, rfl, rfl⟩

section ReaderTheorems

variable {α : Type}

/-- When the type size reported for a `rows x cols` variable equals the width
that the reshape uses for its tag (and the byte counts do not wrap),
`get_variable_data_by_name` returns a buffer of `type_size * total_data_count`
bytes, the reshape returns, every read of the reshape lies inside that buffer,
and `[row][col]` of the nested array is the scalar number `row * cols + col` of
the dataset. -/
lemma reshape_within_buffer (width : Kind → Nat) (v : Dataset α) (rows cols d2 : Nat)
    (hdims : v.dims = [rows, cols, d2]) (hrows : 1 ≤ rows) (hcols : 1 ≤ cols)
    (hsame : v.type_size = width v.type) (hw : 1 ≤ width v.type)
    (hcount : width v.type * (rows * cols * (if d2 ≠ 0 then d2 else 1)) < 2 ^ 64)
    (hfit : sizeof_ptr * rows + rows * cols * width v.type < 2 ^ 64) :
    ∃ data nested, get_variable_data_by_name v = some data ∧
      data.bytes = v.type_size * (rows * cols * (if d2 ≠ 0 then d2 else 1)) ∧
      get_variable_data_by_name_dimalloc2 width v = some nested ∧
      ∀ row col, row < rows → col < cols →
        nested.at2 (width v.type) row col = data.at1 (width v.type) (row * cols + col) ∧
        nested.at2 (width v.type) row col = some (v.values (row * cols + col)) := by
  set w := width v.type with hwdef
  set k := (if d2 ≠ 0 then d2 else 1) with hk
  have hk1 : 1 ≤ k := by
    rw [hk]; split_ifs with h
    · exact Nat.one_le_iff_ne_zero.mpr h
    · exact le_refl 1
  have hprod : rows * cols * k < 2 ^ 64 :=
    lt_of_le_of_lt (Nat.le_mul_of_pos_left _ hw) hcount
  have htotal : total_data_count v.dims = some (rows * cols * k) := by
    rw [hdims, total_data_count_mod]
    have hr : rows ≠ 0 := by omega
    have hc : cols ≠ 0 := by omega
    simp only [hr, hc, ne_eq, not_false_eq_true, if_true]
    rw [Nat.mod_eq_of_lt hprod]
  have hdata : get_variable_data_by_name v =
      some { bytes := w * (rows * cols * k), ptrs := fun _ => none,
             elems := fun o => if o % w = 0 then v.values (o / w) else none } := by
    simp only [get_variable_data_by_name, htotal, Option.bind_eq_bind, Option.some_bind,
      Option.pure_def, hsame, size_mul_of_lt hcount]
  have hbuf : w * (rows * cols) ≤ w * (rows * cols * k) :=
    Nat.mul_le_mul_left _ (Nat.le_mul_of_pos_right _ hk1)
  obtain ⟨nested, hnested, -, hat⟩ :=
    convert_1d_to_2d_at2 width
      ({ bytes := w * (rows * cols * k), ptrs := fun _ => none,
         elems := fun o => if o % w = 0 then v.values (o / w) else none } : Block α)
      v.type rows cols hw hfit hbuf
  refine ⟨_, nested, hdata, by rw [hsame], ?_, ?_⟩
  · simp only [get_variable_data_by_name_dimalloc2, hdims, List.getElem?_cons_zero,
      List.getElem?_cons_succ, Option.bind_eq_bind, Option.some_bind]
    rw [hdata]
    simp only [Option.some_bind, dimalloc2_reshape_eq]
    exact hnested
  · intro row col hr hc
    obtain ⟨h1, h2⟩ := hat row col hr hc
    refine ⟨h1, ?_⟩
    rw [h2]
    have hwpos : 0 < w := hw
    simp only [Nat.mul_mod_right, if_true, Nat.mul_div_cancel_left _ hwpos]

end ReaderTheorems

/-- C33, amended: `get_indices_from_lat_long` stops after two executions of the
loop body, and the index it returns is inside the grid if and only if the grid
has a valid cell whose computed distance is below 99999.  When `asin` returns
NaN or a value that is not above 2 (its range is `[-pi/2, pi/2]`), that is the
case if and only if the grid has a valid cell whose computed distance is not
NaN.  In particular, when the C library maps NaN to NaN and a coordinate of the
target is NaN, the result is the sentinel `(-9999, -9999)` whatever the grid
holds. -/
theorem index_in_grid_iff_computed_candidate (m : Libm) (data_lat data_lon : Int → Int → Fp)
    (target_lat target_lon : Fp) (rows cols : Int) (fuel : Nat) (hfuel : 2 ≤ fuel) :
    ∃ row col closest,
      search_loop_double (gc_distance_double m) data_lat data_lon target_lat target_lon
        rows cols fuel (Fp.fin 99999) (-9999) (-9999) = some (row, col, closest) ∧
      get_indices_from_lat_long_double (gc_distance_double m) data_lat data_lon
        target_lat target_lon rows cols fuel =
          (Fp.to_int closest).map (fun d => (row, col, d)) ∧
      (((0 ≤ row ∧ row < rows) ∧ (0 ≤ col ∧ col < cols)) ↔
        ∃ r c, (0 ≤ r ∧ r < rows) ∧ (0 ≤ c ∧ c < cols) ∧
          Fp.lt (Fp.fin (-9999)) (data_lat r c) = true ∧
          Fp.lt (Fp.fin (-9999)) (data_lon r c) = true ∧
          Fp.lt (gc_distance_double m (data_lat r c) (data_lon r c) target_lat target_lon)
            (Fp.fin 99999) = true) ∧
      ((∀ x, m.asin x = Fp.nan ∨ Fp.lt (Fp.fin 2) (m.asin x) = false) →
        (((0 ≤ row ∧ row < rows) ∧ (0 ≤ col ∧ col < cols)) ↔
          ∃ r c, (0 ≤ r ∧ r < rows) ∧ (0 ≤ c ∧ c < cols) ∧
            Fp.lt (Fp.fin (-9999)) (data_lat r c) = true ∧
            Fp.lt (Fp.fin (-9999)) (data_lon r c) = true ∧
            gc_distance_double m (data_lat r c) (data_lon r c) target_lat target_lon ≠ Fp.nan)) ∧
      ((target_lat = Fp.nan ∨ target_lon = Fp.nan) →
        m.sin Fp.nan = Fp.nan → m.pow Fp.nan (Fp.fin 2) = Fp.nan → m.asin Fp.nan = Fp.nan →
        row = -9999 ∧ col = -9999 ∧ closest = Fp.fin 99999) := by
  have hequiv : (∀ x, m.asin x = Fp.nan ∨ Fp.lt (Fp.fin 2) (m.asin x) = false) →
      ((∃ r c, (0 ≤ r ∧ r < rows) ∧ (0 ≤ c ∧ c < cols) ∧
          Fp.lt (Fp.fin (-9999)) (data_lat r c) = true ∧
          Fp.lt (Fp.fin (-9999)) (data_lon r c) = true ∧
          Fp.lt (gc_distance_double m (data_lat r c) (data_lon r c) target_lat target_lon)
            (Fp.fin 99999) = true) ↔
        ∃ r c, (0 ≤ r ∧ r < rows) ∧ (0 ≤ c ∧ c < cols) ∧
          Fp.lt (Fp.fin (-9999)) (data_lat r c) = true ∧
          Fp.lt (Fp.fin (-9999)) (data_lon r c) = true ∧
          gc_distance_double m (data_lat r c) (data_lon r c) target_lat target_lon ≠ Fp.nan) := by
    intro hasin
    constructor
    · rintro ⟨r, c, hr, hc, h1, h2, h3⟩
      refine ⟨r, c, hr, hc, h1, h2, ?_⟩
      intro hn
      rw [hn, fp_lt_nan_left] at h3
      exact Bool.false_ne_true h3
    · rintro ⟨r, c, hr, hc, h1, h2, h3⟩
      refine ⟨r, c, hr, hc, h1, h2, ?_⟩
      rcases gc_distance_double_lt_sentinel m hasin (data_lat r c) (data_lon r c)
        target_lat target_lon with h | h
      · exact absurd h h3
      · exact h
  obtain ⟨k, rfl⟩ := Nat.exists_eq_add_of_le hfuel
  by_cases hc : ∃ r c, (0 ≤ r ∧ r < rows) ∧ (0 ≤ c ∧ c < cols) ∧
      Fp.lt (Fp.fin (-9999)) (data_lat r c) = true ∧
      Fp.lt (Fp.fin (-9999)) (data_lon r c) = true ∧
      Fp.lt (gc_distance_double m (data_lat r c) (data_lon r c) target_lat target_lon)
        (Fp.fin 99999) = true
  · obtain ⟨row, col, hmem, -, hlt, -, -, -, hres⟩ :=
      search_loop_double_found (gc_distance_double m) data_lat data_lon target_lat target_lon
        rows cols (Fp.fin 99999) (-9999) (-9999) (by norm_num)
        ((exists_candidate_double _ data_lat data_lon target_lat target_lon rows cols).mp hc)
    have hin := (mem_grid_cells rows cols (row, col)).mp hmem
    have hs := hres k
    rw [Nat.add_comm] at hs
    refine ⟨row, col, _, hs, get_indices_double_of_search _ _ _ _ _ _ _ _ _ _ _ hs,
      ⟨fun _ => hc, fun _ => hin⟩,
      fun hasin => ⟨fun _ => (hequiv hasin).mp hc, fun _ => hin⟩, ?_⟩
    intro hnan hsin hpow hasin
    exfalso
    rw [cell_dist_double, gc_distance_double_nan m _ _ _ _ hsin hpow hasin hnan,
      fp_lt_nan_left] at hlt
    exact Bool.false_ne_true hlt
  · have hno : ∀ p ∈ grid_cells rows cols, cell_valid_double data_lat data_lon p →
        Fp.lt (cell_dist_double (gc_distance_double m) data_lat data_lon target_lat target_lon p)
          (Fp.fin 99999) = false := by
      intro p hp hv
      by_contra hcon
      exact hc ((exists_candidate_double _ data_lat data_lon target_lat target_lon rows cols).mpr
        ⟨p, hp, hv, Bool.eq_true_of_not_eq_false hcon⟩)
    have hs := search_loop_double_fixed (gc_distance_double m) data_lat data_lon
      target_lat target_lon rows cols (Fp.fin 99999) (-9999) (-9999) hno (k + 1)
    have e : 2 + k = k + 1 + 1 := by omega
    rw [e]
    have hout : ¬ ((0 ≤ (-9999 : Int) ∧ (-9999 : Int) < rows) ∧
        (0 ≤ (-9999 : Int) ∧ (-9999 : Int) < cols)) := by
      rintro ⟨⟨h0, -⟩, -⟩
      exact absurd h0 (by norm_num)
    refine ⟨-9999, -9999, Fp.fin 99999, hs,
      get_indices_double_of_search _ _ _ _ _ _ _ _ _ _ _ hs,
      ⟨fun h => absurd h hout, fun h => absurd h hc⟩,
      fun hasin => ⟨fun h => absurd h hout, fun h => absurd ((hequiv hasin).mpr h) hc⟩,
      fun _ _ _ _ => ⟨rfl, rfl, rfl⟩⟩

/-- Witness for the amended C33: the 1 x 2 grid of the amended C1 with a valid
target. -/
theorem index_in_grid_iff_computed_candidate_witness :
    ∃ row col closest,
      search_loop_double (gc_distance_double example_libm) example_tie_lat
        (fun _ _ => Fp.fin 20) (Fp.fin 2) (Fp.fin 20) 1 2 2 (Fp.fin 99999) (-9999) (-9999) =
          some (row, col, closest) ∧
      get_indices_from_lat_long_double (gc_distance_double example_libm) example_tie_lat
        (fun _ _ => Fp.fin 20) (Fp.fin 2) (Fp.fin 20) 1 2 2 =
          (Fp.to_int closest).map (fun d => (row, col, d)) ∧
      (((0 ≤ row ∧ row < 1) ∧ (0 ≤ col ∧ col < 2)) ↔
        ∃ r c, (0 ≤ r ∧ r < (1 : Int)) ∧ (0 ≤ c ∧ c < (2 : Int)) ∧
          Fp.lt (Fp.fin (-9999)) (example_tie_lat r c) = true ∧
          Fp.lt (Fp.fin (-9999)) ((fun _ _ => Fp.fin 20) r c) = true ∧
          Fp.lt (gc_distance_double example_libm (example_tie_lat r c)
            ((fun _ _ => Fp.fin 20) r c) (Fp.fin 2) (Fp.fin 20)) (Fp.fin 99999) = true) ∧
      ((∀ x, example_libm.asin x = Fp.nan ∨ Fp.lt (Fp.fin 2) (example_libm.asin x) = false) →
        (((0 ≤ row ∧ row < 1) ∧ (0 ≤ col ∧ col < 2)) ↔
          ∃ r c, (0 ≤ r ∧ r < (1 : Int)) ∧ (0 ≤ c ∧ c < (2 : Int)) ∧
            Fp.lt (Fp.fin (-9999)) (example_tie_lat r c) = true ∧
            Fp.lt (Fp.fin (-9999)) ((fun _ _ => Fp.fin 20) r c) = true ∧
            gc_distance_double example_libm (example_tie_lat r c)
              ((fun _ _ => Fp.fin 20) r c) (Fp.fin 2) (Fp.fin 20) ≠ Fp.nan)) ∧
      ((Fp.fin 2 = Fp.nan ∨ Fp.fin 20 = Fp.nan) →
        example_libm.sin Fp.nan = Fp.nan → example_libm.pow Fp.nan (Fp.fin 2) = Fp.nan →
        example_libm.asin Fp.nan = Fp.nan →
        row = -9999 ∧ col = -9999 ∧ closest = Fp.fin 99999) :=
  index_in_grid_iff_computed_candidate example_libm example_tie_lat (fun _ _ => Fp.fin 20)
    (Fp.fin 2) (Fp.fin 20) 1 2 2 (le_refl 2)

/-- C33, as stated, fails: on the 1 x 1 grid holding the valid cell (0, 0), with
a target whose latitude is NaN (as `atof("nan")` returns), the computed
distance is NaN, the test `closest > distance` fails and
`get_indices_from_lat_long` returns the sentinel, which is outside the grid. -/
theorem nan_target_counterexample :
    get_indices_from_lat_long_double (gc_distance_double example_libm)
      (fun _ _ => Fp.fin 0) (fun _ _ => Fp.fin 0) Fp.nan (Fp.fin 0) 1 1 2 =
        some (-9999, -9999, 99999) ∧
    (Fp.lt (Fp.fin (-9999)) ((fun _ _ => Fp.fin 0) (0 : Int) (0 : Int)) = true ∧
      (0 : Int) < 1) ∧
    gc_distance_double example_libm (Fp.fin 0) (Fp.fin 0) Fp.nan (Fp.fin 0) = Fp.nan ∧
    ¬ (0 ≤ (-9999 : Int)) :=
  ⟨by decide!, ⟨by decide!, by decide⟩, by decide!, by decide⟩

/-- C35: when the variable's grid has the row and column counts of the
coordinate grid, both below `2^24`, the rescaling of lines 337-338 returns the
found index unchanged. -/
theorem rescale_same_shape_identity (row col rows cols : Int)
    (hrow : 0 ≤ row ∧ row < rows) (hcol : 0 ≤ col ∧ col < cols)
    (hrows : rows < 2 ^ 24) (hcols : cols < 2 ^ 24) :
    rescale_indices row col rows cols rows cols = some (row, col) := by
  simp only [rescale_indices, rescale_index_same_count row rows hrow hrows,
    rescale_index_same_count col cols hcol hcols]

/-- Witness for C35: the index (3071, 4063) of a 3072 x 4064 grid. -/
theorem rescale_same_shape_identity_witness :
    ((0 : Int) ≤ 3071 ∧ (3071 : Int) < 3072) ∧ ((0 : Int) ≤ 4063 ∧ (4063 : Int) < 4064) ∧
    (3072 : Int) < 2 ^ 24 ∧ (4064 : Int) < 2 ^ 24 ∧
    rescale_indices 3071 4063 3072 4064 3072 4064 = some (3071, 4063) :=
  ⟨by decide, by decide, by decide, by decide,
    rescale_same_shape_identity 3071 4063 3072 4064 (by decide) (by decide) (by decide)
      (by decide)⟩

/-- C36, as stated, fails: for the found row 13103684 of a coordinate grid of
13103685 rows and a variable of 16777216 rows, the rescaled row is 16777216,
which is not below the variable's row count. -/
theorem rescale_in_range_counterexample :
    ((0 : Int) ≤ 13103684 ∧ (13103684 : Int) < 13103685) ∧ (1 : Int) ≤ 16777216 ∧
    rescale_indices 13103684 0 16777216 1 13103685 1 = some (16777216, 0) ∧
    ¬ ((16777216 : Int) < 16777216) := by
  exact ⟨by norm_num, by norm_num,
    rescale_indices_of_index _ _ _ _ _ _ _ _ rescale_index_large_grid (by decide!),
    by norm_num⟩

/-- C36, amended: for a found index inside a coordinate grid of at most `2^23`
rows and columns and a variable grid with between 1 and `2^24 - 1` rows and
columns, the rescaled index of lines 337-338 is defined and lies inside the
variable's grid. -/
theorem rescale_indices_in_range (row col tgt_rows tgt_cols src_rows src_cols : Int)
    (hrow : 0 ≤ row ∧ row < src_rows) (hcol : 0 ≤ col ∧ col < src_cols)
    (hsrc : src_rows ≤ 2 ^ 23 ∧ src_cols ≤ 2 ^ 23)
    (htgt_rows : 1 ≤ tgt_rows ∧ tgt_rows < 2 ^ 24)
    (htgt_cols : 1 ≤ tgt_cols ∧ tgt_cols < 2 ^ 24) :
    ∃ new_row new_col,
      rescale_indices row col tgt_rows tgt_cols src_rows src_cols = some (new_row, new_col) ∧
      (0 ≤ new_row ∧ new_row < tgt_rows) ∧ (0 ≤ new_col ∧ new_col < tgt_cols) := by
  obtain ⟨nr, hnr, hnr0, hnr1⟩ := rescale_index_in_range row tgt_rows src_rows hrow hsrc.1 htgt_rows
  obtain ⟨nc, hnc, hnc0, hnc1⟩ := rescale_index_in_range col tgt_cols src_cols hcol hsrc.2 htgt_cols
  exact ⟨nr, nc, rescale_indices_of_index _ _ _ _ _ _ _ _ hnr hnc, ⟨hnr0, hnr1⟩, ⟨hnc0, hnc1⟩⟩

/-- Witness for the amended C36: the index (3071, 4063) of a 3072 x 4064
coordinate grid and a variable of 768 x 1016. -/
theorem rescale_indices_in_range_witness :
    ∃ new_row new_col,
      rescale_indices 3071 4063 768 1016 3072 4064 = some (new_row, new_col) ∧
      (0 ≤ new_row ∧ new_row < 768) ∧ (0 ≤ new_col ∧ new_col < 1016) :=
  rescale_indices_in_range 3071 4063 768 1016 3072 4064 (by decide) (by decide) (by decide)
    (by decide) (by decide)

section Levels

variable {α : Type}

/-- C37: for every buffer `buf` that holds at least `rows * cols` scalars and
extents `levs, rows, cols >= 1` (with a nested array that fits in `size_t`),
`convert_1d_to_3d` returns an array with
`out[lev][row][col] = buf[row * cols + col]` for every level; the result is the
same for every buffer that agrees with `buf` on its first `rows * cols`
scalars, so no scalar at index `rows * cols` or above is read. -/
theorem convert_1d_to_3d_copies_first_plane (width : Kind → Nat) (type : Kind)
    (levs rows cols : Nat) (buf : Block α) (hw : 1 ≤ width type) (hlevs : 1 ≤ levs)
    (hfit : sizeof_ptr * levs + sizeof_ptr * (levs * rows) + levs * rows * cols * width type
      < 2 ^ 64)
    (hbuf : width type * (rows * cols) ≤ buf.bytes) :
    ∃ out, convert_1d_to_3d width buf type levs rows cols = some out ∧
      (∀ lev row col, lev < levs → row < rows → col < cols →
        out.at3 (width type) lev row col = buf.at1 (width type) (row * cols + col)) ∧
      (∀ buf' : Block α, width type * (rows * cols) ≤ buf'.bytes →
        (∀ n, n < rows * cols → buf'.at1 (width type) n = buf.at1 (width type) n) →
        convert_1d_to_3d width buf' type levs rows cols = some out) := by
  have hRC : rows * cols < 2 ^ 64 := by
    have h1 : rows * cols ≤ levs * (rows * cols) := Nat.le_mul_of_pos_left _ hlevs
    have h2 : levs * (rows * cols) ≤ levs * (rows * cols) * width type :=
      Nat.le_mul_of_pos_right _ hw
    have e : levs * (rows * cols) * width type = levs * rows * cols * width type := by ring
    omega
  have hload : ∀ (b : Block α), width type * (rows * cols) ≤ b.bytes →
      ∀ n, n < rows * cols →
        b.at1 (width type) n = some (b.elems (width type * n)) := by
    intro b hb n hn
    have : width type * n + width type ≤ b.bytes := by
      have : width type * (n + 1) ≤ width type * (rows * cols) := Nat.mul_le_mul_left _ hn
      have e : width type * (n + 1) = width type * n + width type := by ring
      omega
    rw [Block.at1, Block.load, if_pos this]
  obtain ⟨out, hout, hbytes, ⟨d0, hd0, hp0⟩, hptrs1, hptrs2, hval, hnone⟩ :=
    convert_1d_to_3d_spec width buf type levs rows cols hw hfit hRC hbuf
  refine ⟨out, hout, ?_, ?_⟩
  · intro lev row col hl hr hc
    have hidx := index3_of_layout out (width type) levs rows cols hbytes hptrs1 hptrs2
      lev row col hl hr
    have hlt := key3_lt hl hr hc
    have hin : sizeof_ptr * levs + sizeof_ptr * (levs * rows)
        + ((lev * rows + row) * cols + col) * width type + width type ≤ out.bytes := by
      have : ((lev * rows + row) * cols + col + 1) * width type
          ≤ levs * rows * cols * width type := Nat.mul_le_mul_right _ hlt
      have e : ((lev * rows + row) * cols + col + 1) * width type =
        ((lev * rows + row) * cols + col) * width type + width type := by ring
      rw [hbytes]
      omega
    rw [hload buf hbuf _ (cell_index_lt hr hc)]
    simp only [Block.at3, hidx, Option.bind_eq_bind, Option.some_bind, Block.load, if_pos hin,
      hval lev row col hl hr hc]
  · intro buf' hbuf' hagree
    obtain ⟨out', hout', hbytes', ⟨d0', hd0', hp0'⟩, -, -, hval', hnone'⟩ :=
      convert_1d_to_3d_spec width buf' type levs rows cols hw hfit hRC hbuf'
    rw [hout']
    have hd : d0' = d0 := by
      rw [hd0] at hd0'
      cases hd0'
      rfl
    have hptrs : out'.ptrs = out.ptrs := by rw [hp0', hp0, hd]
    have helems : out'.elems = out.elems := by
      funext o
      by_cases ho : ∃ x ∈ cells3 levs rows cols,
          sizeof_ptr * levs + sizeof_ptr * (levs * rows)
            + ((x.1 * rows + x.2.1) * cols + x.2.2) * width type = o
      · obtain ⟨x, hx, rfl⟩ := ho
        obtain ⟨hl, hr, hc⟩ := (mem_cells3 levs rows cols x).mp hx
        rw [hval' x.1 x.2.1 x.2.2 hl hr hc, hval x.1 x.2.1 x.2.2 hl hr hc]
        have h := hagree _ (cell_index_lt hr hc)
        rw [hload buf hbuf _ (cell_index_lt hr hc),
          hload buf' hbuf' _ (cell_index_lt hr hc)] at h
        exact Option.some.inj h
      · have ho' : ∀ x ∈ cells3 levs rows cols,
            sizeof_ptr * levs + sizeof_ptr * (levs * rows)
              + ((x.1 * rows + x.2.1) * cols + x.2.2) * width type ≠ o :=
          fun x hx heq => ho ⟨x, hx, heq⟩
        rw [hnone' o ho', hnone o ho']
    have hb : out'.bytes = out.bytes := by rw [hbytes', hbytes]
    cases out
    cases out'
    simp only at hb hptrs helems
    subst hb hptrs helems
    rfl

/-- C38: for every nested array `a` with extents `levs, rows, cols >= 1` whose
scalars can all be read, `convert_3d_to_1d` returns a buffer with room for
`levs * rows * cols` scalars that holds `a[levs - 1][row][col]` at index
`row * cols + col`; the positions at index `rows * cols` and above are never
assigned and stay indeterminate. -/
theorem convert_3d_to_1d_keeps_last_level (width : Kind → Nat) (type : Kind)
    (levs rows cols : Nat) (a : Block α) (hw : 1 ≤ width type) (hlevs : 1 ≤ levs)
    (hsize : width type * (levs * rows * cols) < 2 ^ 64)
    (hread : ∀ lev row col, lev < levs → row < rows → col < cols →
      ∃ c, a.at3 (width type) lev row col = some c) :
    ∃ flat, convert_3d_to_1d width a type levs rows cols = some flat ∧
      flat.bytes = width type * (levs * rows * cols) ∧
      (∀ row col, row < rows → col < cols →
        flat.at1 (width type) (row * cols + col) = a.at3 (width type) (levs - 1) row col) ∧
      (∀ n, rows * cols ≤ n → n < levs * rows * cols →
        flat.at1 (width type) n = some none) := by
  obtain ⟨flat, hflat, hbytes, hval, hnone⟩ :=
    convert_3d_to_1d_spec width a type levs rows cols hw hlevs hsize hread
  have hload : ∀ n, n < levs * rows * cols →
      flat.at1 (width type) n = some (flat.elems (width type * n)) := by
    intro n hn
    have : width type * n + width type ≤ flat.bytes := by
      have : width type * (n + 1) ≤ width type * (levs * rows * cols) :=
        Nat.mul_le_mul_left _ hn
      have e : width type * (n + 1) = width type * n + width type := by ring
      rw [hbytes]
      omega
    rw [Block.at1, Block.load, if_pos this]
  have hL : rows * cols ≤ levs * rows * cols := by
    have : 1 * (rows * cols) ≤ levs * (rows * cols) := Nat.mul_le_mul_right _ hlevs
    rw [Nat.mul_assoc]; omega
  refine ⟨flat, hflat, hbytes, ?_, ?_⟩
  · intro row col hr hc
    rw [hload _ (lt_of_lt_of_le (cell_index_lt hr hc) hL)]
    exact hval row col hr hc
  · intro n hn hnL
    rw [hload n hnL, hnone]
    intro p hp heq
    obtain ⟨hr, hc⟩ := (mem_cells2 rows cols p).mp hp
    have hlt := cell_index_lt hr hc
    have := Nat.eq_of_mul_eq_mul_left (by omega : 0 < width type) heq
    omega

end Levels

/-- Witness for C37: a buffer of the four 4-byte scalars `{10, 11, 12, 13}`
reshaped with `levs = 3`, `rows = cols = 2`. -/
theorem convert_1d_to_3d_copies_first_plane_witness :
    ∃ out, convert_1d_to_3d (fun _ => 4) (flat_of_list 4 [10, 11, 12, 13])
        Kind.H5T_NATIVE_FLOAT 3 2 2 = some out ∧
      (∀ lev row col, lev < 3 → row < 2 → col < 2 →
        out.at3 4 lev row col = (flat_of_list 4 [10, 11, 12, 13]).at1 4 (row * 2 + col)) ∧
      (∀ buf' : Block Nat, 4 * (2 * 2) ≤ buf'.bytes →
        (∀ n, n < 2 * 2 → buf'.at1 4 n = (flat_of_list 4 [10, 11, 12, 13]).at1 4 n) →
        convert_1d_to_3d (fun _ => 4) buf' Kind.H5T_NATIVE_FLOAT 3 2 2 = some out) :=
  convert_1d_to_3d_copies_first_plane (fun _ => 4) Kind.H5T_NATIVE_FLOAT 3 2 2
    (flat_of_list 4 [10, 11, 12, 13]) (by decide) (by decide) (by decide) (by decide)

/-- Witness for C38: the 2 x 1 x 2 array `example_nested_2x1x2` of 4-byte
scalars. -/
theorem convert_3d_to_1d_keeps_last_level_witness :
    ∃ flat, convert_3d_to_1d (fun _ => 4) example_nested_2x1x2 Kind.H5T_NATIVE_UINT 2 1 2
        = some flat ∧
      flat.bytes = 4 * (2 * 1 * 2) ∧
      (∀ row col, row < 1 → col < 2 →
        flat.at1 4 (row * 2 + col) = example_nested_2x1x2.at3 4 (2 - 1) row col) ∧
      (∀ n, 1 * 2 ≤ n → n < 2 * 1 * 2 → flat.at1 4 n = some none) :=
  convert_3d_to_1d_keeps_last_level (fun _ => 4) Kind.H5T_NATIVE_UINT 2 1 2
    example_nested_2x1x2 (by decide) (by decide) (by decide)
    (by
      intro lev row col hl hr hc
      interval_cases lev <;> interval_cases row <;> interval_cases col <;> exact ⟨_, rfl⟩)

section RoundTripNested

variable {α : Type}

/-- C39: for every nested array `a` with `rows x cols` readable scalars of
width at least 1 (an array that, pointer slots included, fits in `size_t`),
`convert_2d_to_1d` followed by `convert_1d_to_2d` returns an array that holds
the value of `a` at every index `[row][col]`. -/
theorem round_trip_nested_2d (width : Kind → Nat) (type : Kind) (rows cols : Nat)
    (a : Block α) (hw : 1 ≤ width type)
    (hread : ∀ row col, row < rows → col < cols → ∃ c, a.at2 (width type) row col = some c)
    (hfit : sizeof_ptr * rows + rows * cols * width type < 2 ^ 64) :
    ∃ flat out, convert_2d_to_1d width a type rows cols = some flat ∧
      convert_1d_to_2d width flat type rows cols = some out ∧
      ∀ row col, row < rows → col < cols →
        out.at2 (width type) row col = a.at2 (width type) row col := by
  have hsize : width type * (rows * cols) < 2 ^ 64 := by
    rw [Nat.mul_comm]; omega
  obtain ⟨flat, hflat, hbytes, hcopy⟩ :=
    convert_2d_to_1d_spec width a type rows cols hw hsize hread
  obtain ⟨out, hout, -, hat⟩ :=
    convert_1d_to_2d_at2 width flat type rows cols hw hfit (by rw [hbytes])
  refine ⟨flat, out, hflat, hout, ?_⟩
  intro row col hr hc
  rw [(hat row col hr hc).1, hcopy row col hr hc]

end RoundTripNested

/-- Witness for C39: the 2 x 2 array `example_nested_2x2` of 4-byte scalars. -/
theorem round_trip_nested_2d_witness :
    ∃ flat out, convert_2d_to_1d (fun _ => 4) example_nested_2x2 Kind.H5T_FLOAT 2 2 = some flat ∧
      convert_1d_to_2d (fun _ => 4) flat Kind.H5T_FLOAT 2 2 = some out ∧
      ∀ row col, row < 2 → col < 2 →
        out.at2 4 row col = example_nested_2x2.at2 4 row col :=
  round_trip_nested_2d (fun _ => 4) Kind.H5T_FLOAT 2 2 example_nested_2x2 (by decide)
    (by
      intro row col hr hc
      interval_cases row <;> interval_cases col <;> exact ⟨_, rfl⟩)
    (by decide)

/-- C40: the allocation and copy that `get_variable_data_by_name_dimalloc2`
performs inline (lines 1116-1165) returns, for every buffer, tag and extents,
what `convert_1d_to_2d` returns for them; the whole function is
`convert_1d_to_2d` applied to the buffer of `get_variable_data_by_name` with
`rows = dims[0]` and `cols = dims[1]`. -/
theorem inline_reshape_eq_convert_1d_to_2d {α : Type} (width : Kind → Nat) (data : Block α)
    (type : Kind) (rows cols : Nat) :
    get_variable_data_by_name_dimalloc2_reshape width data type rows cols =
      convert_1d_to_2d width data type rows cols ∧
    ∀ (v : Dataset α) (d2 : Nat), v.dims = [rows, cols, d2] →
      get_variable_data_by_name_dimalloc2 width v =
        (get_variable_data_by_name v).bind
          (fun data => convert_1d_to_2d width data v.type rows cols) := by
  refine ⟨rfl, ?_⟩
  intro v d2 hdims
  simp only [get_variable_data_by_name_dimalloc2, hdims, List.getElem?_cons_zero,
    List.getElem?_cons_succ, Option.bind_eq_bind, Option.some_bind]
  rfl

end Hdf5Lookup
